import Mathlib

/-!
# TDMS segment serializer: shallow embedding and verified properties

Embedding of `src/src/TDMS.c` (the encoder with `TDMS_InitFile` and post-hoc
properties) together with `src/src/include/TDMS.h`, and of the construction
functions and the declaration builder of the legacy encoder `src/TDMS.c`
(under `Legacy`).

Conventions of the embedding

* A byte is a `Nat`; memory reached through a pointer is a total map
  `Mem = Nat → Nat` from index to byte.  A pointer `&Buffer[k]` is the pair of
  the map and the index `k`.  A possibly-NULL buffer is an `Option Mem`.
* A C string (`char *`) is the list of its bytes before the terminating NUL, so
  `strlen` is the length of the list and `strcpy` stores the bytes followed by
  one zero byte.
* `uint32_t` arithmetic is arithmetic on `Nat` reduced by `u32` (modulo `2^32`)
  at every assignment.
* The value `*Size` held before a call is an explicit argument, so that a call
  which does not store to `*Size` returns it unchanged.
* The data model is LP64: `int` has 32 bits and `unsigned long` 64 bits (the
  product `DiffDay * 86400ul` of `TDMS_TimeSecond` is taken in `unsigned long`).
  A loop `for (c = hi; c >= lo; c--)` is the fold over `countDown hi lo`.
* The construction functions `TDMS_InitFile`, `TDMS_AddGroupToFile` and
  `TDMS_AddChannelToGroup` act on `Objects`, the file, group and channel objects
  of the caller by address, and return the result code with the memory after
  the call.  A builder takes the file, group or channel as read through the
  pointers (`Objects.file`, `Objects.group`, `Objects.channel`).
-/

namespace TDMS

/-! ## Configuration constants -/

/-- Bound of a group name, `TDMS_GROUP_NAME_LEN` of `TDMS_config.h`. -/
def TDMS_GROUP_NAME_LEN : Nat := 30

/-- Bound of a channel name, `TDMS_CHANNEL_NAME_LEN` of `TDMS_config.h`. -/
def TDMS_CHANNEL_NAME_LEN : Nat := 30

/-- Modelled from the spec: the macro `TDMS_CONFIG_MAX_GROUP_OF_FILE` read by
`src/src/TDMS.c` has no definition among the sources (`TDMS_config.h` defines
`TDMS_MAX_GROUP_OF_FILE` as 4); the spec gives `MAX_GROUPS` the default 4. -/
def TDMS_CONFIG_MAX_GROUP_OF_FILE : Nat := 4

/-- Modelled from the spec: the macro `TDMS_CONFIG_MAX_CHANNEL_OF_GROUP` read by
`src/src/TDMS.c` has no definition among the sources (`TDMS_config.h` defines
`TDMS_MAX_CHANNEL_OF_GROUP` as 8); the spec gives `MAX_CHANNELS` the default 8. -/
def TDMS_CONFIG_MAX_CHANNEL_OF_GROUP : Nat := 8

/-- Length of the lead-in, `LeadInPartLen`. -/
def LeadInPartLen : Nat := 28

/-- The tag `TDSm`, `TAG_TDSm_Num`. -/
def TAG_TDSm_Num : Nat := 0x5444536D

/-- The version literal `Version_Number4713`. -/
def Version_Number4713 : Nat := 0x69120000

def kTocMetaData : Nat := 0x00000002
def kTocRawData : Nat := 0x00000008
def kTocNewObjList : Nat := 0x00000004
def kTocInterleavedData : Nat := 0x00000020
def kTocBigEndian : Nat := 0x00000040
def kTocDAQmxRawData : Nat := 0x00000080

/-! ## Exported data types (TDMS.h) -/

/-- Result codes `TDMS_Result_t`. -/
inductive TDMS_Result_t
  | TDMS_OK
  | TDMS_OUT_OF_CAP
  | TDMS_WRONG_ARG
  deriving DecidableEq, Repr

/-- Type tags `TDMS_Data_t` (the sentinel `TDMS_DataType_MAX` is not a tag). -/
inductive TDMS_Data_t
  | TDMS_DataType_Void
  | TDMS_DataType_I8
  | TDMS_DataType_I16
  | TDMS_DataType_I32
  | TDMS_DataType_I64
  | TDMS_DataType_U8
  | TDMS_DataType_U16
  | TDMS_DataType_U32
  | TDMS_DataType_U64
  | TDMS_DataType_SingleFloat
  | TDMS_DataType_DoubleFloat
  | TDMS_DataType_ExtendedFloat
  | TDMS_DataType_SingleFloatWithUnit
  | TDMS_DataType_DoubleFloatWithUnit
  | TDMS_DataType_ExtendedFloatWithUnit
  | TDMS_DataType_String
  | TDMS_DataType_Boolean
  | TDMS_DataType_TimeStamp
  | TDMS_DataType_FixedPoint
  | TDMS_DataType_ComplexSingleFloat
  | TDMS_DataType_ComplexDoubleFloat
  deriving DecidableEq, Repr

open TDMS_Result_t TDMS_Data_t

/-- Wire codes, the table `dataTypeBinary`. -/
def dataTypeBinary : TDMS_Data_t → Nat
  | TDMS_DataType_Void => 0x00000000
  | TDMS_DataType_I8 => 0x00000001
  | TDMS_DataType_I16 => 0x00000002
  | TDMS_DataType_I32 => 0x00000003
  | TDMS_DataType_I64 => 0x00000004
  | TDMS_DataType_U8 => 0x00000005
  | TDMS_DataType_U16 => 0x00000006
  | TDMS_DataType_U32 => 0x00000007
  | TDMS_DataType_U64 => 0x00000008
  | TDMS_DataType_SingleFloat => 0x00000009
  | TDMS_DataType_DoubleFloat => 0x0000000A
  | TDMS_DataType_ExtendedFloat => 0x0000000B
  | TDMS_DataType_SingleFloatWithUnit => 0x00000019
  | TDMS_DataType_DoubleFloatWithUnit => 0x0000001A
  | TDMS_DataType_ExtendedFloatWithUnit => 0x0000001B
  | TDMS_DataType_String => 0x00000020
  | TDMS_DataType_Boolean => 0x00000021
  | TDMS_DataType_TimeStamp => 0x00000044
  | TDMS_DataType_FixedPoint => 0x0000004F
  | TDMS_DataType_ComplexSingleFloat => 0x0008000C
  | TDMS_DataType_ComplexDoubleFloat => 0x0010000D

/-- Fixed byte widths, the table `dataTypeLength` (`sizeof(TDMS_Timestamp_t)`
is 16: a `uint64_t` followed by an `int64_t`). -/
def dataTypeLength : TDMS_Data_t → Nat
  | TDMS_DataType_Void => 1
  | TDMS_DataType_I8 => 1
  | TDMS_DataType_I16 => 2
  | TDMS_DataType_I32 => 4
  | TDMS_DataType_I64 => 8
  | TDMS_DataType_U8 => 1
  | TDMS_DataType_U16 => 2
  | TDMS_DataType_U32 => 4
  | TDMS_DataType_U64 => 8
  | TDMS_DataType_SingleFloat => 4
  | TDMS_DataType_DoubleFloat => 8
  | TDMS_DataType_ExtendedFloat => 0
  | TDMS_DataType_SingleFloatWithUnit => 0
  | TDMS_DataType_DoubleFloatWithUnit => 0
  | TDMS_DataType_ExtendedFloatWithUnit => 0
  | TDMS_DataType_String => 0
  | TDMS_DataType_Boolean => 1
  | TDMS_DataType_TimeStamp => 16
  | TDMS_DataType_FixedPoint => 0
  | TDMS_DataType_ComplexSingleFloat => 0
  | TDMS_DataType_ComplexDoubleFloat => 0

/-- Channel object `TDMS_Channel_t`: its type tag and its cached path (the
back pointer `GroupOfChannel` is never read by the encoder). -/
structure TDMS_Channel_t where
  ChannelDataType : TDMS_Data_t
  ChannelPath : List Nat

/-- Group object `TDMS_Group_t`: `ChannelArray` lists the first `NumOfChannels`
entries of the C array, in index order, each entry being the channel the stored
pointer refers to. -/
structure TDMS_Group_t where
  ChannelArray : List TDMS_Channel_t
  GroupPath : List Nat

/-- File object `TDMS_File_t`: `GroupArray` lists the first `NumOfGroups`
entries of the C array, in index order, each entry being the group the stored
pointer refers to. -/
structure TDMS_File_t where
  GroupArray : List TDMS_Group_t

/-- The counter field `NumOfChannels`. -/
def TDMS_Group_t.NumOfChannels (Group : TDMS_Group_t) : Nat := Group.ChannelArray.length

/-- The counter field `NumOfGroups`. -/
def TDMS_File_t.NumOfGroups (File : TDMS_File_t) : Nat := File.GroupArray.length

/-! ## Objects in caller memory

The construction functions work on objects the caller owns and link them by
pointers.  An address is a `Ptr`; `Objects` gives the object found at each
address.  An array member is the map from a slot index to the stored pointer. -/

/-- Address of an object in caller memory. -/
abbrev Ptr := Nat

/-- Memory of one `TDMS_Channel_t` object. -/
structure ChannelObject where
  GroupOfChannel : Ptr
  ChannelDataType : TDMS_Data_t
  ChannelPath : List Nat

/-- Memory of one `TDMS_Group_t` object. -/
structure GroupObject where
  FileOfGroup : Ptr
  NumOfChannels : Nat
  ChannelArray : Nat → Ptr
  GroupPath : List Nat

/-- Memory of one `TDMS_File_t` object. -/
structure FileObject where
  NumOfGroups : Nat
  GroupArray : Nat → Ptr

/-- Caller memory: the file, group and channel objects by address. -/
structure Objects where
  files : Ptr → FileObject
  groups : Ptr → GroupObject
  channels : Ptr → ChannelObject

/-- Store to the file object at address `File`. -/
def Objects.setFile (h : Objects) (File : Ptr) (v : FileObject) : Objects :=
  ⟨fun p => if p = File then v else h.files p, h.groups, h.channels⟩

/-- Store to the group object at address `Group`. -/
def Objects.setGroup (h : Objects) (Group : Ptr) (v : GroupObject) : Objects :=
  ⟨h.files, fun p => if p = Group then v else h.groups p, h.channels⟩

/-- Store to the channel object at address `Channel`. -/
def Objects.setChannel (h : Objects) (Channel : Ptr) (v : ChannelObject) : Objects :=
  ⟨h.files, h.groups, fun p => if p = Channel then v else h.channels p⟩

/-- The store `Array[i] = p` to an array of pointers. -/
def setSlot (Array : Nat → Ptr) (i : Nat) (p : Ptr) : Nat → Ptr :=
  fun j => if j = i then p else Array j

/-- The channel a builder reads through the pointer `Channel`. -/
def Objects.channel (h : Objects) (Channel : Ptr) : TDMS_Channel_t :=
  ⟨(h.channels Channel).ChannelDataType, (h.channels Channel).ChannelPath⟩

/-- The group a builder reads through the pointer `Group`: its path and the
channels behind the first `NumOfChannels` entries of its array. -/
def Objects.group (h : Objects) (Group : Ptr) : TDMS_Group_t :=
  ⟨(List.range (h.groups Group).NumOfChannels).map
      (fun i => h.channel ((h.groups Group).ChannelArray i)),
    (h.groups Group).GroupPath⟩

/-- The file a builder reads through the pointer `File`: the groups behind the
first `NumOfGroups` entries of its array. -/
def Objects.file (h : Objects) (File : Ptr) : TDMS_File_t :=
  ⟨(List.range (h.files File).NumOfGroups).map
      (fun i => h.group ((h.files File).GroupArray i))⟩

/-! ## Machine arithmetic, memory and strings -/

/-- Reduction of a value to `uint32_t`. -/
def u32 (x : Nat) : Nat := x % 4294967296

/-- Reduction of an integer value to `uint32_t`. -/
def u32z (x : Int) : Int := x % 4294967296

/-- Reduction of an integer value to `unsigned long`, taken with 64 bits (the
LP64 data model). -/
def ulong (x : Int) : Int := x % 18446744073709551616

/-- Conversion of an integer value to `int64_t`. -/
def int64 (x : Int) : Int :=
  (x + 9223372036854775808) % 18446744073709551616 - 9223372036854775808

/-- The values of the counter of a loop `for (c = hi; c >= lo; c--)`, in the
order the loop takes them (the counter does not leave its type: `lo` is above
the least value). -/
def countDown (hi lo : Int) : List Int :=
  (List.range (hi + 1 - lo).toNat).map (fun (i : Nat) => hi - (i : Int))

/-- Memory behind a pointer: index to byte. -/
abbrev Mem := Nat → Nat

/-- The store `m[i] = v`. -/
def memSet (m : Mem) (i v : Nat) : Mem := fun j => if j = i then v else m j

/-- Consecutive stores `m[off] = b0; m[off+1] = b1; ...`. -/
def writeBytes (m : Mem) (off : Nat) : List Nat → Mem
  | [] => m
  | b :: bs => writeBytes (memSet m off b) (off + 1) bs

/-- The first `n` bytes of a memory. -/
def memDump (m : Mem) (n : Nat) : List Nat := (List.range n).map m

/-- Library function `strlen` on the list representation of a C string. -/
def strlen (s : List Nat) : Nat := s.length

/-- Library function `strcpy(&dst[off], s)`: the bytes of `s` and the terminating NUL. -/
def strcpy (dst : Mem) (off : Nat) (s : List Nat) : Mem := writeBytes dst off (s ++ [0])

/-- Library function `memcpy(&dst[off], src, n)` from a source object given by
the list of its bytes (the object must hold at least `n` bytes). -/
def memcpy (dst : Mem) (off : Nat) (src : List Nat) (n : Nat) : Mem :=
  writeBytes dst off (src.take n)

/-- Library function `memcpy(&dst[off], src, n)` from caller memory. -/
def memcpyMem (dst : Mem) (off : Nat) (src : Mem) (n : Nat) : Mem :=
  writeBytes dst off (memDump src n)

/-! ## Private functions of TDMS.c -/

/-- Conversion of a nonnegative `int` to `int16_t`. -/
def int16 (x : Nat) : Int := Int.ofNat ((x + 32768) % 65536) - 32768

/-- The year of the LabVIEW timestamp base, `BaseYear`. -/
def BaseYear : Int := 1904

/-- The month of the LabVIEW timestamp base, `BaseMonth`. -/
def BaseMonth : Int := 1

/-- The day of the LabVIEW timestamp base, `BaseDay`. -/
def BaseDay : Int := 1

/-- The macro `leapYear(year)`; its operand is positive wherever the macro is
used, so the remainder of C is the modulus. -/
def leapYear (year : Int) : Nat :=
  if (year % 4 = 0 ∧ year % 100 ≠ 0) ∨ year % 400 = 0 then 1 else 0

/-- The table `daysPerMonth[2][13]`. -/
def daysPerMonth : List (List Int) :=
  [[-1, 31, 28, 31, 30, 31, 30, 31, 31, 30, 31, 30, 31],
   [-1, 31, 29, 31, 30, 31, 30, 31, 31, 30, 31, 30, 31]]

/-- The read `daysPerMonth[leap][m]`, `none` outside the bounds of a row. -/
def daysPerMonthAt (leap : Nat) (m : Int) : Option Int :=
  if 0 ≤ m then (daysPerMonth[leap]?).bind (fun row => row[m.toNat]?) else none

/-- Loop over the months of `TDMS_DateDef` in the branch `y == Year`. -/
def DateDef.currentYear (Day Month : Nat) (y : Int) (total_days : Int) : Option Int :=
  (countDown (Month : Int) 1).foldlM (fun total_days m =>
    if m = (Month : Int) then some (u32z (total_days + Day))
    else (daysPerMonthAt (leapYear y) m).map (fun d => u32z (total_days + d))) total_days

/-- Loop over the months of `TDMS_DateDef` in the branch `y == BaseYear`. -/
def DateDef.baseYear (y : Int) (total_days : Int) : Option Int :=
  (countDown 12 BaseMonth).foldlM (fun total_days m =>
    if m = BaseMonth then
      (daysPerMonthAt (leapYear y) m).map (fun d => u32z (total_days + (d - BaseDay)))
    else (daysPerMonthAt (leapYear y) m).map (fun d => u32z (total_days + d))) total_days

/-- Loop over the months of `TDMS_DateDef` in the last branch. -/
def DateDef.fullYear (y : Int) (total_days : Int) : Option Int :=
  (countDown 12 1).foldlM (fun total_days m =>
    (daysPerMonthAt (leapYear y) m).map (fun d => u32z (total_days + d))) total_days

/-- Body of the loop over the years of `TDMS_DateDef`. -/
def DateDef.year (Day Month Year : Nat) (total_days : Int) (y : Int) : Option Int :=
  if y = (Year : Int) then DateDef.currentYear Day Month y total_days
  else if y = BaseYear then DateDef.baseYear y total_days
  else DateDef.fullYear y total_days

/-- Function `TDMS_DateDef(Day, Month, Year)` with `Day`, `Month` of type
`uint8_t` and `Year` of type `uint16_t`: the loop counter `y` is an `int16_t`
that starts at the converted `Year`; the result is `none` when a read of
`daysPerMonth` is out of bounds. -/
def TDMS_DateDef (Day Month Year : Nat) : Option Int :=
  if (Year : Int) < BaseYear then some 0
  else (countDown (int16 Year) BaseYear).foldlM (DateDef.year Day Month Year) 0

/-- Function `TDMS_GenerateGroupPath(Path, Name)`: `Path` is the string held at
the destination, `none` for a NULL pointer; the result is the destination after
`sprintf` with the format `/'%s'` and the argument `Name`, and the returned
`int16_t`.  The destination of the one caller is the array `GroupPath` of
`TDMS_GROUP_NAME_LEN + 3` bytes and `sprintf` checks no length: the string
given here is what the array holds when it fits with its terminator, that is
for a name of at most 29 bytes.  For a longer name the write runs past the
array, which C leaves undefined; the whole string is kept here, and the
properties of a cached path are stated for names that fit. -/
def TDMS_GenerateGroupPath (Path : Option (List Nat)) (Name : List Nat) :
    Option (List Nat) × Int :=
  match Path with
  | some _ =>
    let Path := [0x2F, 0x27] ++ Name ++ [0x27]
    (some Path, int16 Path.length)
  | none => (none, -1)

/-- Function `TDMS_GenerateChannelPath(Group, Path, Name)`, with the string
`Group->GroupPath` as first argument: the destination after
`sprintf` with the format `%s/'%s'` and the arguments `Group->GroupPath` and
`Name`, and the returned `int16_t`.  The destination of the one caller is the
array `ChannelPath` of `TDMS_GROUP_NAME_LEN + TDMS_CHANNEL_NAME_LEN + 6` bytes
and `sprintf` checks no length: the string given here is what the array holds
when it fits with its terminator, as it does for a group path that fits its
array and a name of at most 29 bytes.  For a longer string the write runs past
the array, which C leaves undefined; the whole string is kept here, and the
properties of a cached path are stated for names that fit. -/
def TDMS_GenerateChannelPath (GroupPath : List Nat) (Path : Option (List Nat))
    (Name : List Nat) : Option (List Nat) × Int :=
  match Path with
  | some _ =>
    let Path := GroupPath ++ [0x2F, 0x27] ++ Name ++ [0x27]
    (some Path, int16 Path.length)
  | none => (none, -1)

/-- Function `TDMS_SaveDataLittleEndian32(&data[off], value)` with
`TDMS_CONFIG_SYSTEM_ENDIANNESS == 0`: byte `i` of the union over the `uint32_t`
value is stored at `data[i]`, `i = 0..3`; the result is the new memory and the
returned 4. -/
def TDMS_SaveDataLittleEndian32 (data : Mem) (off : Nat) (value : Nat) : Mem × Nat :=
  (writeBytes data off ((List.range 4).map (fun i => u32 value / 2 ^ (8 * i) % 256)), 4)

/-- Byte `j` of the conversion union `U32toU8_t` of `TDMS_SaveDataLittleEndian32`
holding `value`: on a host that stores a `uint32_t` least significant byte
first (`host = 0`) it is byte `j` of the value, on a host that stores it most
significant byte first it is byte `3 - j`.  The union has 4 bytes; `beyond` is
the byte that a read at an index above 3 finds behind it. -/
def U32toU8 (host value beyond j : Nat) : Nat :=
  if j < 4 then
    if host = 0 then u32 value / 2 ^ (8 * j) % 256 else u32 value / 2 ^ (8 * (3 - j)) % 256
  else beyond

/-- Index of the union byte that the loop of `TDMS_SaveDataLittleEndian32`
stores to `data[i]`: `Uint8Value[i]` when the macro tested by `#if` is 0 and
`Uint8Value[4-i]` otherwise. -/
def TDMS_SaveDataLittleEndian32.index (ENDIANNESS i : Nat) : Nat :=
  if ENDIANNESS = 0 then i else 4 - i

/-- Function `TDMS_SaveDataLittleEndian32(&data[off], value)` for either value
of the macro tested by `#if` and either byte order of the host. -/
def TDMS_SaveDataLittleEndian32.onHost (ENDIANNESS host beyond : Nat) (data : Mem) (off : Nat)
    (value : Nat) : Mem × Nat :=
  (writeBytes data off ((List.range 4).map
    (fun i => U32toU8 host value beyond (TDMS_SaveDataLittleEndian32.index ENDIANNESS i))), 4)

/-- Function `TDMS_SaveDataLittleEndian64(&data[off], value)` with
`TDMS_CONFIG_SYSTEM_ENDIANNESS == 0`.  The union member `Uint64Value` is
declared `uint32_t`, so the initialiser stores `value` reduced to 32 bits in
bytes 0..3 of the 8-byte union; bytes 4..7, which the initialiser does not
cover, are zero-filled.  Byte `i` of the union is stored at `data[i]`,
`i = 0..7`; the result is the new memory and the returned 8. -/
def TDMS_SaveDataLittleEndian64 (data : Mem) (off : Nat) (value : Nat) : Mem × Nat :=
  (writeBytes data off
    ((List.range 8).map (fun i => if i < 4 then u32 value / 2 ^ (8 * i) % 256 else 0)), 8)

/-- Function `TDMS_SaveStrToMetaDataPart(&data[off], str)`: the 32-bit length, then
`strcpy` of the string to `&data[off + 4]`; returns `strlen(str) + 4` as a
`uint32_t`. -/
def TDMS_SaveStrToMetaDataPart (data : Mem) (off : Nat) (str : List Nat) : Mem × Nat :=
  let StringLen := u32 (strlen str)
  let r := TDMS_SaveDataLittleEndian32 data off StringLen
  let StringLen := u32 (StringLen + r.2)
  (strcpy r.1 (off + 4) str, StringLen)

/-- Function `TDMS_GenerateLeadInPart(&LeadInSTR[off], ...)`: five loops storing the tag
(most significant byte first), the masked ToC (least significant first), the
version literal (most significant first) and the two 64-bit offsets (least
significant first); every stored value is truncated to a byte. -/
def TDMS_GenerateLeadInPart (LeadInSTR : Mem) (off : Nat)
    (ToC_value NextSegmentOffset_value RawDataOffset_value : Nat) : Mem :=
  let m := writeBytes LeadInSTR off
    ((List.range 4).map (fun i => TAG_TDSm_Num / 2 ^ (24 - i * 8) % 256))
  let m := writeBytes m (off + 4)
    ((List.range 4).map (fun i => (ToC_value &&& 0x000000EE) / 2 ^ (i * 8) % 256))
  let m := writeBytes m (off + 8)
    ((List.range 4).map (fun i => Version_Number4713 / 2 ^ (24 - i * 8) % 256))
  let m := writeBytes m (off + 12)
    ((List.range 8).map (fun i => NextSegmentOffset_value / 2 ^ (i * 8) % 256))
  writeBytes m (off + 20)
    ((List.range 8).map (fun i => RawDataOffset_value / 2 ^ (i * 8) % 256))

/-- Write position of a builder: the buffer and the running `DataSize`. -/
structure Cursor where
  Buffer : Mem
  DataSize : Nat

/-- The statement `DataSize += TDMS_SaveDataLittleEndian32(&Buffer[DataSize], value);`. -/
def Cursor.save32 (c : Cursor) (value : Nat) : Cursor :=
  let r := TDMS_SaveDataLittleEndian32 c.Buffer c.DataSize value
  ⟨r.1, u32 (c.DataSize + r.2)⟩

/-- The statement `DataSize += TDMS_SaveDataLittleEndian64(&Buffer[DataSize], value);`. -/
def Cursor.save64 (c : Cursor) (value : Nat) : Cursor :=
  let r := TDMS_SaveDataLittleEndian64 c.Buffer c.DataSize value
  ⟨r.1, u32 (c.DataSize + r.2)⟩

/-- The statement `DataSize += TDMS_SaveStrToMetaDataPart(&Buffer[DataSize], str);`. -/
def Cursor.saveStr (c : Cursor) (str : List Nat) : Cursor :=
  let r := TDMS_SaveStrToMetaDataPart c.Buffer c.DataSize str
  ⟨r.1, u32 (c.DataSize + r.2)⟩

/-- The statements `TDMS_GenerateLeadInPart(&Buffer[DataSize], ToC, Next, Raw);
DataSize += LeadInPartLen;`. -/
def Cursor.leadIn (c : Cursor) (ToC Next Raw : Nat) : Cursor :=
  ⟨TDMS_GenerateLeadInPart c.Buffer c.DataSize ToC Next Raw, u32 (c.DataSize + LeadInPartLen)⟩

/-- Result of a builder call: the returned code, the value of `*Size` after the
call and the buffer after the call (`none` for a NULL buffer). -/
structure Out where
  ret : TDMS_Result_t
  Size : Nat
  Buffer : Option Mem

/-- Result of a data builder call: as `Out`, with the caller's value array
after the call. -/
structure OutData where
  ret : TDMS_Result_t
  Size : Nat
  Buffer : Option Mem
  Values : Mem

/-- Function `TDMS_AddPropertyToObject(Path, Buffer, Size, Name, DataType, Value)`.
`Value` is the list of the bytes `Value` points to: the string for a String
property, the object otherwise. -/
def TDMS_AddPropertyToObject (Path : List Nat) (Buffer : Option Mem) (Size : Nat)
    (Name : List Nat) (DataType : TDMS_Data_t) (Value : List Nat) : Out :=
  let PropertyDataLen := dataTypeLength DataType
  if PropertyDataLen = 0 ∧ DataType ≠ TDMS_DataType_String then
    ⟨TDMS_WRONG_ARG, Size, Buffer⟩
  else
    let MetaDataLen := u32 (0 + 24)
    let MetaDataLen := u32 (MetaDataLen + strlen Path)
    let MetaDataLen := u32 (MetaDataLen + strlen Name)
    let MetaDataLen :=
      if DataType = TDMS_DataType_String then
        u32 (u32 (MetaDataLen + 4) + strlen Value)
      else
        u32 (MetaDataLen + PropertyDataLen)
    match Buffer with
    | none => ⟨TDMS_OK, u32 (LeadInPartLen + MetaDataLen), none⟩
    | some Buffer =>
      let c : Cursor := ⟨Buffer, 0⟩
      let c := c.leadIn (kTocNewObjList ||| kTocMetaData) MetaDataLen MetaDataLen
      let c := c.save32 1
      let c := c.saveStr Path
      let c := c.save32 0xFFFFFFFF
      let c := c.save32 0x01
      let c := c.saveStr Name
      let c := c.save32 (dataTypeBinary DataType)
      let c :=
        if DataType = TDMS_DataType_String then
          c.saveStr Value
        else
          ⟨memcpy c.Buffer c.DataSize Value PropertyDataLen, u32 (c.DataSize + PropertyDataLen)⟩
      ⟨TDMS_OK, c.DataSize, some c.Buffer⟩

/-! ## Public functions of TDMS.c -/

/-- Function `TDMS_InitFile(File)`. -/
def TDMS_InitFile (h : Objects) (File : Ptr) : TDMS_Result_t × Objects :=
  let h := h.setFile File ⟨0, (h.files File).GroupArray⟩
  (TDMS_OK, h)

/-- Function `TDMS_AddGroupToFile(Group, File, Name)`: the result code and the
caller memory after the call. -/
def TDMS_AddGroupToFile (h : Objects) (Group File : Ptr) (Name : List Nat) :
    TDMS_Result_t × Objects :=
  let g := h.groups Group
  let Path := (TDMS_GenerateGroupPath (some g.GroupPath) Name).1
  let h := h.setGroup Group ⟨g.FileOfGroup, g.NumOfChannels, g.ChannelArray, Path.getD g.GroupPath⟩
  let g := h.groups Group
  let h := h.setGroup Group ⟨File, g.NumOfChannels, g.ChannelArray, g.GroupPath⟩
  if (h.files File).NumOfGroups ≥ TDMS_CONFIG_MAX_GROUP_OF_FILE then
    (TDMS_OUT_OF_CAP, h)
  else
    let f := h.files File
    let h := h.setFile File ⟨f.NumOfGroups, setSlot f.GroupArray f.NumOfGroups Group⟩
    let f := h.files File
    let h := h.setFile File ⟨u32 (f.NumOfGroups + 1), f.GroupArray⟩
    let g := h.groups Group
    let h := h.setGroup Group ⟨g.FileOfGroup, 0, g.ChannelArray, g.GroupPath⟩
    (TDMS_OK, h)

/-- Function `TDMS_AddChannelToGroup(Channel, Group, Name, DataType)`: the
result code and the caller memory after the call. -/
def TDMS_AddChannelToGroup (h : Objects) (Channel Group : Ptr) (Name : List Nat)
    (DataType : TDMS_Data_t) : TDMS_Result_t × Objects :=
  if dataTypeLength DataType = 0 then
    (TDMS_WRONG_ARG, h)
  else
    let c := h.channels Channel
    let h := h.setChannel Channel ⟨c.GroupOfChannel, DataType, c.ChannelPath⟩
    let c := h.channels Channel
    let Path := (TDMS_GenerateChannelPath (h.groups Group).GroupPath (some c.ChannelPath) Name).1
    let h := h.setChannel Channel ⟨c.GroupOfChannel, c.ChannelDataType, Path.getD c.ChannelPath⟩
    let c := h.channels Channel
    let h := h.setChannel Channel ⟨Group, c.ChannelDataType, c.ChannelPath⟩
    if (h.groups Group).NumOfChannels ≥ TDMS_CONFIG_MAX_CHANNEL_OF_GROUP then
      (TDMS_OUT_OF_CAP, h)
    else
      let g := h.groups Group
      let h := h.setGroup Group
        ⟨g.FileOfGroup, g.NumOfChannels, setSlot g.ChannelArray g.NumOfChannels Channel, g.GroupPath⟩
      let g := h.groups Group
      let h := h.setGroup Group ⟨g.FileOfGroup, u32 (g.NumOfChannels + 1), g.ChannelArray, g.GroupPath⟩
      (TDMS_OK, h)

/-- Length loop of `TDMS_GenFirstPart` over the channels of one group. -/
def GenFirstPart.lenChannels (MetaDataLen : Nat) (chs : List TDMS_Channel_t) : Nat :=
  chs.foldl (fun MetaDataLen ch =>
    let MetaDataLen := u32 (MetaDataLen + 12)
    u32 (MetaDataLen + strlen ch.ChannelPath)) MetaDataLen

/-- Length loop of `TDMS_GenFirstPart` over the groups. -/
def GenFirstPart.lenGroups (MetaDataLen : Nat) (gs : List TDMS_Group_t) : Nat :=
  gs.foldl (fun MetaDataLen g =>
    let MetaDataLen := u32 (MetaDataLen + 12)
    let MetaDataLen := u32 (MetaDataLen + strlen g.GroupPath)
    GenFirstPart.lenChannels MetaDataLen g.ChannelArray) MetaDataLen

/-- Body of the emit loops of `TDMS_GenFirstPart` for one object path: the
length, `strcpy` of the path, `DataSize += CounterK`, the raw data index and
the number of properties. -/
def GenFirstPart.emitObject (c : Cursor) (path : List Nat) : Cursor :=
  let CounterK := u32 (strlen path)
  let c := c.save32 CounterK
  let c : Cursor := ⟨strcpy c.Buffer c.DataSize path, u32 (c.DataSize + CounterK)⟩
  let c := c.save32 0xFFFFFFFF
  c.save32 0x00

/-- Emit loop of `TDMS_GenFirstPart` over the channels of one group. -/
def GenFirstPart.emitChannels (c : Cursor) (chs : List TDMS_Channel_t) : Cursor :=
  chs.foldl (fun c ch => GenFirstPart.emitObject c ch.ChannelPath) c

/-- Emit loop of `TDMS_GenFirstPart` over the groups. -/
def GenFirstPart.emitGroups (c : Cursor) (gs : List TDMS_Group_t) : Cursor :=
  gs.foldl (fun c g =>
    GenFirstPart.emitChannels (GenFirstPart.emitObject c g.GroupPath) g.ChannelArray) c

/-- Function `TDMS_GenFirstPart(File, Buffer, Size)`. -/
def TDMS_GenFirstPart (File : TDMS_File_t) (Buffer : Option Mem) (_Size : Nat) : Out :=
  let nog := File.NumOfGroups
  let tnoc := File.GroupArray.foldl (fun tnoc g => u32 (tnoc + g.NumOfChannels)) 0
  let noo := u32 (u32 (nog + tnoc) + 1)
  let MetaDataLen := u32 (0 + 17)
  let MetaDataLen := GenFirstPart.lenGroups MetaDataLen File.GroupArray
  match Buffer with
  | none => ⟨TDMS_OK, u32 (u32 (LeadInPartLen + MetaDataLen) + 0), none⟩
  | some Buffer =>
    let c : Cursor := ⟨Buffer, 0⟩
    let c := c.leadIn (kTocMetaData ||| kTocNewObjList) (u32 (MetaDataLen + 0)) MetaDataLen
    let c := c.save32 noo
    let c := c.saveStr [0x2F]
    let c := c.save32 0xFFFFFFFF
    let c := c.save32 0x00
    let c := GenFirstPart.emitGroups c File.GroupArray
    ⟨TDMS_OK, c.DataSize, some c.Buffer⟩

/-- Function `TDMS_AddPropertyToFile`: the object path is the literal `/`. -/
def TDMS_AddPropertyToFile (Buffer : Option Mem) (Size : Nat)
    (Name : List Nat) (DataType : TDMS_Data_t) (Value : List Nat) : Out :=
  TDMS_AddPropertyToObject [0x2F] Buffer Size Name DataType Value

/-- Function `TDMS_AddPropertyToGroup`: the object path is `Group->GroupPath`. -/
def TDMS_AddPropertyToGroup (Group : TDMS_Group_t) (Buffer : Option Mem) (Size : Nat)
    (Name : List Nat) (DataType : TDMS_Data_t) (Value : List Nat) : Out :=
  TDMS_AddPropertyToObject Group.GroupPath Buffer Size Name DataType Value

/-- Function `TDMS_AddPropertyToChannel`: the object path is `Channel->ChannelPath`. -/
def TDMS_AddPropertyToChannel (Channel : TDMS_Channel_t) (Buffer : Option Mem) (Size : Nat)
    (Name : List Nat) (DataType : TDMS_Data_t) (Value : List Nat) : Out :=
  TDMS_AddPropertyToObject Channel.ChannelPath Buffer Size Name DataType Value

/-- The Boolean normalisation loop of `TDMS_SetChannelDataValues`,
`for(CounterI=0; CounterI<NumOfValues; CounterI++) ValuesBoolean[CounterI] =
(ValuesBoolean[CounterI]) ? 1:0;` with `CounterI` a `uint16_t`: one unit of
fuel per evaluation of the loop test, `none` when the fuel runs out. -/
def SetChannelDataValues.boolLoop (NumOfValues : Nat) : Nat → Nat → Mem → Option Mem
  | 0, _, _ => none
  | fuel + 1, CounterI, ValuesBoolean =>
    if CounterI < NumOfValues then
      SetChannelDataValues.boolLoop NumOfValues fuel ((CounterI + 1) % 65536)
        (memSet ValuesBoolean CounterI (if ValuesBoolean CounterI ≠ 0 then 1 else 0))
    else
      some ValuesBoolean

/-- Library function `strlen` on caller memory: the index of the first zero
byte, searched among the first `bound` bytes starting at `i`. -/
def strlenMem (m : Mem) : Nat → Nat → Nat
  | 0, i => i
  | bound + 1, i => if m i = 0 then i else strlenMem m bound (i + 1)

/-- Function `TDMS_SetChannelDataValues(Channel, Buffer, Size, Values, NumOfValues)`.
`fuel` bounds the iterations of the Boolean loop; the result is `none` when
the call has not returned within the fuel. -/
def TDMS_SetChannelDataValues (fuel : Nat) (Channel : TDMS_Channel_t) (Buffer : Option Mem)
    (Size : Nat) (Values : Mem) (NumOfValues : Nat) : Option OutData :=
  let RawDataLen := u32 (dataTypeLength Channel.ChannelDataType * NumOfValues)
  if RawDataLen = 0 then
    some ⟨TDMS_WRONG_ARG, Size, Buffer, Values⟩
  else
    let normalised :=
      if Channel.ChannelDataType = TDMS_DataType_Boolean then
        SetChannelDataValues.boolLoop NumOfValues fuel 0 Values
      else
        some Values
    match normalised with
    | none => none
    | some Values =>
      let MetaDataLen := 0
      let MetaDataLen := u32 (MetaDataLen + 32)
      let MetaDataLen :=
        if Channel.ChannelDataType = TDMS_DataType_String then u32 (MetaDataLen + 8)
        else MetaDataLen
      let MetaDataLen := u32 (MetaDataLen + strlen Channel.ChannelPath)
      match Buffer with
      | none => some ⟨TDMS_OK, u32 (u32 (LeadInPartLen + MetaDataLen) + RawDataLen), none, Values⟩
      | some Buffer =>
        let c : Cursor := ⟨Buffer, 0⟩
        let c := c.leadIn (kTocRawData ||| kTocNewObjList ||| kTocMetaData)
          (u32 (MetaDataLen + RawDataLen)) MetaDataLen
        let c := c.save32 1
        let c := c.saveStr Channel.ChannelPath
        let c := c.save32 0x14
        let c := c.save32 (dataTypeBinary Channel.ChannelDataType)
        let c := c.save32 0x01
        let c := c.save64 NumOfValues
        let c :=
          if Channel.ChannelDataType = TDMS_DataType_String then
            c.save64 (strlenMem Values 4294967296 0)
          else c
        let c := c.save32 0
        let c : Cursor := ⟨memcpyMem c.Buffer c.DataSize Values RawDataLen, u32 (c.DataSize + RawDataLen)⟩
        some ⟨TDMS_OK, c.DataSize, some c.Buffer, Values⟩

/-- First loop of `TDMS_SetGroupDataValues`: the number of channels with a
nonzero count. -/
def SetGroupDataValues.countObjects (chs : List (TDMS_Channel_t × Mem × Nat)) : Nat :=
  chs.foldl (fun NumberOfObjects x => if x.2.2 ≠ 0 then u32 (NumberOfObjects + 1) else NumberOfObjects) 0

/-- Length loop of `TDMS_SetGroupDataValues`, from the running
`(RawDataLen, MetaDataLen)`; `none` is the early `return TDMS_WRONG_ARG`.
`RawDataLenCh[CounterI]` is `u32 (dataTypeLength type * NumOfValues[CounterI])`
for a nonzero count and 0 otherwise. -/
def SetGroupDataValues.lenLoop : List (TDMS_Channel_t × Mem × Nat) → Nat × Nat → Option (Nat × Nat)
  | [], acc => some acc
  | (ch, _, NumOfValues) :: rest, (RawDataLen, MetaDataLen) =>
    if NumOfValues ≠ 0 then
      let RawDataLenCh := u32 (dataTypeLength ch.ChannelDataType * NumOfValues)
      if RawDataLenCh = 0 then none
      else
        let MetaDataLen := u32 (MetaDataLen + 28)
        let MetaDataLen :=
          if ch.ChannelDataType = TDMS_DataType_String then u32 (MetaDataLen + 4)
          else MetaDataLen
        let MetaDataLen := u32 (MetaDataLen + strlen ch.ChannelPath)
        SetGroupDataValues.lenLoop rest (u32 (RawDataLen + RawDataLenCh), MetaDataLen)
    else
      SetGroupDataValues.lenLoop rest (u32 (RawDataLen + 0), MetaDataLen)

/-- Metadata loop of `TDMS_SetGroupDataValues`. -/
def SetGroupDataValues.emitMeta (c : Cursor) (chs : List (TDMS_Channel_t × Mem × Nat)) : Cursor :=
  chs.foldl (fun c x =>
    if x.2.2 ≠ 0 then
      let c := c.saveStr x.1.ChannelPath
      let c := c.save32 0x14
      let c := c.save32 (dataTypeBinary x.1.ChannelDataType)
      let c := c.save32 0x01
      let c := c.save64 x.2.2
      let c :=
        if x.1.ChannelDataType = TDMS_DataType_String then
          c.save64 (strlenMem x.2.1 4294967296 0)
        else c
      c.save32 0
    else c) c

/-- Raw data loop of `TDMS_SetGroupDataValues`. -/
def SetGroupDataValues.emitRaw (c : Cursor) (chs : List (TDMS_Channel_t × Mem × Nat)) : Cursor :=
  chs.foldl (fun c x =>
    if x.2.2 ≠ 0 then
      let RawDataLenCh := u32 (dataTypeLength x.1.ChannelDataType * x.2.2)
      ⟨memcpyMem c.Buffer c.DataSize x.2.1 RawDataLenCh, u32 (c.DataSize + RawDataLenCh)⟩
    else c) c

/-- Function `TDMS_SetGroupDataValues(Group, Buffer, Size, ...)`.  The variadic
arguments are the list `args` of pairs (values pointer, number of values), read
in order, one pair for each of the `NumOfChannels` channels.  The loops over
the channels use a 16-bit counter, which does not wrap since `NumOfChannels`
is bounded by the length of `ChannelArray`. -/
def TDMS_SetGroupDataValues (Group : TDMS_Group_t) (Buffer : Option Mem) (Size : Nat)
    (args : List (Mem × Nat)) : Out :=
  let chs := Group.ChannelArray.zip args
  let NumberOfObjects := SetGroupDataValues.countObjects chs
  if NumberOfObjects = 0 then
    ⟨TDMS_OK, 0, Buffer⟩
  else
    match SetGroupDataValues.lenLoop chs (0, 4) with
    | none => ⟨TDMS_WRONG_ARG, Size, Buffer⟩
    | some (RawDataLen, MetaDataLen) =>
      match Buffer with
      | none => ⟨TDMS_OK, u32 (u32 (LeadInPartLen + MetaDataLen) + RawDataLen), none⟩
      | some Buffer =>
        let c : Cursor := ⟨Buffer, 0⟩
        let c := c.leadIn (kTocRawData ||| kTocNewObjList ||| kTocMetaData)
          (u32 (MetaDataLen + RawDataLen)) MetaDataLen
        let c := c.save32 NumberOfObjects
        let c := SetGroupDataValues.emitMeta c chs
        let c := SetGroupDataValues.emitRaw c chs
        ⟨TDMS_OK, c.DataSize, some c.Buffer⟩

/-- Function `TDMS_TimeSecond(Year, Month, Day, Hour, Minute, Second)`: the
product `DiffDay * 86400ul` is taken in `unsigned long`, the products with
`Hour` and `Minute` in `int`. -/
def TDMS_TimeSecond (Year Month Day Hour Minute Second : Nat) : Option Int :=
  (TDMS_DateDef Day Month Year).map (fun DiffDay =>
    let DiffSecond := int64 (ulong (DiffDay * 86400))
    let DiffSecond := DiffSecond + int64 ((Hour : Int) * 3600)
    let DiffSecond := DiffSecond + int64 ((Minute : Int) * 60)
    DiffSecond + int64 (Second : Int))

/-! ## The legacy encoder (src/TDMS.c, src/TDMS.h)

The construction functions and `TDMS_GenFirstPart` of the encoder that keeps
names and descriptions in the objects.  Its declarations live under `Legacy`; the result codes and the
macros `TDMS_GROUP_NAME_LEN`, `TDMS_CHANNEL_NAME_LEN`, `TDMS_MAX_GROUP_OF_FILE`
and `TDMS_MAX_CHANNEL_OF_GROUP` are those of `src/TDMS_config.h`. -/

/-- The macros that `src/TDMS.c` and `src/TDMS.h` read and no file of the
sources defines: the sizes of the description and unit string arrays.  They are
parameters of the legacy functions. -/
structure Legacy.Config where
  TDMS_GROUP_DESCRIPTION_LEN : Nat
  TDMS_CHANNEL_DESCRIPTION_LEN : Nat
  TDMS_CHANNEL_UNIT_STRING_LEN : Nat

/-- The macro `TDMS_MAX_GROUP_OF_FILE` of `src/TDMS_config.h`. -/
def Legacy.TDMS_MAX_GROUP_OF_FILE : Nat := 4

/-- The macro `TDMS_MAX_CHANNEL_OF_GROUP` of `src/TDMS_config.h`. -/
def Legacy.TDMS_MAX_CHANNEL_OF_GROUP : Nat := 8

/-- Memory of one `TDMS_Channel_t` object of the legacy header; the type is
the wire code. -/
structure Legacy.ChannelObject where
  ChannelDataType : Nat
  ChannelName : List Nat
  ChannelDescription : List Nat
  ChannelUitString : List Nat
  ChannelPath : List Nat
  GroupOfChannel : Ptr

/-- Memory of one `TDMS_Group_t` object of the legacy header. -/
structure Legacy.GroupObject where
  GroupName : List Nat
  GroupDescription : List Nat
  GroupPath : List Nat
  NumOfChannels : Nat
  ChannelArray : Nat → Ptr
  FileOfGroup : Ptr

/-- Memory of one `TDMS_File_t` object of the legacy header. -/
structure Legacy.FileObject where
  FileDescription : List Nat
  FileTitle : List Nat
  FileAuthor : List Nat
  NumOfGroups : Nat
  GroupArray : Nat → Ptr

/-- Caller memory of the legacy encoder: the objects by address. -/
structure Legacy.Objects where
  files : Ptr → Legacy.FileObject
  groups : Ptr → Legacy.GroupObject
  channels : Ptr → Legacy.ChannelObject

/-- Store to the file object at address `File`. -/
def Legacy.Objects.setFile (h : Legacy.Objects) (File : Ptr) (v : Legacy.FileObject) :
    Legacy.Objects :=
  ⟨fun p => if p = File then v else h.files p, h.groups, h.channels⟩

/-- Store to the group object at address `Group`. -/
def Legacy.Objects.setGroup (h : Legacy.Objects) (Group : Ptr) (v : Legacy.GroupObject) :
    Legacy.Objects :=
  ⟨h.files, fun p => if p = Group then v else h.groups p, h.channels⟩

/-- Store to the channel object at address `Channel`. -/
def Legacy.Objects.setChannel (h : Legacy.Objects) (Channel : Ptr)
    (v : Legacy.ChannelObject) : Legacy.Objects :=
  ⟨h.files, h.groups, fun p => if p = Channel then v else h.channels p⟩

/-- Function `TDMS_StrnCpy(Dest, Src, DestSize)` of the legacy encoder: the
result code and the string held by `Dest` after the call.  `SrcSize` is a
`uint16_t`; `memcpy` copies `SrcSize` bytes and the terminator follows. -/
def Legacy.TDMS_StrnCpy (Dest : List Nat) (Src : List Nat) (DestSize : Nat) :
    TDMS_Result_t × List Nat :=
  let SrcSize := strlen Src % 65536
  if SrcSize < DestSize then
    (TDMS_OK, Src.take SrcSize)
  else
    (TDMS_WRONG_ARG, Dest)

/-- Function `TDMS_GenerateGroupPath(Group, path)` of the legacy encoder, with
the string `Group->GroupName` as first argument: the destination after
`sprintf` with the format `/'%s'`, and the returned `int16_t`.  The
destination of the one caller is the array `GroupPath` of
`TDMS_GROUP_DESCRIPTION_LEN + 3` bytes and `sprintf` checks no length: the
string given here is what the array holds when it fits with its terminator,
that is for a name shorter than `TDMS_GROUP_DESCRIPTION_LEN`.  For a longer
name the write runs past the array, which C leaves undefined; the whole string
is kept here, and the properties of a cached path are stated for names that
fit. -/
def Legacy.TDMS_GenerateGroupPath (GroupName : List Nat) (path : Option (List Nat)) :
    Option (List Nat) × Int :=
  match path with
  | some _ =>
    let path := [0x2F, 0x27] ++ GroupName ++ [0x27]
    (some path, int16 path.length)
  | none => (none, -1)

/-- Function `TDMS_GenerateChannelPath(Group, Channel, path)` of the legacy
encoder, with the strings `Group->GroupName` and `Channel->ChannelName` as
first arguments: the destination after `sprintf` with the format `/'%s'/'%s'`,
and the returned `int16_t`.  The destination of the one caller is the array
`ChannelPath` of `TDMS_GROUP_NAME_LEN + TDMS_CHANNEL_NAME_LEN + 6` bytes, which
holds the string and its terminator for the names of at most 29 bytes that
`TDMS_StrnCpy` lets into the name arrays. -/
def Legacy.TDMS_GenerateChannelPath (GroupName ChannelName : List Nat)
    (path : Option (List Nat)) : Option (List Nat) × Int :=
  match path with
  | some _ =>
    let path := [0x2F, 0x27] ++ GroupName ++ [0x27, 0x2F, 0x27] ++ ChannelName ++ [0x27]
    (some path, int16 path.length)
  | none => (none, -1)

/-- Function `TDMS_DataBytesOfEachType(TdsDataType)` of the legacy encoder: a
switch over the wire codes, 0 for a code without a case. -/
def Legacy.TDMS_DataBytesOfEachType (TdsDataType : Nat) : Nat :=
  if TdsDataType = 0x00000000 then 1
  else if TdsDataType = 0x00000001 then 1
  else if TdsDataType = 0x00000002 then 2
  else if TdsDataType = 0x00000003 then 4
  else if TdsDataType = 0x00000004 then 8
  else if TdsDataType = 0x00000005 then 1
  else if TdsDataType = 0x00000006 then 2
  else if TdsDataType = 0x00000007 then 4
  else if TdsDataType = 0x00000008 then 8
  else if TdsDataType = 0x00000009 then 4
  else if TdsDataType = 0x0000000A then 8
  else if TdsDataType = 0x00000020 then 1
  else if TdsDataType = 0x00000021 then 1
  else if TdsDataType = 0x00000044 then 16
  else 0

/-- Function `TDMS_AddGroup(File, Name, Description, Group)` of the legacy
encoder: the result code and the caller memory after the call. -/
def Legacy.TDMS_AddGroup (cfg : Legacy.Config) (h : Legacy.Objects) (File : Ptr)
    (Name Description : List Nat) (Group : Ptr) : TDMS_Result_t × Legacy.Objects :=
  let g := h.groups Group
  let r := Legacy.TDMS_StrnCpy g.GroupName Name TDMS_GROUP_NAME_LEN
  let h := h.setGroup Group
    ⟨r.2, g.GroupDescription, g.GroupPath, g.NumOfChannels, g.ChannelArray, g.FileOfGroup⟩
  if r.1 ≠ TDMS_OK then (r.1, h)
  else
    let g := h.groups Group
    let r := Legacy.TDMS_StrnCpy g.GroupDescription Description
      (cfg.TDMS_GROUP_DESCRIPTION_LEN % 65536)
    let h := h.setGroup Group
      ⟨g.GroupName, r.2, g.GroupPath, g.NumOfChannels, g.ChannelArray, g.FileOfGroup⟩
    if r.1 ≠ TDMS_OK then (r.1, h)
    else
      let g := h.groups Group
      let path := (Legacy.TDMS_GenerateGroupPath g.GroupName (some g.GroupPath)).1
      let h := h.setGroup Group
        ⟨g.GroupName, g.GroupDescription, path.getD g.GroupPath, g.NumOfChannels,
          g.ChannelArray, g.FileOfGroup⟩
      let g := h.groups Group
      let h := h.setGroup Group
        ⟨g.GroupName, g.GroupDescription, g.GroupPath, g.NumOfChannels, g.ChannelArray, File⟩
      if (h.files File).NumOfGroups ≥ Legacy.TDMS_MAX_GROUP_OF_FILE then
        (TDMS_OUT_OF_CAP, h)
      else
        let f := h.files File
        let h := h.setFile File
          ⟨f.FileDescription, f.FileTitle, f.FileAuthor, f.NumOfGroups,
            setSlot f.GroupArray f.NumOfGroups Group⟩
        let f := h.files File
        let h := h.setFile File
          ⟨f.FileDescription, f.FileTitle, f.FileAuthor, (f.NumOfGroups + 1) % 256,
            f.GroupArray⟩
        let g := h.groups Group
        let h := h.setGroup Group
          ⟨g.GroupName, g.GroupDescription, g.GroupPath, 0, g.ChannelArray, g.FileOfGroup⟩
        (TDMS_OK, h)

/-- Function `TDMS_AddChannel(Group, DataType, Name, Description, UnitString,
Channel)` of the legacy encoder: the result code and the caller memory after
the call. -/
def Legacy.TDMS_AddChannel (cfg : Legacy.Config) (h : Legacy.Objects) (Group : Ptr)
    (DataType : Nat) (Name Description UnitString : List Nat) (Channel : Ptr) :
    TDMS_Result_t × Legacy.Objects :=
  if Legacy.TDMS_DataBytesOfEachType DataType = 0 then (TDMS_WRONG_ARG, h)
  else
    let c := h.channels Channel
    let h := h.setChannel Channel
      ⟨DataType, c.ChannelName, c.ChannelDescription, c.ChannelUitString, c.ChannelPath,
        c.GroupOfChannel⟩
    let c := h.channels Channel
    let r := Legacy.TDMS_StrnCpy c.ChannelName Name TDMS_CHANNEL_NAME_LEN
    let h := h.setChannel Channel
      ⟨c.ChannelDataType, r.2, c.ChannelDescription, c.ChannelUitString, c.ChannelPath,
        c.GroupOfChannel⟩
    if r.1 ≠ TDMS_OK then (r.1, h)
    else
      let c := h.channels Channel
      let r := Legacy.TDMS_StrnCpy c.ChannelDescription Description
        (cfg.TDMS_CHANNEL_DESCRIPTION_LEN % 65536)
      let h := h.setChannel Channel
        ⟨c.ChannelDataType, c.ChannelName, r.2, c.ChannelUitString, c.ChannelPath,
          c.GroupOfChannel⟩
      if r.1 ≠ TDMS_OK then (r.1, h)
      else
        let c := h.channels Channel
        let r := Legacy.TDMS_StrnCpy c.ChannelUitString UnitString
          (cfg.TDMS_CHANNEL_UNIT_STRING_LEN % 65536)
        let h := h.setChannel Channel
          ⟨c.ChannelDataType, c.ChannelName, c.ChannelDescription, r.2, c.ChannelPath,
            c.GroupOfChannel⟩
        if r.1 ≠ TDMS_OK then (r.1, h)
        else
          let c := h.channels Channel
          let path := (Legacy.TDMS_GenerateChannelPath (h.groups Group).GroupName c.ChannelName
            (some c.ChannelPath)).1
          let h := h.setChannel Channel
            ⟨c.ChannelDataType, c.ChannelName, c.ChannelDescription, c.ChannelUitString,
              path.getD c.ChannelPath, c.GroupOfChannel⟩
          let c := h.channels Channel
          let h := h.setChannel Channel
            ⟨c.ChannelDataType, c.ChannelName, c.ChannelDescription, c.ChannelUitString,
              c.ChannelPath, Group⟩
          if (h.groups Group).NumOfChannels ≥ Legacy.TDMS_MAX_CHANNEL_OF_GROUP then
            (TDMS_OUT_OF_CAP, h)
          else
            let g := h.groups Group
            let h := h.setGroup Group
              ⟨g.GroupName, g.GroupDescription, g.GroupPath, g.NumOfChannels,
                setSlot g.ChannelArray g.NumOfChannels Channel, g.FileOfGroup⟩
            let g := h.groups Group
            let h := h.setGroup Group
              ⟨g.GroupName, g.GroupDescription, g.GroupPath, (g.NumOfChannels + 1) % 256,
                g.ChannelArray, g.FileOfGroup⟩
            (TDMS_OK, h)

/-- The macros `TDMS_FILE_DESCRIPTION_LEN`, `TDMS_FILE_TITLE_LEN` and
`TDMS_FILE_AUTHOR_LEN` that `src/TDMS.c` and `src/TDMS.h` read and no file of
the sources defines: the sizes of the string arrays of a file object.  They
are parameters of `TDMS_CreateFile`. -/
structure Legacy.FileConfig where
  TDMS_FILE_DESCRIPTION_LEN : Nat
  TDMS_FILE_TITLE_LEN : Nat
  TDMS_FILE_AUTHOR_LEN : Nat

/-- A channel of the legacy encoder as `TDMS_GenFirstPart` reads it through
`File->GroupArray[i]->ChannelArray[j]`. -/
structure Legacy.TDMS_Channel_t where
  ChannelDescription : List Nat
  ChannelUitString : List Nat
  ChannelPath : List Nat

/-- A group of the legacy encoder as `TDMS_GenFirstPart` reads it through
`File->GroupArray[i]`: its strings and the channels behind the first
`NumOfChannels` entries of its array. -/
structure Legacy.TDMS_Group_t where
  GroupDescription : List Nat
  GroupPath : List Nat
  ChannelArray : List Legacy.TDMS_Channel_t

/-- A file of the legacy encoder as `TDMS_GenFirstPart` reads it: its strings
and the groups behind the first `NumOfGroups` entries of its array. -/
structure Legacy.TDMS_File_t where
  FileDescription : List Nat
  FileTitle : List Nat
  FileAuthor : List Nat
  GroupArray : List Legacy.TDMS_Group_t

/-- The channel `TDMS_GenFirstPart` reads through the pointer `Channel`. -/
def Legacy.Objects.channel (h : Legacy.Objects) (Channel : Ptr) : Legacy.TDMS_Channel_t :=
  ⟨(h.channels Channel).ChannelDescription, (h.channels Channel).ChannelUitString,
    (h.channels Channel).ChannelPath⟩

/-- The group `TDMS_GenFirstPart` reads through the pointer `Group`. -/
def Legacy.Objects.group (h : Legacy.Objects) (Group : Ptr) : Legacy.TDMS_Group_t :=
  ⟨(h.groups Group).GroupDescription, (h.groups Group).GroupPath,
    (List.range (h.groups Group).NumOfChannels).map
      (fun i => h.channel ((h.groups Group).ChannelArray i))⟩

/-- The file `TDMS_GenFirstPart` reads through the pointer `File`. -/
def Legacy.Objects.file (h : Legacy.Objects) (File : Ptr) : Legacy.TDMS_File_t :=
  ⟨(h.files File).FileDescription, (h.files File).FileTitle, (h.files File).FileAuthor,
    (List.range (h.files File).NumOfGroups).map
      (fun i => h.group ((h.files File).GroupArray i))⟩

/-- Function `TDMS_CreateFile(Description, Title, Author, File)` of the legacy
encoder: the result code and the caller memory after the call. -/
def Legacy.TDMS_CreateFile (cfg : Legacy.FileConfig) (h : Legacy.Objects)
    (Description Title Author : List Nat) (File : Ptr) : TDMS_Result_t × Legacy.Objects :=
  let f := h.files File
  let r := Legacy.TDMS_StrnCpy f.FileDescription Description
    (cfg.TDMS_FILE_DESCRIPTION_LEN % 65536)
  let h := h.setFile File ⟨r.2, f.FileTitle, f.FileAuthor, f.NumOfGroups, f.GroupArray⟩
  if r.1 ≠ TDMS_OK then (r.1, h)
  else
    let f := h.files File
    let r := Legacy.TDMS_StrnCpy f.FileTitle Title (cfg.TDMS_FILE_TITLE_LEN % 65536)
    let h := h.setFile File ⟨f.FileDescription, r.2, f.FileAuthor, f.NumOfGroups, f.GroupArray⟩
    if r.1 ≠ TDMS_OK then (r.1, h)
    else
      let f := h.files File
      let r := Legacy.TDMS_StrnCpy f.FileAuthor Author (cfg.TDMS_FILE_AUTHOR_LEN % 65536)
      let h := h.setFile File ⟨f.FileDescription, f.FileTitle, r.2, f.NumOfGroups, f.GroupArray⟩
      if r.1 ≠ TDMS_OK then (r.1, h)
      else
        let f := h.files File
        let h := h.setFile File ⟨f.FileDescription, f.FileTitle, f.FileAuthor, 0, f.GroupArray⟩
        (TDMS_OK, h)

/-- The string literal `Description`. -/
def Legacy.strDescription : List Nat :=
  [0x44, 0x65, 0x73, 0x63, 0x72, 0x69, 0x70, 0x74, 0x69, 0x6F, 0x6E]

/-- The string literal `Title`. -/
def Legacy.strTitle : List Nat := [0x54, 0x69, 0x74, 0x6C, 0x65]

/-- The string literal `Author`. -/
def Legacy.strAuthor : List Nat := [0x41, 0x75, 0x74, 0x68, 0x6F, 0x72]

/-- The string literal `Unit`. -/
def Legacy.strUnit : List Nat := [0x55, 0x6E, 0x69, 0x74]

/-- The wire code `tdsTypeString`. -/
def Legacy.tdsTypeString : Nat := 0x00000020

/-- Length loop of the legacy `TDMS_GenFirstPart` over the channels of one
group. -/
def Legacy.GenFirstPart.lenChannels (MetaDataLen : Nat) (chs : List Legacy.TDMS_Channel_t) :
    Nat :=
  chs.foldl (fun MetaDataLen ch =>
    let MetaDataLen := u32 (MetaDataLen + 36)
    let MetaDataLen := u32 (MetaDataLen + strlen ch.ChannelPath)
    let MetaDataLen := u32 (MetaDataLen + strlen Legacy.strDescription)
    let MetaDataLen := u32 (MetaDataLen + strlen ch.ChannelDescription)
    let MetaDataLen := u32 (MetaDataLen + strlen Legacy.strUnit)
    u32 (MetaDataLen + strlen ch.ChannelUitString)) MetaDataLen

/-- Length loop of the legacy `TDMS_GenFirstPart` over the groups. -/
def Legacy.GenFirstPart.lenGroups (MetaDataLen : Nat) (gs : List Legacy.TDMS_Group_t) : Nat :=
  gs.foldl (fun MetaDataLen g =>
    let MetaDataLen := u32 (MetaDataLen + 24)
    let MetaDataLen := u32 (MetaDataLen + strlen g.GroupPath)
    let MetaDataLen := u32 (MetaDataLen + strlen Legacy.strDescription)
    let MetaDataLen := u32 (MetaDataLen + strlen g.GroupDescription)
    Legacy.GenFirstPart.lenChannels MetaDataLen g.ChannelArray) MetaDataLen

/-- The statements of the legacy `TDMS_GenFirstPart` that store an object
path: `CounterK = strlen(path)`, the 32-bit length, `strcpy` of the path and
`DataSize += CounterK`. -/
def Legacy.GenFirstPart.emitPath (c : Cursor) (path : List Nat) : Cursor :=
  let CounterK := u32 (strlen path)
  let c := c.save32 CounterK
  ⟨strcpy c.Buffer c.DataSize path, u32 (c.DataSize + CounterK)⟩

/-- The three statements of the legacy `TDMS_GenFirstPart` that store one
String property: the name, the type `tdsTypeString` and the value. -/
def Legacy.GenFirstPart.emitProperty (c : Cursor) (Name Value : List Nat) : Cursor :=
  let c := c.saveStr Name
  let c := c.save32 Legacy.tdsTypeString
  c.saveStr Value

/-- Emit loop of the legacy `TDMS_GenFirstPart` over the channels of one group. -/
def Legacy.GenFirstPart.emitChannels (c : Cursor) (chs : List Legacy.TDMS_Channel_t) : Cursor :=
  chs.foldl (fun c ch =>
    let c := Legacy.GenFirstPart.emitPath c ch.ChannelPath
    let c := c.save32 0xFFFFFFFF
    let c := c.save32 0x02
    let c := Legacy.GenFirstPart.emitProperty c Legacy.strDescription ch.ChannelDescription
    Legacy.GenFirstPart.emitProperty c Legacy.strUnit ch.ChannelUitString) c

/-- Emit loop of the legacy `TDMS_GenFirstPart` over the groups. -/
def Legacy.GenFirstPart.emitGroups (c : Cursor) (gs : List Legacy.TDMS_Group_t) : Cursor :=
  gs.foldl (fun c g =>
    let c := Legacy.GenFirstPart.emitPath c g.GroupPath
    let c := c.save32 0xFFFFFFFF
    let c := c.save32 0x01
    let c := Legacy.GenFirstPart.emitProperty c Legacy.strDescription g.GroupDescription
    Legacy.GenFirstPart.emitChannels c g.ChannelArray) c

/-- Function `TDMS_GenFirstPart(File, Buffer, Size)` of the legacy encoder.
Its private functions `TDMS_SaveDataLittleEndian32`,
`TDMS_SaveStrToMetaDataPart` and `TDMS_GenerateLeadInPart` are those of
`src/src/TDMS.c` word for word, compiled with `TDMS_SYSTEM_ENDIANNESS` 0 of
`TDMS_config.h`.  `nog` and `noc[i]` are the counters `NumOfGroups` and
`NumOfChannels`, the lengths of the arrays read here; `RawDataLen` is the
macro 0. -/
def Legacy.TDMS_GenFirstPart (File : Legacy.TDMS_File_t) (Buffer : Option Mem) (_Size : Nat) :
    Out :=
  let nog := File.GroupArray.length
  let tnoc := File.GroupArray.foldl (fun tnoc g => u32 (tnoc + g.ChannelArray.length)) 0
  let noo := u32 (u32 (nog + tnoc) + 1)
  let MetaDataLen := 0
  let MetaDataLen := u32 (MetaDataLen + 53)
  let MetaDataLen := u32 (MetaDataLen + strlen Legacy.strDescription)
  let MetaDataLen := u32 (MetaDataLen + strlen File.FileDescription)
  let MetaDataLen := u32 (MetaDataLen + strlen Legacy.strTitle)
  let MetaDataLen := u32 (MetaDataLen + strlen File.FileTitle)
  let MetaDataLen := u32 (MetaDataLen + strlen Legacy.strAuthor)
  let MetaDataLen := u32 (MetaDataLen + strlen File.FileAuthor)
  let MetaDataLen := Legacy.GenFirstPart.lenGroups MetaDataLen File.GroupArray
  match Buffer with
  | none => ⟨TDMS_OK, u32 (u32 (LeadInPartLen + MetaDataLen) + 0), none⟩
  | some Buffer =>
    let c : Cursor := ⟨Buffer, 0⟩
    let c := c.leadIn (kTocMetaData ||| kTocNewObjList) (u32 (MetaDataLen + 0)) MetaDataLen
    let c := c.save32 noo
    let c := c.saveStr [0x2F]
    let c := c.save32 0xFFFFFFFF
    let c := c.save32 0x03
    let c := Legacy.GenFirstPart.emitProperty c Legacy.strDescription File.FileDescription
    let c := Legacy.GenFirstPart.emitProperty c Legacy.strTitle File.FileTitle
    let c := Legacy.GenFirstPart.emitProperty c Legacy.strAuthor File.FileAuthor
    let c := Legacy.GenFirstPart.emitGroups c File.GroupArray
    ⟨TDMS_OK, c.DataSize, some c.Buffer⟩

/-! ## Example objects -/

/-- The group path `/'G'`. -/
def pathG : List Nat := [0x2F, 0x27, 0x47, 0x27]

/-- The channel path `/'G'/'C'`. -/
def pathGC : List Nat := [0x2F, 0x27, 0x47, 0x27, 0x2F, 0x27, 0x43, 0x27]

/-- The U8 channel `C` of group `G`. -/
def exampleChannel : TDMS_Channel_t := ⟨TDMS_DataType_U8, pathGC⟩

/-- The group `G` holding the channel `C`. -/
def exampleGroup : TDMS_Group_t := ⟨[exampleChannel], pathG⟩

/-- The file holding the group `G`. -/
def exampleFile : TDMS_File_t := ⟨[exampleGroup]⟩

/-- The property name `Author`. -/
def nameAuthor : List Nat := [0x41, 0x75, 0x74, 0x68, 0x6F, 0x72]

/-- The string `X`. -/
def valueX : List Nat := [0x58]

/-- The channel path `/'G'/'D'`. -/
def pathGD : List Nat := [0x2F, 0x27, 0x47, 0x27, 0x2F, 0x27, 0x44, 0x27]

/-- A group `G` with two U8 channels `C` and `D`. -/
def twoChannelGroup : TDMS_Group_t :=
  ⟨[⟨TDMS_DataType_U8, pathGC⟩, ⟨TDMS_DataType_U8, pathGD⟩], pathG⟩

/-- Counts 2^32 - 1 and 2^32 - 85 for the two channels of `twoChannelGroup`
(value arrays of zero bytes). -/
def hugeArgs : List (Mem × Nat) := [(fun _ => 0, 4294967295), (fun _ => 0, 4294967211)]

/-- Counts 2^32 - 104 + k and 4 for the two channels of `twoChannelGroup`, the
first value array of zero bytes, the second of bytes FF: the metadata ends at
index 104, so the 32-bit write position after the first raw block is `k`. -/
def wrapArgs (k : Nat) : List (Mem × Nat) := [(fun _ => 0, 4294967192 + k), (fun _ => 0xFF, 4)]

/-- A Boolean channel with the path `/'G'/'C'`. -/
def exampleBoolChannel : TDMS_Channel_t := ⟨TDMS_DataType_Boolean, pathGC⟩

/-- The value bytes 0 5 1 followed by bytes 9. -/
def boolValues : Mem := fun i => if i = 0 then 0 else if i = 1 then 5 else if i = 2 then 1 else 9

/-- Caller memory of zero bytes: every counter 0, every pointer 0, every path
empty, every type tag `TDMS_DataType_Void`. -/
def zeroObjects : Objects :=
  ⟨fun _ => ⟨0, fun _ => 0⟩, fun _ => ⟨0, 0, fun _ => 0, []⟩,
    fun _ => ⟨0, TDMS_DataType_Void, []⟩⟩

/-- The name `G`. -/
def nameG : List Nat := [0x47]

/-- The name `C`. -/
def nameC : List Nat := [0x43]

/-- Caller memory after `TDMS_InitFile` on the file at address 0 and
`TDMS_AddGroupToFile` with the name `G` for the groups at the addresses 1, 2, 3
and 4: the file is full. -/
def fullFileObjects : Objects :=
  let h := (TDMS_InitFile zeroObjects 0).2
  let h := (TDMS_AddGroupToFile h 1 0 nameG).2
  let h := (TDMS_AddGroupToFile h 2 0 nameG).2
  let h := (TDMS_AddGroupToFile h 3 0 nameG).2
  (TDMS_AddGroupToFile h 4 0 nameG).2

/-- Caller memory after `TDMS_AddChannelToGroup` with the name `C` and the type
U8 for the channels at the addresses 1 to 8 on the group at address 1 of
`fullFileObjects`: the group is full. -/
def fullGroupObjects : Objects :=
  [1, 2, 3, 4, 5, 6, 7, 8].foldl
    (fun h Channel => (TDMS_AddChannelToGroup h Channel 1 nameC TDMS_DataType_U8).2)
    fullFileObjects

/-- Caller memory of zero bytes for the legacy encoder. -/
def Legacy.zeroObjects : Legacy.Objects :=
  ⟨fun _ => ⟨[], [], [], 0, fun _ => 0⟩, fun _ => ⟨[], [], [], 0, fun _ => 0, 0⟩,
    fun _ => ⟨0, [], [], [], [], 0⟩⟩

/-- A configuration of the legacy encoder with arrays of 30 bytes for the
descriptions and the unit string. -/
def Legacy.exampleConfig : Legacy.Config := ⟨30, 30, 30⟩

/-- Caller memory of the legacy encoder after `TDMS_CreateFile` with the
description `X`, the title `G` and the author `C` on the file at address 0,
`TDMS_AddGroup` with the name `G` and the description `X` for the group at
address 1, and `TDMS_AddChannel` with the type U8, the name `C`, the
description `X` and the unit `C` for the channel at address 1. -/
def Legacy.exampleObjects : Legacy.Objects :=
  let h := (Legacy.TDMS_CreateFile ⟨30, 30, 30⟩ Legacy.zeroObjects valueX nameG nameC 0).2
  let h := (Legacy.TDMS_AddGroup Legacy.exampleConfig h 0 nameG valueX 1).2
  (Legacy.TDMS_AddChannel Legacy.exampleConfig h 1 0x05 nameC valueX nameC 1).2

/-- A name of 30 bytes `A`. -/
def name30 : List Nat := List.replicate 30 0x41

/-- A group `G` with a U8 channel `C` and a SingleFloat channel `D`. -/
def mixedGroup : TDMS_Group_t :=
  ⟨[⟨TDMS_DataType_U8, pathGC⟩, ⟨TDMS_DataType_SingleFloat, pathGD⟩], pathG⟩

/-- Three U8 values 1 2 3 and two SingleFloat values of bytes 100..107. -/
def mixedArgs : List (Mem × Nat) := [(fun i => i + 1, 3), (fun i => 100 + i, 2)]

/-- A TimeStamp channel (fixed width 16) with the path `/'G'/'C'`. -/
def exampleTimeChannel : TDMS_Channel_t := ⟨TDMS_DataType_TimeStamp, pathGC⟩

/-- A group `G` holding one TimeStamp channel. -/
def timeGroup : TDMS_Group_t := ⟨[exampleTimeChannel], pathG⟩

/-! ## Wire-format vocabulary used to state the properties -/

/-- Little-endian bytes of a 32-bit field. -/
def le32 (v : Nat) : List Nat :=
  [v % 256, v / 256 % 256, v / 65536 % 256, v / 16777216 % 256]

/-- Little-endian bytes of a 64-bit field. -/
def le64 (v : Nat) : List Nat :=
  [v % 256, v / 256 % 256, v / 65536 % 256, v / 16777216 % 256,
   v / 4294967296 % 256, v / 1099511627776 % 256, v / 281474976710656 % 256,
   v / 72057594037927936 % 256]

/-- Value of a little-endian byte sequence. -/
def leValue : List Nat → Nat
  | [] => 0
  | b :: bs => b + 256 * leValue bs

/-- A length-prefixed string: the 32-bit length and the bytes, no terminator. -/
def lenString (s : List Nat) : List Nat := le32 s.length ++ s

/-- The lead-in of a segment with the given ToC, next-segment offset and raw
data offset. -/
def leadInBytes (ToC Next Raw : Nat) : List Nat :=
  [0x54, 0x44, 0x53, 0x6D] ++ le32 ToC ++ [0x69, 0x12, 0x00, 0x00] ++ le64 Next ++ le64 Raw

/-- Record of an object without raw data and without properties. -/
def objectRecord (path : List Nat) : List Nat :=
  lenString path ++ [0xFF, 0xFF, 0xFF, 0xFF] ++ le32 0

/-- Paths of a group and of its channels, in insertion order. -/
def groupPaths (g : TDMS_Group_t) : List (List Nat) :=
  g.GroupPath :: g.ChannelArray.map (fun ch => ch.ChannelPath)

/-- Paths of all objects of a file: the root, then each group followed by its
channels, in insertion order. -/
def objectPaths (File : TDMS_File_t) : List (List Nat) :=
  [0x2F] :: (File.GroupArray.map groupPaths).flatten

/-- Records of a list of objects, in order. -/
def objectRecords (paths : List (List Nat)) : List Nat :=
  (paths.map objectRecord).flatten

/-- Bytes taken by the records of a list of objects: for each object the
length field, the path, the raw data index and the number of properties. -/
def recordsSize (paths : List (List Nat)) : Nat :=
  (paths.map (fun p => 4 + p.length + 4 + 4)).sum

/-- The segment of a declaration: lead-in, number of objects, records. -/
def firstPartBytes (File : TDMS_File_t) : List Nat :=
  leadInBytes 0x06 (4 + recordsSize (objectPaths File)) (4 + recordsSize (objectPaths File))
    ++ le32 (objectPaths File).length ++ objectRecords (objectPaths File)

/-- A channel whose cached path fits the array `ChannelPath` of the structure. -/
def TDMS_Channel_t.WellFormed (ch : TDMS_Channel_t) : Prop :=
  ch.ChannelPath.length ≤ TDMS_GROUP_NAME_LEN + TDMS_CHANNEL_NAME_LEN + 5

/-- A group whose cached path fits the array `GroupPath`, with at most
`TDMS_CONFIG_MAX_CHANNEL_OF_GROUP` channels, all well formed. -/
def TDMS_Group_t.WellFormed (g : TDMS_Group_t) : Prop :=
  g.GroupPath.length ≤ TDMS_GROUP_NAME_LEN + 2 ∧
  g.ChannelArray.length ≤ TDMS_CONFIG_MAX_CHANNEL_OF_GROUP ∧
  ∀ ch ∈ g.ChannelArray, ch.WellFormed

/-- A file with at most `TDMS_CONFIG_MAX_GROUP_OF_FILE` groups, all well formed. -/
def TDMS_File_t.WellFormed (File : TDMS_File_t) : Prop :=
  File.GroupArray.length ≤ TDMS_CONFIG_MAX_GROUP_OF_FILE ∧
  ∀ g ∈ File.GroupArray, g.WellFormed

instance (ch : TDMS_Channel_t) : Decidable ch.WellFormed := by
  unfold TDMS_Channel_t.WellFormed; infer_instance

instance (g : TDMS_Group_t) : Decidable g.WellFormed := by
  unfold TDMS_Group_t.WellFormed; infer_instance

instance (File : TDMS_File_t) : Decidable File.WellFormed := by
  unfold TDMS_File_t.WellFormed; infer_instance

/-- Bytes taken by a property value: length field and bytes of a string, the
fixed width otherwise. -/
def propertyValueSize (DataType : TDMS_Data_t) (Value : List Nat) : Nat :=
  if DataType = TDMS_DataType_String then 4 + Value.length else dataTypeLength DataType

/-- Size of a property segment: lead-in, the fixed fields (24 bytes), the path,
the name and the value. -/
def propertySize (Path Name : List Nat) (DataType : TDMS_Data_t) (Value : List Nat) : Nat :=
  28 + 24 + Path.length + Name.length + propertyValueSize DataType Value

/-- Metadata of a property segment: one object, its path, no raw data, one
property with its name, wire code and value. -/
def propertyMeta (Path Name : List Nat) (DataType : TDMS_Data_t) (Value : List Nat) : List Nat :=
  le32 1 ++ lenString Path ++ [0xFF, 0xFF, 0xFF, 0xFF] ++ le32 1 ++ lenString Name
    ++ le32 (dataTypeBinary DataType)
    ++ (if DataType = TDMS_DataType_String then lenString Value
        else Value.take (dataTypeLength DataType))

/-- The segment of a property: the lead-in with both offsets equal to the
metadata length, then the metadata. -/
def propertyBytes (Path Name : List Nat) (DataType : TDMS_Data_t) (Value : List Nat) : List Nat :=
  leadInBytes 0x06 (propertySize Path Name DataType Value - 28)
      (propertySize Path Name DataType Value - 28)
    ++ propertyMeta Path Name DataType Value

/-- A property type the builder accepts: nonzero fixed width, or String. -/
def acceptedProperty (DataType : TDMS_Data_t) : Prop :=
  ¬ (dataTypeLength DataType = 0 ∧ DataType ≠ TDMS_DataType_String)

instance (DataType : TDMS_Data_t) : Decidable (acceptedProperty DataType) := by
  unfold acceptedProperty; infer_instance

/-- The caller's Boolean values after normalisation of the first `n` of them:
zero stays zero, every other byte becomes one. -/
def boolNorm (n : Nat) (Values : Mem) : Mem :=
  fun k => if k < n then (if Values k ≠ 0 then 1 else 0) else Values k

/-- The caller's value array after `TDMS_SetChannelDataValues` has returned. -/
def valuesAfter (DataType : TDMS_Data_t) (n : Nat) (Values : Mem) : Mem :=
  if DataType = TDMS_DataType_Boolean then boolNorm n Values else Values

/-- Object header of a channel with raw data: the length-prefixed path, the
index length 0x14, the wire code of the type, the dimension 1, the 64-bit
number of values and the number of properties 0. -/
def channelHeader (ch : TDMS_Channel_t) (n : Nat) : List Nat :=
  lenString ch.ChannelPath ++ le32 0x14 ++ le32 (dataTypeBinary ch.ChannelDataType)
    ++ le32 1 ++ le64 n ++ le32 0

/-- The segment of a single channel with `n` values: lead-in, one object
header, then the raw bytes `raw`. -/
def channelDataBytes (ch : TDMS_Channel_t) (n : Nat) (raw : List Nat) : List Nat :=
  leadInBytes 0x0E (32 + ch.ChannelPath.length + raw.length) (32 + ch.ChannelPath.length)
    ++ le32 1 ++ channelHeader ch n ++ raw

/-- The channels of a group call that carry data: those with a nonzero count,
in group insertion order. -/
def included (chs : List (TDMS_Channel_t × Mem × Nat)) : List (TDMS_Channel_t × Mem × Nat) :=
  chs.filter (fun x => x.2.2 ≠ 0)

/-- Bytes of the object headers of a group data segment: 28 fixed bytes and
the path for each included channel. -/
def groupMetaSize (chs : List (TDMS_Channel_t × Mem × Nat)) : Nat :=
  ((included chs).map (fun x => 28 + x.1.ChannelPath.length)).sum

/-- Bytes of the raw data of a group data segment: count times fixed width for
each included channel. -/
def groupRawSize (chs : List (TDMS_Channel_t × Mem × Nat)) : Nat :=
  ((included chs).map (fun x => x.2.2 * dataTypeLength x.1.ChannelDataType)).sum

/-- Object headers of a group data segment, one for each included channel. -/
def groupHeaders (chs : List (TDMS_Channel_t × Mem × Nat)) : List Nat :=
  ((included chs).map (fun x => channelHeader x.1 x.2.2)).flatten

/-- Raw data block of a group data segment: the value bytes of each included
channel, one channel after the other. -/
def groupRaw (chs : List (TDMS_Channel_t × Mem × Nat)) : List Nat :=
  ((included chs).map
    (fun x => memDump x.2.1 (x.2.2 * dataTypeLength x.1.ChannelDataType))).flatten

/-- The segment of a group data call. -/
def groupDataBytes (chs : List (TDMS_Channel_t × Mem × Nat)) : List Nat :=
  leadInBytes 0x0E (4 + groupMetaSize chs + groupRawSize chs) (4 + groupMetaSize chs)
    ++ le32 (included chs).length ++ groupHeaders chs ++ groupRaw chs

/-- Every included channel has a raw length that is nonzero as a `uint32_t`. -/
def rawLenOK (chs : List (TDMS_Channel_t × Mem × Nat)) : Prop :=
  ∀ x ∈ chs, x.2.2 ≠ 0 → u32 (dataTypeLength x.1.ChannelDataType * x.2.2) ≠ 0

instance (chs : List (TDMS_Channel_t × Mem × Nat)) : Decidable (rawLenOK chs) := by
  unfold rawLenOK; infer_instance

/-- Size of a group data segment: lead-in, number of objects and, for each
included channel, 28 + len(path) + count * fixed width. -/
def groupSize (chs : List (TDMS_Channel_t × Mem × Nat)) : Nat :=
  28 + 4 + ((included chs).map (fun x =>
    28 + x.1.ChannelPath.length + x.2.2 * dataTypeLength x.1.ChannelDataType)).sum

/-- The 64-bit little-endian field held by the 8 bytes of a buffer from index `off`. -/
def field64 (b : Mem) (off : Nat) : Nat :=
  leValue ((List.range 8).map (fun i => b (off + i)))

/-- Bytes stored by `TDMS_SaveDataLittleEndian64`. -/
def saved64 (v : Nat) : List Nat := le32 v ++ [0, 0, 0, 0]

/-- The cursor has written `acc` from index 0 of the buffer `b0`, followed by
the bytes `t` beyond the running size, and nothing else. -/
def Cursor.Holds (c : Cursor) (b0 : Mem) (acc t : List Nat) : Prop :=
  c.Buffer = writeBytes b0 0 (acc ++ t) ∧ c.DataSize = acc.length

/-- Leap year of the civil calendar. -/
def isLeapYear (Y : Nat) : Prop := (Y % 4 = 0 ∧ Y % 100 ≠ 0) ∨ Y % 400 = 0

instance (Y : Nat) : Decidable (isLeapYear Y) := by
  unfold isLeapYear; infer_instance

/-- Days of the month `M` of the year `Y`. -/
def daysOfMonth (Y M : Nat) : Nat :=
  if M = 2 then (if isLeapYear Y then 29 else 28)
  else if M = 4 ∨ M = 6 ∨ M = 9 ∨ M = 11 then 30
  else if 1 ≤ M ∧ M ≤ 12 then 31 else 0

/-- Days of the year `Y`. -/
def daysOfYear (Y : Nat) : Nat := if isLeapYear Y then 366 else 365

/-- Days in the full years 1904 .. Y - 1. -/
def daysOfFullYears (Y : Nat) : Nat :=
  ((List.range (Y - 1904)).map (fun i => daysOfYear (1904 + i))).sum

/-- Days in the full months 1 .. M - 1 of the year `Y`. -/
def daysOfFullMonths (Y M : Nat) : Nat :=
  ((List.range (M - 1)).map (fun i => daysOfMonth Y (1 + i))).sum

/-- Seconds from 1904-01-01 00:00:00 to the civil instant. -/
def civilSeconds (Y M D h m s : Nat) : Int :=
  86400 * ((daysOfFullYears Y + daysOfFullMonths Y M + (D - 1) : Nat) : Int)
    + 3600 * (h : Int) + 60 * (m : Int) + (s : Int)

/-- A valid civil instant from 1904 on. -/
def validCivil (Y M D h m s : Nat) : Prop :=
  1904 ≤ Y ∧ 1 ≤ M ∧ M ≤ 12 ∧ 1 ≤ D ∧ D ≤ daysOfMonth Y M ∧ h < 24 ∧ m < 60 ∧ s < 60

instance (Y M D h m s : Nat) : Decidable (validCivil Y M D h m s) := by
  unfold validCivil; infer_instance

/-- A call of a construction function while a file is built. -/
inductive Call
  | addGroup (Group : Ptr) (Name : List Nat)
  | addChannel (Channel Group : Ptr) (Name : List Nat) (DataType : TDMS_Data_t)

/-- The group object a call works on. -/
def Call.group : Call → Ptr
  | .addGroup Group _ => Group
  | .addChannel _ Group _ _ => Group

/-- Result code and caller memory after the call, groups being added to the
file at address `File`. -/
def Call.run (File : Ptr) (h : Objects) : Call → TDMS_Result_t × Objects
  | .addGroup Group Name => TDMS_AddGroupToFile h Group File Name
  | .addChannel Channel Group Name DataType =>
    TDMS_AddChannelToGroup h Channel Group Name DataType

/-- The calls of a sequence run in order from the memory `h`: each call with
its result code, and the memory after the last call. -/
def runCalls (File : Ptr) : Objects → List Call → List (Call × TDMS_Result_t) × Objects
  | h, [] => ([], h)
  | h, c :: cs =>
    ((c, (c.run File h).1) :: (runCalls File (c.run File h).2 cs).1,
      (runCalls File (c.run File h).2 cs).2)

/-- The group of a successful `TDMS_AddGroupToFile` call. -/
def okGroup : Call × TDMS_Result_t → Option Ptr
  | (.addGroup Group _, TDMS_OK) => some Group
  | _ => none

/-- The channel of a successful `TDMS_AddChannelToGroup` call on `Group`. -/
def okChannel (Group : Ptr) : Call × TDMS_Result_t → Option Ptr
  | (.addChannel Channel G _ _, TDMS_OK) => if G = Group then some Channel else none
  | _ => none

/-- The groups of the successful `TDMS_AddGroupToFile` calls, in call order. -/
def okGroups (t : List (Call × TDMS_Result_t)) : List Ptr := t.filterMap okGroup

/-- The channels of the successful `TDMS_AddChannelToGroup` calls on `Group`,
in call order. -/
def okChannels (Group : Ptr) (t : List (Call × TDMS_Result_t)) : List Ptr :=
  t.filterMap (okChannel Group)

/-- The groups passed to `TDMS_AddGroupToFile` by the calls of a sequence. -/
def groupsAdded (cs : List Call) : List Ptr :=
  cs.filterMap (fun c => match c with
    | .addGroup Group _ => some Group
    | .addChannel _ _ _ _ => none)

/-- The calls made after the successful `TDMS_AddGroupToFile` call on `Group`
(none when there is no such call). -/
def afterAttached (Group : Ptr) : List (Call × TDMS_Result_t) → List (Call × TDMS_Result_t)
  | [] => []
  | x :: t => if okGroup x = some Group then t else afterAttached Group t

/-- The groups at the addresses 1 to 5 are added with the name `G`, then the
U8 channels at the addresses 1 to 9 are added to the group at address 1 with
the name `C`. -/
def fiveGroupsNineChannels : List Call :=
  [1, 2, 3, 4, 5].map (fun Group => Call.addGroup Group nameG)
    ++ [1, 2, 3, 4, 5, 6, 7, 8, 9].map
      (fun Channel => Call.addChannel Channel 1 nameC TDMS_DataType_U8)

/-- The U8 channel at address 1 is added to the group at address 1, then this
group is added to the file. -/
def channelBeforeGroup : List Call :=
  [Call.addChannel 1 1 nameC TDMS_DataType_U8, Call.addGroup 1 nameG]

/-- Bytes `[i..j)` of a buffer. -/
def bytesAt (b : Mem) (i j : Nat) : List Nat := (memDump b j).drop i

/-- A call of one of the four segment builders with a buffer: the declaration
builder, the property builder (for a file, a group or a channel, by the object
path), the single-channel data builder and the group data builder. -/
inductive EmitCall
  | firstPart (File : TDMS_File_t)
  | property (Path Name : List Nat) (DataType : TDMS_Data_t) (Value : List Nat)
  | channelData (fuel : Nat) (Channel : TDMS_Channel_t) (Values : Mem) (NumOfValues : Nat)
  | groupData (Group : TDMS_Group_t) (args : List (Mem × Nat))

/-- Result of the call on the buffer `Buffer`, `none` when it does not return. -/
def EmitCall.run : EmitCall → Mem → Nat → Option Out
  | .firstPart File, Buffer, Size => some (TDMS_GenFirstPart File (some Buffer) Size)
  | .property Path Name DataType Value, Buffer, Size =>
    some (TDMS_AddPropertyToObject Path (some Buffer) Size Name DataType Value)
  | .channelData fuel Channel Values NumOfValues, Buffer, Size =>
    (TDMS_SetChannelDataValues fuel Channel (some Buffer) Size Values NumOfValues).map
      (fun o => ⟨o.ret, o.Size, o.Buffer⟩)
  | .groupData Group args, Buffer, Size =>
    some (TDMS_SetGroupDataValues Group (some Buffer) Size args)

/-- Table of contents of the kind of segment the call builds: metadata and new
object list, and raw data for the two data builders. -/
def EmitCall.tocOf : EmitCall → Nat
  | .firstPart _ => 0x06
  | .property _ _ _ _ => 0x06
  | .channelData _ _ _ _ => 0x0E
  | .groupData _ _ => 0x0E

/-- The call emits a segment and the size of that segment fits in 32 bits. -/
def EmitCall.Fits : EmitCall → Prop
  | .firstPart File => 28 + 4 + recordsSize (objectPaths File) < 4294967296
  | .property Path Name DataType Value =>
    acceptedProperty DataType ∧ propertySize Path Name DataType Value < 4294967296
  | .channelData fuel Channel _ NumOfValues =>
    dataTypeLength Channel.ChannelDataType ≠ 0 ∧ 0 < NumOfValues ∧
    28 + 32 + Channel.ChannelPath.length
      + dataTypeLength Channel.ChannelDataType * NumOfValues < 4294967296 ∧
    (Channel.ChannelDataType = TDMS_DataType_Boolean → NumOfValues < 65536 ∧ NumOfValues < fuel)
  | .groupData Group args =>
    Group.ChannelArray.length ≤ TDMS_CONFIG_MAX_CHANNEL_OF_GROUP ∧
    args.length = Group.ChannelArray.length ∧
    0 < (included (Group.ChannelArray.zip args)).length ∧
    (∀ x ∈ Group.ChannelArray.zip args, x.2.2 ≠ 0 → dataTypeLength x.1.ChannelDataType ≠ 0) ∧
    groupSize (Group.ChannelArray.zip args) < 4294967296

instance (c : EmitCall) : Decidable c.Fits := by
  cases c <;> unfold EmitCall.Fits <;> infer_instance

/-- A String property on the wire: the length-prefixed name, the wire code of
String and the length-prefixed value. -/
def Legacy.stringProperty (Name Value : List Nat) : List Nat :=
  lenString Name ++ le32 0x20 ++ lenString Value

/-- Record of a channel in the legacy declaration: path, raw data index
FF FF FF FF, two properties `Description` and `Unit`. -/
def Legacy.channelRecord (ch : Legacy.TDMS_Channel_t) : List Nat :=
  lenString ch.ChannelPath ++ le32 0xFFFFFFFF ++ le32 2
    ++ Legacy.stringProperty Legacy.strDescription ch.ChannelDescription
    ++ Legacy.stringProperty Legacy.strUnit ch.ChannelUitString

/-- Records of a group and of its channels in the legacy declaration. -/
def Legacy.groupRecord (g : Legacy.TDMS_Group_t) : List Nat :=
  lenString g.GroupPath ++ le32 0xFFFFFFFF ++ le32 1
    ++ Legacy.stringProperty Legacy.strDescription g.GroupDescription
    ++ (g.ChannelArray.map Legacy.channelRecord).flatten

/-- Record of the file object in the legacy declaration: the path `/`, no raw
data, the properties `Description`, `Title` and `Author`. -/
def Legacy.fileRecord (File : Legacy.TDMS_File_t) : List Nat :=
  lenString [0x2F] ++ le32 0xFFFFFFFF ++ le32 3
    ++ Legacy.stringProperty Legacy.strDescription File.FileDescription
    ++ Legacy.stringProperty Legacy.strTitle File.FileTitle
    ++ Legacy.stringProperty Legacy.strAuthor File.FileAuthor

/-- Precomputed length of a channel: 36 + 15 + the three string lengths. -/
def Legacy.channelLen (ch : Legacy.TDMS_Channel_t) : Nat :=
  36 + 15 + ch.ChannelPath.length + ch.ChannelDescription.length + ch.ChannelUitString.length

/-- Precomputed length of a group with its channels: 24 + 11 + the two string
lengths + the lengths of the channels. -/
def Legacy.groupLen (g : Legacy.TDMS_Group_t) : Nat :=
  24 + 11 + g.GroupPath.length + g.GroupDescription.length
    + (g.ChannelArray.map Legacy.channelLen).sum

/-- Precomputed length of the metadata of the legacy declaration. -/
def Legacy.metaLen (File : Legacy.TDMS_File_t) : Nat :=
  53 + 22 + File.FileDescription.length + File.FileTitle.length + File.FileAuthor.length
    + (File.GroupArray.map Legacy.groupLen).sum

/-- Number of objects of a file: groups, channels and the file itself. -/
def Legacy.numObjects (File : Legacy.TDMS_File_t) : Nat :=
  File.GroupArray.length + (File.GroupArray.map (fun g => g.ChannelArray.length)).sum + 1

/-- The segment of the legacy declaration. -/
def Legacy.segmentBytes (File : Legacy.TDMS_File_t) : List Nat :=
  leadInBytes 0x06 (Legacy.metaLen File) (Legacy.metaLen File)
    ++ le32 (Legacy.numObjects File) ++ Legacy.fileRecord File
    ++ (File.GroupArray.map Legacy.groupRecord).flatten

/-- A channel whose strings are shorter than 65536 bytes, the largest size
`TDMS_StrnCpy` takes. -/
def Legacy.TDMS_Channel_t.WellFormed (ch : Legacy.TDMS_Channel_t) : Prop :=
  ch.ChannelPath.length < 65536 ∧ ch.ChannelDescription.length < 65536 ∧
  ch.ChannelUitString.length < 65536

/-- A group whose strings are shorter than 65536 bytes, with at most
`TDMS_MAX_CHANNEL_OF_GROUP` channels, all well formed. -/
def Legacy.TDMS_Group_t.WellFormed (g : Legacy.TDMS_Group_t) : Prop :=
  g.GroupPath.length < 65536 ∧ g.GroupDescription.length < 65536 ∧
  g.ChannelArray.length ≤ Legacy.TDMS_MAX_CHANNEL_OF_GROUP ∧
  ∀ ch ∈ g.ChannelArray, ch.WellFormed

/-- A file whose strings are shorter than 65536 bytes, with at most
`TDMS_MAX_GROUP_OF_FILE` groups, all well formed. -/
def Legacy.TDMS_File_t.WellFormed (File : Legacy.TDMS_File_t) : Prop :=
  File.FileDescription.length < 65536 ∧ File.FileTitle.length < 65536 ∧
  File.FileAuthor.length < 65536 ∧
  File.GroupArray.length ≤ Legacy.TDMS_MAX_GROUP_OF_FILE ∧
  ∀ g ∈ File.GroupArray, g.WellFormed

instance (ch : Legacy.TDMS_Channel_t) : Decidable ch.WellFormed := by
  unfold Legacy.TDMS_Channel_t.WellFormed; infer_instance

instance (g : Legacy.TDMS_Group_t) : Decidable g.WellFormed := by
  unfold Legacy.TDMS_Group_t.WellFormed; infer_instance

instance (File : Legacy.TDMS_File_t) : Decidable File.WellFormed := by
  unfold Legacy.TDMS_File_t.WellFormed; infer_instance

/-- The civil instant `Y1-M1-D1 h1:m1:s1` is earlier than `Y2-M2-D2 h2:m2:s2`:
lexicographic order on year, month, day, hour, minute, second. -/
def civilEarlier (Y1 M1 D1 h1 m1 s1 Y2 M2 D2 h2 m2 s2 : Nat) : Prop :=
  Y1 < Y2 ∨ (Y1 = Y2 ∧ (M1 < M2 ∨ (M1 = M2 ∧ (D1 < D2 ∨ (D1 = D2 ∧
    (h1 < h2 ∨ (h1 = h2 ∧ (m1 < m2 ∨ (m1 = m2 ∧ s1 < s2)))))))))

instance (Y1 M1 D1 h1 m1 s1 Y2 M2 D2 h2 m2 s2 : Nat) :
    Decidable (civilEarlier Y1 M1 D1 h1 m1 s1 Y2 M2 D2 h2 m2 s2) := by
  unfold civilEarlier; infer_instance

/-! ## Arithmetic and memory lemmas -/

theorem u32_of_lt {x : Nat} (h : x < 4294967296) : u32 x = x := Nat.mod_eq_of_lt h

theorem u32_lt (x : Nat) : u32 x < 4294967296 := Nat.mod_lt _ (by decide)

theorem u32_add_left (a b : Nat) : u32 (u32 a + b) = u32 (a + b) := by
  simp [u32, Nat.add_mod]

theorem u32_add_right (a b : Nat) : u32 (a + u32 b) = u32 (a + b) := by
  simp [u32, Nat.add_mod]

theorem u32_idem (a : Nat) : u32 (u32 a) = u32 a := by
  simp [u32]

theorem writeBytes_apply (m : Mem) (off : Nat) (l : List Nat) (j : Nat) :
    writeBytes m off l j = if off ≤ j then (l[j - off]?).getD (m j) else m j := by
  induction l generalizing m off with
  | nil => simp [writeBytes]
  | cons b bs ih =>
    rw [writeBytes, ih]
    by_cases h1 : off + 1 ≤ j
    · have h2 : off ≤ j := by omega
      have h3 : j - off = (j - (off + 1)) + 1 := by omega
      have h4 : j ≠ off := by omega
      simp [h1, h2, h3, memSet, h4]
    · by_cases h2 : off ≤ j
      · have h3 : j = off := by omega
        subst h3
        simp [memSet]
      · have h4 : j ≠ off := by omega
        simp [h1, h2, memSet, h4]

theorem writeBytes_over (m : Mem) (acc t l : List Nat) (h : t.length ≤ l.length) :
    writeBytes (writeBytes m 0 (acc ++ t)) acc.length l = writeBytes m 0 (acc ++ l) := by
  funext j
  simp only [writeBytes_apply, Nat.zero_le, if_true, Nat.sub_zero]
  by_cases h1 : acc.length ≤ j
  · rw [if_pos h1, List.getElem?_append_right h1, List.getElem?_append_right h1]
    by_cases h2 : j - acc.length < l.length
    · simp [List.getElem?_eq_getElem h2]
    · have h3 : l.length ≤ j - acc.length := by omega
      have h4 : t.length ≤ j - acc.length := by omega
      simp [List.getElem?_eq_none h3, List.getElem?_eq_none h4]
  · have h2 : j < acc.length := by omega
    rw [if_neg h1, List.getElem?_append_left h2, List.getElem?_append_left h2]

theorem memDump_length (m : Mem) (n : Nat) : (memDump m n).length = n := by
  simp [memDump]

theorem memDump_writeBytes (m : Mem) (l t : List Nat) :
    memDump (writeBytes m 0 (l ++ t)) l.length = l := by
  apply List.ext_getElem
  · simp [memDump]
  · intro n h1 h2
    simp only [memDump, List.getElem_map, List.getElem_range, writeBytes_apply, Nat.zero_le,
      if_true, Nat.sub_zero]
    rw [List.getElem?_append_left h2, List.getElem?_eq_getElem h2]
    rfl

theorem writeBytes_frame (m : Mem) (l : List Nat) (j : Nat) (h : l.length ≤ j) :
    writeBytes m 0 l j = m j := by
  simp [writeBytes_apply, List.getElem?_eq_none h]

theorem memDump_written (m : Mem) (l : List Nat) :
    memDump (writeBytes m 0 l) l.length = l := by
  have := memDump_writeBytes m l []
  rwa [List.append_nil] at this

/-! ## The write position of a builder -/

theorem le32_length (v : Nat) : (le32 v).length = 4 := rfl

theorem le64_length (v : Nat) : (le64 v).length = 8 := rfl

theorem le32_u32 (v : Nat) : le32 (u32 v) = le32 v := by
  simp only [le32, u32, List.cons.injEq, and_true]
  omega

theorem Cursor.holds_start (b0 : Mem) : Cursor.Holds ⟨b0, 0⟩ b0 [] [] := by
  constructor <;> rfl

theorem Cursor.holds_write {c : Cursor} {b0 : Mem} {acc t : List Nat} (l : List Nat)
    (h : c.Holds b0 acc t) (ht : t.length ≤ l.length) :
    writeBytes c.Buffer c.DataSize l = writeBytes b0 0 (acc ++ l) := by
  rw [h.1, h.2, writeBytes_over _ _ _ _ ht]

theorem save32_bytes (v : Nat) :
    (List.range 4).map (fun i => u32 v / 2 ^ (8 * i) % 256) = le32 v := by
  rw [← le32_u32]
  simp [List.range, List.range.loop, le32]

theorem Cursor.save32_holds {c : Cursor} {b0 : Mem} {acc t : List Nat} (v : Nat)
    (h : c.Holds b0 acc t) (ht : t.length ≤ 4) (hlt : acc.length + 4 < 4294967296) :
    (c.save32 v).Holds b0 (acc ++ le32 v) [] := by
  constructor
  · simp only [Cursor.save32, TDMS_SaveDataLittleEndian32, save32_bytes, List.append_nil]
    exact Cursor.holds_write _ h (by simpa using ht)
  · simp only [Cursor.save32, TDMS_SaveDataLittleEndian32, h.2, List.length_append, le32_length]
    exact u32_of_lt hlt

theorem saved64_length (v : Nat) : (saved64 v).length = 8 := rfl

theorem saved64_eq_le64 {v : Nat} (h : v < 4294967296) : saved64 v = le64 v := by
  simp only [saved64, le32, le64, List.cons_append, List.nil_append, List.cons.injEq, and_true,
    true_and]
  omega

theorem save64_bytes (v : Nat) :
    (List.range 8).map (fun i => if i < 4 then u32 v / 2 ^ (8 * i) % 256 else 0) = saved64 v := by
  rw [saved64, ← le32_u32]
  simp [List.range, List.range.loop, le32]

theorem Cursor.save64_holds {c : Cursor} {b0 : Mem} {acc t : List Nat} (v : Nat)
    (h : c.Holds b0 acc t) (ht : t.length ≤ 8) (hlt : acc.length + 8 < 4294967296) :
    (c.save64 v).Holds b0 (acc ++ saved64 v) [] := by
  constructor
  · simp only [Cursor.save64, TDMS_SaveDataLittleEndian64, save64_bytes, List.append_nil]
    exact Cursor.holds_write _ h (by simpa using ht)
  · simp only [Cursor.save64, TDMS_SaveDataLittleEndian64, h.2, List.length_append,
      saved64_length]
    exact u32_of_lt hlt

theorem lenString_length (s : List Nat) : (lenString s).length = 4 + s.length := by
  simp [lenString, le32_length]

theorem Cursor.saveStr_holds {c : Cursor} {b0 : Mem} {acc t : List Nat} (s : List Nat)
    (h : c.Holds b0 acc t) (ht : t.length ≤ 4)
    (hlt : acc.length + (4 + s.length) < 4294967296) :
    (c.saveStr s).Holds b0 (acc ++ lenString s) [0] := by
  have h1 : (c.save32 (u32 (strlen s))).Holds b0 (acc ++ le32 s.length) [] := by
    have := Cursor.save32_holds (u32 (strlen s)) h ht (by omega)
    rwa [le32_u32] at this
  have h3 : (c.save32 (u32 (strlen s))).DataSize = c.DataSize + 4 := by
    rw [h1.2, h.2, List.length_append, le32_length]
  constructor
  · have h2 := Cursor.holds_write (s ++ [0]) h1 (by simp)
    rw [h3] at h2
    show writeBytes (c.save32 (u32 (strlen s))).Buffer (c.DataSize + 4) (s ++ [0]) = _
    rw [h2, lenString]
    simp
  · show u32 (c.DataSize + u32 (u32 (strlen s) + 4)) = _
    simp only [u32, h.2, List.length_append, lenString_length, strlen]
    omega

theorem Cursor.copy_holds {c : Cursor} {b0 : Mem} {acc t : List Nat} (l : List Nat) (n : Nat)
    (h : c.Holds b0 acc t) (ht : t.length ≤ l.length) (hn : u32 (acc.length + n) = acc.length + l.length) :
    Cursor.Holds ⟨writeBytes c.Buffer c.DataSize l, u32 (c.DataSize + n)⟩ b0 (acc ++ l) [] := by
  constructor
  · simp only [List.append_nil]
    exact Cursor.holds_write _ h ht
  · simp only [h.2, List.length_append]
    exact hn

theorem leadIn_bytes (ToC Next Raw : Nat) (b : Mem) :
    TDMS_GenerateLeadInPart b 0 ToC Next Raw
      = writeBytes b 0 (leadInBytes (ToC &&& 0xEE) Next Raw) := by
  have e1 : (List.range 4).map (fun i => TAG_TDSm_Num / 2 ^ (24 - i * 8) % 256)
      = [0x54, 0x44, 0x53, 0x6D] := by decide
  have e2 : (List.range 4).map (fun i => (ToC &&& 0x000000EE) / 2 ^ (i * 8) % 256)
      = le32 (ToC &&& 0xEE) := by
    simp [List.range, List.range.loop, le32]
  have e3 : (List.range 4).map (fun i => Version_Number4713 / 2 ^ (24 - i * 8) % 256)
      = [0x69, 0x12, 0x00, 0x00] := by decide
  have e4 : ∀ v, (List.range 8).map (fun i => v / 2 ^ (i * 8) % 256) = le64 v := by
    intro v
    simp [List.range, List.range.loop, le64]
  simp only [TDMS_GenerateLeadInPart, e1, e2, e3, e4, leadInBytes]
  have s1 := writeBytes_over b [] [] [0x54, 0x44, 0x53, 0x6D] (by simp)
  have s2 := writeBytes_over b [0x54, 0x44, 0x53, 0x6D] [] (le32 (ToC &&& 0xEE)) (by simp)
  have s3 := writeBytes_over b ([0x54, 0x44, 0x53, 0x6D] ++ le32 (ToC &&& 0xEE)) []
    [0x69, 0x12, 0x00, 0x00] (by simp)
  have s4 := writeBytes_over b ([0x54, 0x44, 0x53, 0x6D] ++ le32 (ToC &&& 0xEE)
    ++ [0x69, 0x12, 0x00, 0x00]) [] (le64 Next) (by simp)
  have s5 := writeBytes_over b ([0x54, 0x44, 0x53, 0x6D] ++ le32 (ToC &&& 0xEE)
    ++ [0x69, 0x12, 0x00, 0x00] ++ le64 Next) [] (le64 Raw) (by simp)
  simp only [List.append_nil, List.length_append, List.length_cons, List.length_nil,
    le32_length, le64_length, List.nil_append] at s1 s2 s3 s4 s5
  simp only [Nat.zero_add, Nat.reduceAdd] at s1 s2 s3 s4 s5 ⊢
  rw [s2, s3, s4, s5]

theorem leadInBytes_length (ToC Next Raw : Nat) : (leadInBytes ToC Next Raw).length = 28 := rfl

theorem Cursor.leadIn_holds (b0 : Mem) (ToC Next Raw : Nat) :
    (Cursor.leadIn ⟨b0, 0⟩ ToC Next Raw).Holds b0 (leadInBytes (ToC &&& 0xEE) Next Raw) [] := by
  constructor
  · simp only [Cursor.leadIn, leadIn_bytes, List.append_nil]
  · simp only [Cursor.leadIn, leadInBytes_length]
    rfl

theorem Cursor.save32_DataSize (c : Cursor) (v : Nat) :
    (c.save32 v).DataSize = u32 (c.DataSize + 4) := rfl

theorem Cursor.save64_DataSize (c : Cursor) (v : Nat) :
    (c.save64 v).DataSize = u32 (c.DataSize + 8) := rfl

theorem Cursor.saveStr_DataSize (c : Cursor) (s : List Nat) :
    (c.saveStr s).DataSize = u32 (c.DataSize + u32 (u32 (strlen s) + 4)) := rfl

theorem Cursor.leadIn_DataSize (c : Cursor) (ToC Next Raw : Nat) :
    (c.leadIn ToC Next Raw).DataSize = u32 (c.DataSize + 28) := rfl

theorem leValue_le64 (v : Nat) (h : v < 18446744073709551616) : leValue (le64 v) = v := by
  simp only [le64, leValue]
  omega

theorem field64_next (b0 : Mem) (ToC Next Raw : Nat) (rest : List Nat)
    (h : Next < 18446744073709551616) :
    field64 (writeBytes b0 0 (leadInBytes ToC Next Raw ++ rest)) 12 = Next := by
  have e : (List.range 8).map (fun i => writeBytes b0 0 (leadInBytes ToC Next Raw ++ rest) (12 + i))
      = le64 Next := by
    simp [List.range, List.range.loop, writeBytes_apply, leadInBytes, le32, le64]
  rw [field64, e, leValue_le64 _ h]

theorem field64_raw (b0 : Mem) (ToC Next Raw : Nat) (rest : List Nat)
    (h : Raw < 18446744073709551616) :
    field64 (writeBytes b0 0 (leadInBytes ToC Next Raw ++ rest)) 20 = Raw := by
  have e : (List.range 8).map (fun i => writeBytes b0 0 (leadInBytes ToC Next Raw ++ rest) (20 + i))
      = le64 Raw := by
    simp [List.range, List.range.loop, writeBytes_apply, leadInBytes, le32, le64]
  rw [field64, e, leValue_le64 _ h]

/-! ## The declaration segment -/

theorem lenChannels_eq (m : Nat) (chs : List TDMS_Channel_t) :
    GenFirstPart.lenChannels (u32 m) chs
      = u32 (m + recordsSize (chs.map (fun ch => ch.ChannelPath))) := by
  induction chs generalizing m with
  | nil => simp [GenFirstPart.lenChannels, recordsSize]
  | cons ch rest ih =>
    have e : u32 (u32 (u32 m + 12) + strlen ch.ChannelPath)
        = u32 (m + 12 + ch.ChannelPath.length) := by
      simp only [u32, strlen]; omega
    have := ih (m + 12 + ch.ChannelPath.length)
    simp only [GenFirstPart.lenChannels, List.foldl_cons] at this ⊢
    rw [e, this]
    simp only [recordsSize, List.map_cons, List.sum_cons]
    congr 1
    omega

theorem recordsSize_append (a b : List (List Nat)) :
    recordsSize (a ++ b) = recordsSize a + recordsSize b := by
  simp [recordsSize]

theorem recordsSize_cons (p : List Nat) (b : List (List Nat)) :
    recordsSize (p :: b) = 4 + p.length + 4 + 4 + recordsSize b := by
  simp [recordsSize]

theorem lenGroups_eq (m : Nat) (gs : List TDMS_Group_t) :
    GenFirstPart.lenGroups (u32 m) gs
      = u32 (m + recordsSize (gs.map groupPaths).flatten) := by
  induction gs generalizing m with
  | nil => simp [GenFirstPart.lenGroups, recordsSize]
  | cons g rest ih =>
    have e : GenFirstPart.lenChannels (u32 (u32 (u32 m + 12) + strlen g.GroupPath)) g.ChannelArray
        = u32 (m + 12 + g.GroupPath.length
            + recordsSize (g.ChannelArray.map (fun ch => ch.ChannelPath))) := by
      rw [lenChannels_eq]
      simp only [u32, strlen]; omega
    have h1 := ih (m + 12 + g.GroupPath.length
      + recordsSize (g.ChannelArray.map (fun ch => ch.ChannelPath)))
    simp only [GenFirstPart.lenGroups, List.foldl_cons] at h1 ⊢
    rw [e, h1]
    simp only [List.map_cons, List.flatten_cons, groupPaths, recordsSize_append, recordsSize_cons,
      List.cons_append]
    congr 1
    omega

theorem objectRecord_length (p : List Nat) : (objectRecord p).length = 4 + p.length + 4 + 4 := by
  simp [objectRecord, lenString_length, le32_length]

theorem objectRecords_length (paths : List (List Nat)) :
    (objectRecords paths).length = recordsSize paths := by
  induction paths with
  | nil => rfl
  | cons p rest ih =>
    simp only [objectRecords, List.map_cons, List.flatten_cons, List.length_append,
      objectRecord_length, recordsSize_cons] at ih ⊢
    rw [ih]

theorem objectRecords_cons (p : List Nat) (rest : List (List Nat)) :
    objectRecords (p :: rest) = objectRecord p ++ objectRecords rest := rfl

theorem objectRecords_append (a b : List (List Nat)) :
    objectRecords (a ++ b) = objectRecords a ++ objectRecords b := by
  simp [objectRecords]

theorem emitObject_holds {c : Cursor} {b0 : Mem} {acc t : List Nat} (path : List Nat)
    (h : c.Holds b0 acc t) (ht : t.length ≤ 4)
    (hlt : acc.length + (4 + path.length + 4 + 4) < 4294967296) :
    (GenFirstPart.emitObject c path).Holds b0 (acc ++ objectRecord path) [] := by
  have h1 := Cursor.save32_holds (u32 (strlen path)) h ht (by omega)
  rw [le32_u32] at h1
  have h2 : Cursor.Holds ⟨strcpy (c.save32 (u32 (strlen path))).Buffer
      (c.save32 (u32 (strlen path))).DataSize path,
      u32 ((c.save32 (u32 (strlen path))).DataSize + u32 (strlen path))⟩
      b0 (acc ++ le32 (strlen path) ++ path) [0] := by
    constructor
    · have := Cursor.holds_write (path ++ [0]) h1 (by simp)
      simp only [strcpy, this]
      simp
    · show u32 ((c.save32 (u32 (strlen path))).DataSize + u32 (strlen path)) = _
      rw [h1.2]
      simp only [List.length_append, le32_length, strlen, u32]
      omega
  have h3 := Cursor.save32_holds 0xFFFFFFFF h2 (by simp)
    (by simp only [List.length_append, le32_length]; omega)
  have h4 := Cursor.save32_holds 0x00 h3 (by simp)
    (by simp only [List.length_append, le32_length]; omega)
  have e : acc ++ objectRecord path
      = acc ++ le32 (strlen path) ++ path ++ le32 0xFFFFFFFF ++ le32 0x00 := by
    simp [objectRecord, lenString, le32, strlen]
  rw [e]
  exact h4

theorem emitChannels_holds {c : Cursor} {b0 : Mem} {acc : List Nat} (chs : List TDMS_Channel_t)
    (h : c.Holds b0 acc [])
    (hlt : acc.length + recordsSize (chs.map (fun ch => ch.ChannelPath)) < 4294967296) :
    (GenFirstPart.emitChannels c chs).Holds b0
      (acc ++ objectRecords (chs.map (fun ch => ch.ChannelPath))) [] := by
  induction chs generalizing c acc with
  | nil => simpa [GenFirstPart.emitChannels, objectRecords] using h
  | cons ch rest ih =>
    simp only [List.map_cons, recordsSize_cons] at hlt
    have h1 := emitObject_holds ch.ChannelPath h (by simp) (by omega)
    have h2 := ih h1 (by simp only [List.length_append, objectRecord_length]; omega)
    simp only [GenFirstPart.emitChannels, List.foldl_cons, List.map_cons, objectRecords_cons]
      at h2 ⊢
    rw [← List.append_assoc]
    exact h2

theorem emitGroups_holds {c : Cursor} {b0 : Mem} {acc : List Nat} (gs : List TDMS_Group_t)
    (h : c.Holds b0 acc [])
    (hlt : acc.length + recordsSize (gs.map groupPaths).flatten < 4294967296) :
    (GenFirstPart.emitGroups c gs).Holds b0
      (acc ++ objectRecords (gs.map groupPaths).flatten) [] := by
  induction gs generalizing c acc with
  | nil => simpa [GenFirstPart.emitGroups, objectRecords] using h
  | cons g rest ih =>
    simp only [List.map_cons, List.flatten_cons, groupPaths, List.cons_append,
      recordsSize_cons, recordsSize_append] at hlt
    have h1 := emitObject_holds g.GroupPath h (by simp) (by omega)
    have h2 := emitChannels_holds g.ChannelArray h1
      (by simp only [List.length_append, objectRecord_length]; omega)
    have h3 := ih h2 (by
      simp only [List.length_append, objectRecord_length, objectRecords_length]; omega)
    simp only [GenFirstPart.emitGroups, List.foldl_cons, List.map_cons, List.flatten_cons,
      groupPaths, List.cons_append, objectRecords_cons, objectRecords_append] at h3 ⊢
    simp only [List.append_assoc] at h3 ⊢
    exact h3

theorem tnoc_eq (t : Nat) (gs : List TDMS_Group_t) :
    gs.foldl (fun tnoc g => u32 (tnoc + g.NumOfChannels)) (u32 t)
      = u32 (t + (gs.map (fun g => g.ChannelArray.length)).sum) := by
  induction gs generalizing t with
  | nil => simp
  | cons g rest ih =>
    simp only [List.foldl_cons, List.map_cons, List.sum_cons]
    rw [u32_add_left, ih, TDMS_Group_t.NumOfChannels]
    congr 1
    omega

theorem objectPaths_length (File : TDMS_File_t) :
    (objectPaths File).length
      = File.GroupArray.length + (File.GroupArray.map (fun g => g.ChannelArray.length)).sum + 1 := by
  have key : ∀ gs : List TDMS_Group_t, ((gs.map groupPaths).flatten).length
      = gs.length + (gs.map (fun g => g.ChannelArray.length)).sum := by
    intro gs
    induction gs with
    | nil => rfl
    | cons g rest ih =>
      simp only [List.map_cons, List.flatten_cons, List.length_append, ih, groupPaths,
        List.length_cons, List.length_map, List.sum_cons]
      omega
  simp only [objectPaths, List.length_cons, key]

theorem GenFirstPart_query (File : TDMS_File_t) (Size : Nat) :
    TDMS_GenFirstPart File none Size
      = ⟨TDMS_OK, u32 (28 + 4 + recordsSize (objectPaths File)), none⟩ := by
  have h := lenGroups_eq 17 File.GroupArray
  simp only [TDMS_GenFirstPart, Nat.zero_add, h, LeadInPartLen, Nat.add_zero, u32_add_right,
    u32_idem, objectPaths, recordsSize_cons, List.length_cons, List.length_nil]
  congr 2
  omega

theorem GenFirstPart_emit (File : TDMS_File_t) (b0 : Mem) (Size : Nat)
    (hlt : 28 + 4 + recordsSize (objectPaths File) < 4294967296) :
    TDMS_GenFirstPart File (some b0) Size
      = ⟨TDMS_OK, 28 + 4 + recordsSize (objectPaths File),
          some (writeBytes b0 0 (firstPartBytes File))⟩ := by
  have hM : GenFirstPart.lenGroups (u32 17) File.GroupArray
      = 4 + recordsSize (objectPaths File) := by
    rw [lenGroups_eq, objectPaths, recordsSize_cons, u32_of_lt]
    · simp only [List.length_cons, List.length_nil]; omega
    · simp only [objectPaths, recordsSize_cons, List.length_cons, List.length_nil] at hlt
      omega
  have hnoo : le32 (u32 (u32 (File.NumOfGroups
      + File.GroupArray.foldl (fun tnoc g => u32 (tnoc + g.NumOfChannels)) 0) + 1))
      = le32 (objectPaths File).length := by
    have := tnoc_eq 0 File.GroupArray
    rw [show u32 0 = 0 from rfl, Nat.zero_add] at this
    rw [this, objectPaths_length, ← le32_u32 (_ + _ + 1), TDMS_File_t.NumOfGroups]
    congr 1
    simp only [u32]; omega
  have hroot : recordsSize (objectPaths File)
      = 13 + recordsSize (File.GroupArray.map groupPaths).flatten := by
    simp only [objectPaths, recordsSize_cons, List.length_cons, List.length_nil]
  have h0 := Cursor.leadIn_holds b0 (kTocMetaData ||| kTocNewObjList)
    (4 + recordsSize (objectPaths File)) (4 + recordsSize (objectPaths File))
  have hToC : (kTocMetaData ||| kTocNewObjList) &&& 0xEE = 0x06 := by decide
  rw [hToC] at h0
  have h1 := Cursor.save32_holds (u32 (u32 (File.NumOfGroups
      + File.GroupArray.foldl (fun tnoc g => u32 (tnoc + g.NumOfChannels)) 0) + 1)) h0
      (by simp) (by simp [leadInBytes_length])
  rw [hnoo] at h1
  have h2 := Cursor.saveStr_holds [0x2F] h1 (by simp)
    (by simp [leadInBytes_length, le32_length])
  have h3 := Cursor.save32_holds 0xFFFFFFFF h2 (by simp)
    (by simp [leadInBytes_length, le32_length, lenString_length])
  have h4 := Cursor.save32_holds 0x00 h3 (by simp)
    (by simp [leadInBytes_length, le32_length, lenString_length])
  have h5 := emitGroups_holds File.GroupArray h4 (by
    simp only [List.length_append, leadInBytes_length, le32_length, lenString_length,
      List.length_cons, List.length_nil]
    omega)
  have hbytes : leadInBytes 0x06 (4 + recordsSize (objectPaths File))
        (4 + recordsSize (objectPaths File)) ++ le32 (objectPaths File).length ++ lenString [0x2F]
        ++ le32 0xFFFFFFFF ++ le32 0x00 ++ objectRecords (File.GroupArray.map groupPaths).flatten
      = firstPartBytes File := by
    simp only [firstPartBytes, objectPaths, objectRecords_cons, objectRecord, List.append_assoc]
    rfl
  rw [hbytes] at h5
  have hlen : (firstPartBytes File).length = 28 + 4 + recordsSize (objectPaths File) := by
    simp only [firstPartBytes, List.length_append, leadInBytes_length, le32_length,
      objectRecords_length]
  simp only [TDMS_GenFirstPart, Nat.zero_add, hM, Nat.add_zero,
    u32_of_lt (show 4 + recordsSize (objectPaths File) < 4294967296 by omega)]
  rw [h5.2, hlen, h5.1, List.append_nil]

theorem recordsSize_le (paths : List (List Nat)) (B : Nat) (h : ∀ p ∈ paths, p.length ≤ B) :
    recordsSize paths ≤ paths.length * (12 + B) := by
  induction paths with
  | nil => simp [recordsSize]
  | cons p rest ih =>
    have h1 := h p (List.mem_cons_self _ _)
    have h2 := ih (fun q hq => h q (List.mem_cons_of_mem _ hq))
    simp only [recordsSize_cons, List.length_cons, Nat.add_mul, Nat.one_mul]
    omega

theorem group_recordsSize_le (g : TDMS_Group_t) (h : g.WellFormed) :
    recordsSize (groupPaths g) ≤ 660 := by
  obtain ⟨h1, h2, h3⟩ := h
  have h4 := recordsSize_le (g.ChannelArray.map (fun ch => ch.ChannelPath)) 65 (by
    intro p hp
    obtain ⟨ch, hch, rfl⟩ := List.mem_map.mp hp
    exact h3 ch hch)
  simp only [List.length_map] at h4
  simp only [TDMS_GROUP_NAME_LEN, TDMS_CONFIG_MAX_CHANNEL_OF_GROUP] at h1 h2
  simp only [groupPaths, recordsSize_cons]
  omega

theorem groups_recordsSize_le (gs : List TDMS_Group_t) (h : ∀ g ∈ gs, g.WellFormed) :
    recordsSize (gs.map groupPaths).flatten ≤ gs.length * 660 := by
  induction gs with
  | nil => simp [recordsSize]
  | cons g rest ih =>
    have h1 := group_recordsSize_le g (h g (List.mem_cons_self _ _))
    have h2 := ih (fun q hq => h q (List.mem_cons_of_mem _ hq))
    simp only [List.map_cons, List.flatten_cons, recordsSize_append, List.length_cons,
      Nat.add_mul, Nat.one_mul]
    omega

theorem wellFormed_size_le (File : TDMS_File_t) (h : File.WellFormed) :
    28 + 4 + recordsSize (objectPaths File) ≤ 2685 := by
  obtain ⟨h1, h2⟩ := h
  have h3 := groups_recordsSize_le File.GroupArray h2
  simp only [TDMS_CONFIG_MAX_GROUP_OF_FILE] at h1
  simp only [objectPaths, recordsSize_cons, List.length_cons, List.length_nil]
  omega

/-! ## The property segment -/

theorem AddProperty_reject (Path : List Nat) (Buffer : Option Mem) (Size : Nat)
    (Name : List Nat) (DataType : TDMS_Data_t) (Value : List Nat)
    (h : ¬ acceptedProperty DataType) :
    TDMS_AddPropertyToObject Path Buffer Size Name DataType Value
      = ⟨TDMS_WRONG_ARG, Size, Buffer⟩ := by
  have h1 : dataTypeLength DataType = 0 ∧ DataType ≠ TDMS_DataType_String := by
    simpa [acceptedProperty] using h
  simp only [TDMS_AddPropertyToObject, h1, ne_eq, not_false_eq_true, and_self, if_true]

theorem AddProperty_metaLen (Path Name : List Nat) (DataType : TDMS_Data_t) (Value : List Nat) :
    (if DataType = TDMS_DataType_String then
        u32 (u32 (u32 (u32 (u32 (0 + 24) + strlen Path) + strlen Name) + 4) + strlen Value)
      else u32 (u32 (u32 (u32 (0 + 24) + strlen Path) + strlen Name) + dataTypeLength DataType))
      = u32 (propertySize Path Name DataType Value - 28) := by
  simp only [propertySize, propertyValueSize, strlen]
  split <;> (simp only [u32]; omega)

theorem AddProperty_query (Path : List Nat) (Size : Nat)
    (Name : List Nat) (DataType : TDMS_Data_t) (Value : List Nat)
    (h : acceptedProperty DataType) :
    TDMS_AddPropertyToObject Path none Size Name DataType Value
      = ⟨TDMS_OK, u32 (propertySize Path Name DataType Value), none⟩ := by
  have h1 : ¬ (dataTypeLength DataType = 0 ∧ DataType ≠ TDMS_DataType_String) := h
  simp only [TDMS_AddPropertyToObject, h1, if_false, AddProperty_metaLen, LeadInPartLen]
  congr 1
  simp only [propertySize, u32]
  omega

theorem AddProperty_emit (Path : List Nat) (b0 : Mem) (Size : Nat)
    (Name : List Nat) (DataType : TDMS_Data_t) (Value : List Nat)
    (h : acceptedProperty DataType)
    (hlt : propertySize Path Name DataType Value < 4294967296) :
    TDMS_AddPropertyToObject Path (some b0) Size Name DataType Value
      = ⟨TDMS_OK, propertySize Path Name DataType Value,
          some (writeBytes b0 0 (propertyBytes Path Name DataType Value
            ++ (if DataType = TDMS_DataType_String then [0] else [])))⟩ := by
  have h1 : ¬ (dataTypeLength DataType = 0 ∧ DataType ≠ TDMS_DataType_String) := h
  have hsz : 52 + Path.length + Name.length ≤ propertySize Path Name DataType Value := by
    simp only [propertySize]; omega
  have hM := AddProperty_metaLen Path Name DataType Value
  rw [u32_of_lt (show propertySize Path Name DataType Value - 28 < 4294967296 by omega)] at hM
  have c0 := Cursor.leadIn_holds b0 (kTocNewObjList ||| kTocMetaData)
    (propertySize Path Name DataType Value - 28) (propertySize Path Name DataType Value - 28)
  have hToC : (kTocNewObjList ||| kTocMetaData) &&& 0xEE = 0x06 := by decide
  rw [hToC] at c0
  have c1 := Cursor.save32_holds 1 c0 (by simp) (by simp [leadInBytes_length])
  have c2 := Cursor.saveStr_holds Path c1 (by simp)
    (by simp only [List.length_append, leadInBytes_length, le32_length]; omega)
  have c3 := Cursor.save32_holds 0xFFFFFFFF c2 (by simp)
    (by simp only [List.length_append, leadInBytes_length, le32_length, lenString_length]; omega)
  have c4 := Cursor.save32_holds 0x01 c3 (by simp)
    (by simp only [List.length_append, leadInBytes_length, le32_length, lenString_length]; omega)
  have c5 := Cursor.saveStr_holds Name c4 (by simp)
    (by simp only [List.length_append, leadInBytes_length, le32_length, lenString_length]; omega)
  have c6 := Cursor.save32_holds (dataTypeBinary DataType) c5 (by simp)
    (by simp only [List.length_append, leadInBytes_length, le32_length, lenString_length]; omega)
  have hlen6 : (leadInBytes 0x06 (propertySize Path Name DataType Value - 28)
      (propertySize Path Name DataType Value - 28) ++ le32 1 ++ lenString Path ++ le32 0xFFFFFFFF
      ++ le32 0x01 ++ lenString Name ++ le32 (dataTypeBinary DataType)).length
      = 52 + Path.length + Name.length := by
    simp only [List.length_append, leadInBytes_length, le32_length, lenString_length]; omega
  by_cases hs : DataType = TDMS_DataType_String
  · subst hs
    have hv : propertySize Path Name TDMS_DataType_String Value
        = 52 + Path.length + Name.length + (4 + Value.length) := by
      simp only [propertySize, propertyValueSize, if_true]
    have c7 := Cursor.saveStr_holds Value c6 (by simp) (by rw [hlen6]; omega)
    simp only [if_true] at hM
    simp only [TDMS_AddPropertyToObject, h1, if_false, if_true, hM]
    rw [c7.2, c7.1]
    simp only [propertyBytes, propertyMeta, if_true, List.length_append, leadInBytes_length,
      le32_length, lenString_length, hv, List.append_assoc]
    refine congrArg₂ (Out.mk TDMS_OK) ?_ rfl
    omega
  · have hv : propertySize Path Name DataType Value
        = 52 + Path.length + Name.length + dataTypeLength DataType := by
      simp only [propertySize, propertyValueSize, hs, if_false]
    simp only [hs, if_false] at hM
    simp only [TDMS_AddPropertyToObject, h1, hs, if_false, hM, memcpy]
    rw [Cursor.holds_write _ c6 (by simp), c6.2, hlen6, u32_of_lt (by omega)]
    simp only [hs, propertyBytes, propertyMeta, if_false, hv, List.append_assoc, List.append_nil]
    rfl

theorem AddProperty_emit_size (Path : List Nat) (b0 : Mem) (Size : Nat)
    (Name : List Nat) (DataType : TDMS_Data_t) (Value : List Nat)
    (h : acceptedProperty DataType) :
    (TDMS_AddPropertyToObject Path (some b0) Size Name DataType Value).ret = TDMS_OK ∧
    (TDMS_AddPropertyToObject Path (some b0) Size Name DataType Value).Size
      = u32 (propertySize Path Name DataType Value) ∧
    (TDMS_AddPropertyToObject Path (some b0) Size Name DataType Value).Buffer.isSome := by
  have h1 : ¬ (dataTypeLength DataType = 0 ∧ DataType ≠ TDMS_DataType_String) := h
  by_cases hs : DataType = TDMS_DataType_String
  · subst hs
    simp only [TDMS_AddPropertyToObject, h1, if_false, if_true, Option.isSome_some, and_true,
      true_and]
    simp only [Cursor.saveStr_DataSize, Cursor.save32_DataSize, Cursor.leadIn_DataSize,
      propertySize, propertyValueSize, if_true, strlen, u32]
    omega
  · simp only [TDMS_AddPropertyToObject, h1, hs, if_false, Option.isSome_some, and_true,
      true_and]
    simp only [Cursor.saveStr_DataSize, Cursor.save32_DataSize, Cursor.leadIn_DataSize,
      propertySize, propertyValueSize, hs, if_false, strlen, u32]
    omega

/-! ## The single-channel data segment -/

theorem boolLoop_eq (n : Nat) (hn : n < 65536) (fuel : Nat) :
    ∀ (i : Nat) (v : Mem), i ≤ n → n - i < fuel →
      SetChannelDataValues.boolLoop n fuel i v
        = some (fun k => if i ≤ k ∧ k < n then (if v k ≠ 0 then 1 else 0) else v k) := by
  induction fuel with
  | zero => intro i v _ h; omega
  | succ fuel ih =>
    intro i v hi hf
    rw [SetChannelDataValues.boolLoop]
    by_cases h : i < n
    · have hmod : (i + 1) % 65536 = i + 1 := Nat.mod_eq_of_lt (by omega)
      rw [if_pos h, hmod, ih (i + 1) _ (by omega) (by omega)]
      congr 1
      funext k
      by_cases hk : k = i
      · subst hk
        simp [memSet, h]
      · by_cases hk2 : i + 1 ≤ k
        · have : i ≤ k := by omega
          simp [memSet, hk, hk2, this]
        · have : ¬ i ≤ k := by omega
          simp [memSet, hk, hk2, this]
    · rw [if_neg h]
      congr 1
      funext k
      have : ¬ (i ≤ k ∧ k < n) := by omega
      simp [this]

theorem boolLoop_returns (n fuel : Nat) (v : Mem) (hn : n < 65536) (hf : n < fuel) :
    SetChannelDataValues.boolLoop n fuel 0 v = some (boolNorm n v) := by
  rw [boolLoop_eq n hn fuel 0 v (Nat.zero_le _) (by omega)]
  congr 1
  funext k
  simp [boolNorm]

theorem boolLoop_diverges (n : Nat) (hn : 65536 ≤ n) (fuel : Nat) :
    ∀ (i : Nat) (v : Mem), i < 65536 → SetChannelDataValues.boolLoop n fuel i v = none := by
  induction fuel with
  | zero => intro i v _; rfl
  | succ fuel ih =>
    intro i v hi
    rw [SetChannelDataValues.boolLoop, if_pos (by omega)]
    exact ih _ _ (Nat.mod_lt _ (by decide))

theorem string_of_width_zero {DataType : TDMS_Data_t} (h : dataTypeLength DataType ≠ 0) :
    DataType ≠ TDMS_DataType_String := by
  intro hs
  rw [hs] at h
  exact h rfl

theorem normalised_eq (fuel : Nat) (ch : TDMS_Channel_t) (Values : Mem) (n : Nat)
    (hterm : ch.ChannelDataType = TDMS_DataType_Boolean → n < 65536 ∧ n < fuel) :
    (if ch.ChannelDataType = TDMS_DataType_Boolean then
        SetChannelDataValues.boolLoop n fuel 0 Values
      else some Values) = some (valuesAfter ch.ChannelDataType n Values) := by
  by_cases hb : ch.ChannelDataType = TDMS_DataType_Boolean
  · rw [if_pos hb, valuesAfter, if_pos hb, boolLoop_returns n fuel Values (hterm hb).1 (hterm hb).2]
  · rw [if_neg hb, valuesAfter, if_neg hb]

theorem SetChannel_query (fuel : Nat) (ch : TDMS_Channel_t) (Size : Nat) (Values : Mem) (n : Nat)
    (hR : u32 (dataTypeLength ch.ChannelDataType * n) ≠ 0)
    (hterm : ch.ChannelDataType = TDMS_DataType_Boolean → n < 65536 ∧ n < fuel) :
    TDMS_SetChannelDataValues fuel ch none Size Values n
      = some ⟨TDMS_OK, u32 (28 + 32 + ch.ChannelPath.length + dataTypeLength ch.ChannelDataType * n),
          none, valuesAfter ch.ChannelDataType n Values⟩ := by
  have hw : dataTypeLength ch.ChannelDataType ≠ 0 := by
    intro h0; rw [h0, Nat.zero_mul] at hR; exact hR rfl
  have hs := string_of_width_zero hw
  simp only [TDMS_SetChannelDataValues, hR, if_false, normalised_eq fuel ch Values n hterm, hs,
    LeadInPartLen, strlen]
  congr 2
  simp only [u32]
  omega

theorem SetChannel_emit (fuel : Nat) (ch : TDMS_Channel_t) (b0 : Mem) (Size : Nat) (Values : Mem)
    (n : Nat) (hR : u32 (dataTypeLength ch.ChannelDataType * n) ≠ 0)
    (hn : n < 4294967296)
    (hpath : 28 + 32 + ch.ChannelPath.length < 4294967296)
    (hterm : ch.ChannelDataType = TDMS_DataType_Boolean → n < 65536 ∧ n < fuel) :
    TDMS_SetChannelDataValues fuel ch (some b0) Size Values n
      = some ⟨TDMS_OK,
          u32 (28 + 32 + ch.ChannelPath.length + u32 (dataTypeLength ch.ChannelDataType * n)),
          some (writeBytes b0 0
            (leadInBytes 0x0E
                (u32 (32 + ch.ChannelPath.length + u32 (dataTypeLength ch.ChannelDataType * n)))
                (32 + ch.ChannelPath.length)
              ++ le32 1 ++ channelHeader ch n
              ++ memDump (valuesAfter ch.ChannelDataType n Values)
                  (u32 (dataTypeLength ch.ChannelDataType * n)))),
          valuesAfter ch.ChannelDataType n Values⟩ := by
  have hw : dataTypeLength ch.ChannelDataType ≠ 0 := by
    intro h0; rw [h0, Nat.zero_mul] at hR; exact hR rfl
  have hs := string_of_width_zero hw
  have hM : u32 (u32 (0 + 32) + strlen ch.ChannelPath) = 32 + ch.ChannelPath.length := by
    simp only [u32, strlen]; omega
  generalize hRdef : u32 (dataTypeLength ch.ChannelDataType * n) = R at hR ⊢
  have c0 := Cursor.leadIn_holds b0 (kTocRawData ||| kTocNewObjList ||| kTocMetaData)
    (u32 (32 + ch.ChannelPath.length + R)) (32 + ch.ChannelPath.length)
  have hToC : (kTocRawData ||| kTocNewObjList ||| kTocMetaData) &&& 0xEE = 0x0E := by decide
  rw [hToC] at c0
  have c1 := Cursor.save32_holds 1 c0 (by simp) (by simp [leadInBytes_length])
  have c2 := Cursor.saveStr_holds ch.ChannelPath c1 (by simp)
    (by simp only [List.length_append, leadInBytes_length, le32_length]; omega)
  have c3 := Cursor.save32_holds 0x14 c2 (by simp)
    (by simp only [List.length_append, leadInBytes_length, le32_length, lenString_length]; omega)
  have c4 := Cursor.save32_holds (dataTypeBinary ch.ChannelDataType) c3 (by simp)
    (by simp only [List.length_append, leadInBytes_length, le32_length, lenString_length]; omega)
  have c5 := Cursor.save32_holds 0x01 c4 (by simp)
    (by simp only [List.length_append, leadInBytes_length, le32_length, lenString_length]; omega)
  have c6 := Cursor.save64_holds n c5 (by simp)
    (by simp only [List.length_append, leadInBytes_length, le32_length, lenString_length]; omega)
  have c7 := Cursor.save32_holds 0 c6 (by simp)
    (by simp only [List.length_append, leadInBytes_length, le32_length, lenString_length,
      saved64_length]; omega)
  rw [saved64_eq_le64 hn] at c7
  have hlen7 : (leadInBytes 0x0E (u32 (32 + ch.ChannelPath.length + R))
      (32 + ch.ChannelPath.length) ++ le32 1 ++ lenString ch.ChannelPath ++ le32 0x14
      ++ le32 (dataTypeBinary ch.ChannelDataType) ++ le32 0x01 ++ le64 n ++ le32 0).length
      = 28 + 32 + ch.ChannelPath.length := by
    simp only [List.length_append, leadInBytes_length, le32_length, lenString_length, le64_length]
    omega
  simp only [TDMS_SetChannelDataValues, hRdef, hR, if_false,
    normalised_eq fuel ch Values n hterm, hs, hM, memcpyMem]
  rw [Cursor.holds_write _ c7 (by simp), c7.2, hlen7]
  simp only [channelHeader, List.append_assoc]

theorem SetChannel_emit_fits (fuel : Nat) (ch : TDMS_Channel_t) (b0 : Mem) (Size : Nat)
    (Values : Mem) (n : Nat) (hw : dataTypeLength ch.ChannelDataType ≠ 0) (hn : 0 < n)
    (hfit : 28 + 32 + ch.ChannelPath.length + dataTypeLength ch.ChannelDataType * n < 4294967296)
    (hterm : ch.ChannelDataType = TDMS_DataType_Boolean → n < 65536 ∧ n < fuel) :
    TDMS_SetChannelDataValues fuel ch (some b0) Size Values n
      = some ⟨TDMS_OK, 28 + 32 + ch.ChannelPath.length + dataTypeLength ch.ChannelDataType * n,
          some (writeBytes b0 0 (channelDataBytes ch n
            (memDump (valuesAfter ch.ChannelDataType n Values)
              (dataTypeLength ch.ChannelDataType * n)))),
          valuesAfter ch.ChannelDataType n Values⟩ := by
  have hpos : 0 < dataTypeLength ch.ChannelDataType * n :=
    Nat.mul_pos (Nat.pos_of_ne_zero hw) hn
  have hRe : u32 (dataTypeLength ch.ChannelDataType * n) = dataTypeLength ch.ChannelDataType * n :=
    u32_of_lt (by omega)
  have hn2 : n < 4294967296 := by
    have : n ≤ dataTypeLength ch.ChannelDataType * n :=
      Nat.le_mul_of_pos_left n (Nat.pos_of_ne_zero hw)
    omega
  rw [SetChannel_emit fuel ch b0 Size Values n (by rw [hRe]; omega) hn2 (by omega) hterm, hRe,
    u32_of_lt hfit, u32_of_lt (by omega)]
  simp only [channelDataBytes, memDump_length]

/-! ## The group data segment -/

theorem included_cons_zero (x : TDMS_Channel_t × Mem × Nat)
    (rest : List (TDMS_Channel_t × Mem × Nat)) (h : x.2.2 = 0) :
    included (x :: rest) = included rest := by
  simp [included, List.filter_cons, h]

theorem included_cons_pos (x : TDMS_Channel_t × Mem × Nat)
    (rest : List (TDMS_Channel_t × Mem × Nat)) (h : x.2.2 ≠ 0) :
    included (x :: rest) = x :: included rest := by
  simp [included, List.filter_cons, h]

theorem countObjects_eq (k : Nat) (chs : List (TDMS_Channel_t × Mem × Nat)) :
    chs.foldl (fun NumberOfObjects x =>
        if x.2.2 ≠ 0 then u32 (NumberOfObjects + 1) else NumberOfObjects) (u32 k)
      = u32 (k + (included chs).length) := by
  induction chs generalizing k with
  | nil => simp [included]
  | cons x rest ih =>
    rw [List.foldl_cons]
    by_cases h : x.2.2 = 0
    · rw [if_neg (by simpa using h), ih, included_cons_zero x rest h]
    · rw [if_pos h, u32_add_left, ih, included_cons_pos x rest h, List.length_cons]
      congr 1
      omega

theorem included_length_le (chs : List (TDMS_Channel_t × Mem × Nat)) :
    (included chs).length ≤ chs.length := List.length_filter_le _ _

theorem lenLoop_some (chs : List (TDMS_Channel_t × Mem × Nat)) (h : rawLenOK chs) (R M : Nat) :
    SetGroupDataValues.lenLoop chs (u32 R, u32 M)
      = some (u32 (R + groupRawSize chs), u32 (M + groupMetaSize chs)) := by
  induction chs generalizing R M with
  | nil => simp [SetGroupDataValues.lenLoop, groupRawSize, groupMetaSize, included]
  | cons x rest ih =>
    obtain ⟨ch, v, n⟩ := x
    have hrest : rawLenOK rest := fun y hy => h y (List.mem_cons_of_mem _ hy)
    by_cases hz : n = 0
    · subst hz
      have e := included_cons_zero (ch, v, 0) rest rfl
      simp only [SetGroupDataValues.lenLoop, ne_eq, not_true_eq_false, if_false, Nat.add_zero,
        u32_idem, ih hrest, groupRawSize, groupMetaSize, e]
    · have hne := h (ch, v, n) (List.mem_cons_self _ _) hz
      have hw : dataTypeLength ch.ChannelDataType ≠ 0 := by
        intro h0; simp only [h0, Nat.zero_mul] at hne; exact hne rfl
      have hs := string_of_width_zero hw
      have e := included_cons_pos (ch, v, n) rest hz
      have e1 : u32 (u32 R + u32 (dataTypeLength ch.ChannelDataType * n))
          = u32 (R + dataTypeLength ch.ChannelDataType * n) := by
        simp only [u32]; omega
      have e2 : u32 (u32 (u32 M + 28) + strlen ch.ChannelPath)
          = u32 (M + 28 + ch.ChannelPath.length) := by
        simp only [u32, strlen]; omega
      simp only [SetGroupDataValues.lenLoop, ne_eq, hz, not_false_eq_true, if_true, hne, if_false,
        hs, e1, e2, ih hrest, groupRawSize, groupMetaSize, e, List.map_cons, List.sum_cons]
      congr 3
      · rw [Nat.mul_comm n]; omega
      · omega

theorem lenLoop_none (chs : List (TDMS_Channel_t × Mem × Nat)) (h : ¬ rawLenOK chs)
    (acc : Nat × Nat) : SetGroupDataValues.lenLoop chs acc = none := by
  induction chs generalizing acc with
  | nil => exact absurd (fun _ hx => nomatch hx) h
  | cons x rest ih =>
    obtain ⟨ch, v, n⟩ := x
    obtain ⟨R, M⟩ := acc
    by_cases hz : n = 0
    · subst hz
      have hrest : ¬ rawLenOK rest := by
        intro hr
        apply h
        intro y hy
        rcases List.mem_cons.mp hy with rfl | hy
        · intro hc; exact absurd rfl hc
        · exact hr y hy
      simp only [SetGroupDataValues.lenLoop, ne_eq, not_true_eq_false, if_false, ih hrest]
    · by_cases hne : u32 (dataTypeLength ch.ChannelDataType * n) = 0
      · simp only [SetGroupDataValues.lenLoop, ne_eq, hz, not_false_eq_true, if_true, hne]
      · have hrest : ¬ rawLenOK rest := by
          intro hr
          apply h
          intro y hy
          rcases List.mem_cons.mp hy with rfl | hy
          · intro _; exact hne
          · exact hr y hy
        simp only [SetGroupDataValues.lenLoop, ne_eq, hz, not_false_eq_true, if_true, hne,
          if_false, ih hrest]

theorem channelHeader_length (ch : TDMS_Channel_t) (n : Nat) :
    (channelHeader ch n).length = 28 + ch.ChannelPath.length := by
  simp only [channelHeader, List.length_append, lenString_length, le32_length, le64_length]
  omega

theorem groupHeaders_length (chs : List (TDMS_Channel_t × Mem × Nat)) :
    (groupHeaders chs).length = groupMetaSize chs := by
  simp only [groupHeaders, groupMetaSize, List.length_flatten, List.map_map]
  congr 1
  apply List.map_congr_left
  intro x _
  simp [channelHeader_length]

theorem groupRaw_length (chs : List (TDMS_Channel_t × Mem × Nat)) :
    (groupRaw chs).length = groupRawSize chs := by
  simp only [groupRaw, groupRawSize, List.length_flatten, List.map_map]
  congr 1
  apply List.map_congr_left
  intro x _
  simp [memDump_length]

theorem emitMeta_holds {c : Cursor} {b0 : Mem} {acc : List Nat}
    (chs : List (TDMS_Channel_t × Mem × Nat)) (h : c.Holds b0 acc [])
    (hok : rawLenOK chs) (hcnt : ∀ x ∈ chs, x.2.2 < 4294967296)
    (hlt : acc.length + groupMetaSize chs < 4294967296) :
    (SetGroupDataValues.emitMeta c chs).Holds b0 (acc ++ groupHeaders chs) [] := by
  induction chs generalizing c acc with
  | nil => simpa [SetGroupDataValues.emitMeta, groupHeaders, included] using h
  | cons x rest ih =>
    have hrest : rawLenOK rest := fun y hy => hok y (List.mem_cons_of_mem _ hy)
    have hcrest : ∀ y ∈ rest, y.2.2 < 4294967296 := fun y hy => hcnt y (List.mem_cons_of_mem _ hy)
    by_cases hz : x.2.2 = 0
    · have e := included_cons_zero x rest hz
      simp only [groupMetaSize, e] at hlt
      have := ih h hrest hcrest (by simpa [groupMetaSize] using hlt)
      simp only [SetGroupDataValues.emitMeta, List.foldl_cons, hz, ne_eq, not_true_eq_false,
        if_false, groupHeaders, e] at this ⊢
      exact this
    · have e := included_cons_pos x rest hz
      have hne := hok x (List.mem_cons_self _ _) hz
      have hw : dataTypeLength x.1.ChannelDataType ≠ 0 := by
        intro h0; simp only [h0, Nat.zero_mul] at hne; exact hne rfl
      have hs := string_of_width_zero hw
      have hlt2 : acc.length + (28 + x.1.ChannelPath.length) + groupMetaSize rest < 4294967296 := by
        simp only [groupMetaSize, e, List.map_cons, List.sum_cons] at hlt ⊢
        omega
      have c1 := Cursor.saveStr_holds x.1.ChannelPath h (by simp) (by omega)
      have c2 := Cursor.save32_holds 0x14 c1 (by simp)
        (by simp only [List.length_append, lenString_length]; omega)
      have c3 := Cursor.save32_holds (dataTypeBinary x.1.ChannelDataType) c2 (by simp)
        (by simp only [List.length_append, lenString_length, le32_length]; omega)
      have c4 := Cursor.save32_holds 0x01 c3 (by simp)
        (by simp only [List.length_append, lenString_length, le32_length]; omega)
      have c5 := Cursor.save64_holds x.2.2 c4 (by simp)
        (by simp only [List.length_append, lenString_length, le32_length]; omega)
      have c6 := Cursor.save32_holds 0 c5 (by simp)
        (by simp only [List.length_append, lenString_length, le32_length, saved64_length]; omega)
      rw [saved64_eq_le64 (hcnt x (List.mem_cons_self _ _))] at c6
      have c7 := ih c6 hrest hcrest (by
        simp only [List.length_append, lenString_length, le32_length, le64_length]; omega)
      simp only [SetGroupDataValues.emitMeta, List.foldl_cons, hz, ne_eq, not_false_eq_true,
        if_true, hs, if_false, groupHeaders, e, List.map_cons, List.flatten_cons, channelHeader,
        List.append_assoc] at c7 ⊢
      exact c7

theorem emitRaw_holds {c : Cursor} {b0 : Mem} {acc : List Nat}
    (chs : List (TDMS_Channel_t × Mem × Nat)) (h : c.Holds b0 acc [])
    (hlt : acc.length + groupRawSize chs < 4294967296) :
    (SetGroupDataValues.emitRaw c chs).Holds b0 (acc ++ groupRaw chs) [] := by
  induction chs generalizing c acc with
  | nil => simpa [SetGroupDataValues.emitRaw, groupRaw, included] using h
  | cons x rest ih =>
    by_cases hz : x.2.2 = 0
    · have e := included_cons_zero x rest hz
      simp only [groupRawSize, e] at hlt
      have := ih h (by simpa [groupRawSize] using hlt)
      simp only [SetGroupDataValues.emitRaw, List.foldl_cons, hz, ne_eq, not_true_eq_false,
        if_false, groupRaw, e] at this ⊢
      exact this
    · have e := included_cons_pos x rest hz
      have hlt2 : acc.length + x.2.2 * dataTypeLength x.1.ChannelDataType + groupRawSize rest
          < 4294967296 := by
        simp only [groupRawSize, e, List.map_cons, List.sum_cons] at hlt ⊢
        omega
      have hu : u32 (dataTypeLength x.1.ChannelDataType * x.2.2)
          = x.2.2 * dataTypeLength x.1.ChannelDataType := by
        rw [Nat.mul_comm]; exact u32_of_lt (by omega)
      have c1 := Cursor.copy_holds (memDump x.2.1 (x.2.2 * dataTypeLength x.1.ChannelDataType))
        (x.2.2 * dataTypeLength x.1.ChannelDataType) h (by simp)
        (by rw [memDump_length]; exact u32_of_lt (by omega))
      have c2 := ih c1 (by simp only [List.length_append, memDump_length]; omega)
      simp only [SetGroupDataValues.emitRaw, List.foldl_cons, hz, ne_eq, not_false_eq_true,
        if_true, hu, memcpyMem, groupRaw, e, List.map_cons, List.flatten_cons,
        List.append_assoc] at c2 ⊢
      exact c2

theorem emitMeta_DataSize (c : Cursor) (chs : List (TDMS_Channel_t × Mem × Nat))
    (hok : rawLenOK chs) :
    (SetGroupDataValues.emitMeta c chs).DataSize = u32 (u32 c.DataSize + groupMetaSize chs) ∨
    ((included chs) = [] ∧ (SetGroupDataValues.emitMeta c chs).DataSize = c.DataSize) := by
  induction chs generalizing c with
  | nil => right; exact ⟨rfl, rfl⟩
  | cons x rest ih =>
    have hrest : rawLenOK rest := fun y hy => hok y (List.mem_cons_of_mem _ hy)
    by_cases hz : x.2.2 = 0
    · have e := included_cons_zero x rest hz
      have := ih c hrest
      simp only [SetGroupDataValues.emitMeta, List.foldl_cons, hz, ne_eq, not_true_eq_false,
        if_false, groupMetaSize, e] at this ⊢
      exact this
    · left
      have e := included_cons_pos x rest hz
      have hne := hok x (List.mem_cons_self _ _) hz
      have hw : dataTypeLength x.1.ChannelDataType ≠ 0 := by
        intro h0; simp only [h0, Nat.zero_mul] at hne; exact hne rfl
      have hs := string_of_width_zero hw
      have := ih ((((((c.saveStr x.1.ChannelPath).save32 0x14).save32
        (dataTypeBinary x.1.ChannelDataType)).save32 0x01).save64 x.2.2).save32 0) hrest
      simp only [SetGroupDataValues.emitMeta, List.foldl_cons, hz, ne_eq, not_false_eq_true,
        if_true, hs, if_false, groupMetaSize, e, List.map_cons, List.sum_cons] at this ⊢
      rcases this with h1 | ⟨h1, h2⟩
      · rw [h1]
        simp only [Cursor.save32_DataSize, Cursor.save64_DataSize, Cursor.saveStr_DataSize,
          strlen, u32]
        omega
      · rw [h2, h1]
        simp only [Cursor.save32_DataSize, Cursor.save64_DataSize, Cursor.saveStr_DataSize,
          strlen, u32, List.map_nil, List.sum_nil]
        omega

theorem emitRaw_DataSize (c : Cursor) (chs : List (TDMS_Channel_t × Mem × Nat)) :
    (SetGroupDataValues.emitRaw c chs).DataSize = u32 (u32 c.DataSize + groupRawSize chs) ∨
    ((included chs) = [] ∧ (SetGroupDataValues.emitRaw c chs).DataSize = c.DataSize) := by
  induction chs generalizing c with
  | nil => right; exact ⟨rfl, rfl⟩
  | cons x rest ih =>
    by_cases hz : x.2.2 = 0
    · have e := included_cons_zero x rest hz
      have := ih c
      simp only [SetGroupDataValues.emitRaw, List.foldl_cons, hz, ne_eq, not_true_eq_false,
        if_false, groupRawSize, e] at this ⊢
      exact this
    · left
      have e := included_cons_pos x rest hz
      have := ih ⟨memcpyMem c.Buffer c.DataSize x.2.1
          (u32 (dataTypeLength x.1.ChannelDataType * x.2.2)),
        u32 (c.DataSize + u32 (dataTypeLength x.1.ChannelDataType * x.2.2))⟩
      simp only [SetGroupDataValues.emitRaw, List.foldl_cons, hz, ne_eq, not_false_eq_true,
        if_true, groupRawSize, e, List.map_cons, List.sum_cons] at this ⊢
      rcases this with h1 | ⟨h1, h2⟩
      · rw [h1, Nat.mul_comm x.2.2]
        simp only [u32]
        omega
      · rw [h2, h1, Nat.mul_comm x.2.2]
        simp only [u32, List.map_nil, List.sum_nil]
        omega

theorem countObjects_val (chs : List (TDMS_Channel_t × Mem × Nat))
    (hcap : chs.length < 4294967296) :
    SetGroupDataValues.countObjects chs = (included chs).length := by
  have h := countObjects_eq 0 chs
  rw [show u32 0 = 0 from rfl, Nat.zero_add] at h
  rw [SetGroupDataValues.countObjects, h]
  exact u32_of_lt (Nat.lt_of_le_of_lt (included_length_le chs) hcap)

theorem Group_empty (Group : TDMS_Group_t) (Buffer : Option Mem) (Size : Nat)
    (args : List (Mem × Nat)) (hcap : Group.ChannelArray.length < 4294967296)
    (h : included (Group.ChannelArray.zip args) = []) :
    TDMS_SetGroupDataValues Group Buffer Size args = ⟨TDMS_OK, 0, Buffer⟩ := by
  have hz : (Group.ChannelArray.zip args).length < 4294967296 := by
    rw [List.length_zip]; omega
  simp only [TDMS_SetGroupDataValues, countObjects_val _ hz, h, List.length_nil, if_true]

theorem Group_reject (Group : TDMS_Group_t) (Buffer : Option Mem) (Size : Nat)
    (args : List (Mem × Nat)) (hcap : Group.ChannelArray.length < 4294967296)
    (hne : included (Group.ChannelArray.zip args) ≠ [])
    (h : ¬ rawLenOK (Group.ChannelArray.zip args)) :
    TDMS_SetGroupDataValues Group Buffer Size args = ⟨TDMS_WRONG_ARG, Size, Buffer⟩ := by
  have hz : (Group.ChannelArray.zip args).length < 4294967296 := by
    rw [List.length_zip]; omega
  have hl : (included (Group.ChannelArray.zip args)).length ≠ 0 := by
    intro h0; exact hne (List.length_eq_zero.mp h0)
  simp only [TDMS_SetGroupDataValues, countObjects_val _ hz, hl, if_false, lenLoop_none _ h]

theorem lenLoop_start (chs : List (TDMS_Channel_t × Mem × Nat)) (h : rawLenOK chs) :
    SetGroupDataValues.lenLoop chs (0, 4)
      = some (u32 (groupRawSize chs), u32 (4 + groupMetaSize chs)) := by
  have := lenLoop_some chs h 0 4
  rw [show u32 0 = 0 from rfl, show u32 4 = 4 from rfl, Nat.zero_add] at this
  exact this

theorem Group_query (Group : TDMS_Group_t) (Size : Nat)
    (args : List (Mem × Nat)) (hcap : Group.ChannelArray.length < 4294967296)
    (hne : included (Group.ChannelArray.zip args) ≠ [])
    (h : rawLenOK (Group.ChannelArray.zip args)) :
    TDMS_SetGroupDataValues Group none Size args
      = ⟨TDMS_OK, u32 (28 + 4 + groupMetaSize (Group.ChannelArray.zip args)
          + groupRawSize (Group.ChannelArray.zip args)), none⟩ := by
  have hz : (Group.ChannelArray.zip args).length < 4294967296 := by
    rw [List.length_zip]; omega
  have hl : (included (Group.ChannelArray.zip args)).length ≠ 0 := by
    intro h0; exact hne (List.length_eq_zero.mp h0)
  simp only [TDMS_SetGroupDataValues, countObjects_val _ hz, hl, if_false, lenLoop_start _ h,
    LeadInPartLen]
  congr 1
  simp only [u32]
  omega

theorem Group_emit_size (Group : TDMS_Group_t) (b0 : Mem) (Size : Nat)
    (args : List (Mem × Nat)) (hcap : Group.ChannelArray.length < 4294967296)
    (hne : included (Group.ChannelArray.zip args) ≠ [])
    (h : rawLenOK (Group.ChannelArray.zip args)) :
    (TDMS_SetGroupDataValues Group (some b0) Size args).ret = TDMS_OK ∧
    (TDMS_SetGroupDataValues Group (some b0) Size args).Size
      = u32 (28 + 4 + groupMetaSize (Group.ChannelArray.zip args)
          + groupRawSize (Group.ChannelArray.zip args)) ∧
    (TDMS_SetGroupDataValues Group (some b0) Size args).Buffer.isSome := by
  have hz : (Group.ChannelArray.zip args).length < 4294967296 := by
    rw [List.length_zip]; omega
  have hl : (included (Group.ChannelArray.zip args)).length ≠ 0 := by
    intro h0; exact hne (List.length_eq_zero.mp h0)
  simp only [TDMS_SetGroupDataValues, countObjects_val _ hz, hl, if_false, lenLoop_start _ h,
    Option.isSome_some, and_true, true_and]
  generalize hc1 : (Cursor.leadIn ⟨b0, 0⟩ (kTocRawData ||| kTocNewObjList ||| kTocMetaData)
    (u32 (u32 (4 + groupMetaSize (Group.ChannelArray.zip args))
      + u32 (groupRawSize (Group.ChannelArray.zip args))))
    (u32 (4 + groupMetaSize (Group.ChannelArray.zip args)))).save32
      (included (Group.ChannelArray.zip args)).length = c1
  have hd1 : c1.DataSize = 32 := by rw [← hc1]; rfl
  have hne1 : included (Group.ChannelArray.zip args) = [] → False := hne
  rcases emitRaw_DataSize (SetGroupDataValues.emitMeta c1 (Group.ChannelArray.zip args))
      (Group.ChannelArray.zip args) with h1 | ⟨h1, _⟩
  · rcases emitMeta_DataSize c1 (Group.ChannelArray.zip args) h with h2 | ⟨h2, _⟩
    · rw [h1, h2, hd1]
      simp only [u32]
      omega
    · exact absurd h2 hne
  · exact absurd h1 hne

theorem groupDataBytes_length (chs : List (TDMS_Channel_t × Mem × Nat)) :
    (groupDataBytes chs).length = 28 + 4 + groupMetaSize chs + groupRawSize chs := by
  simp only [groupDataBytes, List.length_append, leadInBytes_length, le32_length,
    groupHeaders_length, groupRaw_length]

theorem Group_emit (Group : TDMS_Group_t) (b0 : Mem) (Size : Nat)
    (args : List (Mem × Nat)) (hcap : Group.ChannelArray.length < 4294967296)
    (hne : included (Group.ChannelArray.zip args) ≠ [])
    (h : rawLenOK (Group.ChannelArray.zip args))
    (hcnt : ∀ x ∈ Group.ChannelArray.zip args, x.2.2 < 4294967296)
    (hfit : 28 + 4 + groupMetaSize (Group.ChannelArray.zip args)
      + groupRawSize (Group.ChannelArray.zip args) < 4294967296) :
    TDMS_SetGroupDataValues Group (some b0) Size args
      = ⟨TDMS_OK, 28 + 4 + groupMetaSize (Group.ChannelArray.zip args)
          + groupRawSize (Group.ChannelArray.zip args),
          some (writeBytes b0 0 (groupDataBytes (Group.ChannelArray.zip args)))⟩ := by
  have hz : (Group.ChannelArray.zip args).length < 4294967296 := by
    rw [List.length_zip]; omega
  have hl : (included (Group.ChannelArray.zip args)).length ≠ 0 := by
    intro h0; exact hne (List.length_eq_zero.mp h0)
  generalize hchs : Group.ChannelArray.zip args = chs at *
  have hM : u32 (4 + groupMetaSize chs) = 4 + groupMetaSize chs := u32_of_lt (by omega)
  have hRw : u32 (groupRawSize chs) = groupRawSize chs := u32_of_lt (by omega)
  have hN : u32 (4 + groupMetaSize chs + groupRawSize chs)
      = 4 + groupMetaSize chs + groupRawSize chs := u32_of_lt (by omega)
  have c0 := Cursor.leadIn_holds b0 (kTocRawData ||| kTocNewObjList ||| kTocMetaData)
    (4 + groupMetaSize chs + groupRawSize chs) (4 + groupMetaSize chs)
  have hToC : (kTocRawData ||| kTocNewObjList ||| kTocMetaData) &&& 0xEE = 0x0E := by decide
  rw [hToC] at c0
  have c1 := Cursor.save32_holds (included chs).length c0 (by simp)
    (by simp [leadInBytes_length])
  have c2 := emitMeta_holds chs c1 h hcnt
    (by simp only [List.length_append, leadInBytes_length, le32_length]; omega)
  have c3 := emitRaw_holds chs c2
    (by simp only [List.length_append, leadInBytes_length, le32_length, groupHeaders_length]
        omega)
  simp only [TDMS_SetGroupDataValues, hchs, countObjects_val _ hz, hl, if_false,
    lenLoop_start _ h, hM, hRw, hN]
  rw [c3.2, c3.1]
  simp only [List.append_nil, List.length_append, leadInBytes_length, le32_length,
    groupHeaders_length, groupRaw_length, groupDataBytes]

theorem groupSize_eq (chs : List (TDMS_Channel_t × Mem × Nat)) :
    groupSize chs = 28 + 4 + groupMetaSize chs + groupRawSize chs := by
  have key : ∀ l : List (TDMS_Channel_t × Mem × Nat),
      (l.map (fun x => 28 + x.1.ChannelPath.length
          + x.2.2 * dataTypeLength x.1.ChannelDataType)).sum
        = (l.map (fun x => 28 + x.1.ChannelPath.length)).sum
          + (l.map (fun x => x.2.2 * dataTypeLength x.1.ChannelDataType)).sum := by
    intro l
    induction l with
    | nil => rfl
    | cons x rest ih =>
      simp only [List.map_cons, List.sum_cons, ih]
      omega
  simp only [groupSize, groupMetaSize, groupRawSize, key]
  omega

theorem channel_path_le (ch : TDMS_Channel_t) (h : ch.WellFormed) : ch.ChannelPath.length ≤ 65 := h

theorem le_sum_of_mem {α : Type} (f : α → Nat) (l : List α) (x : α) (h : x ∈ l) :
    f x ≤ (l.map f).sum := by
  induction l with
  | nil => cases h
  | cons y rest ih =>
    simp only [List.map_cons, List.sum_cons]
    rcases List.mem_cons.mp h with rfl | h'
    · omega
    · have := ih h'
      omega

theorem group_fits (chs : List (TDMS_Channel_t × Mem × Nat))
    (hgw : ∀ x ∈ chs, x.2.2 ≠ 0 → dataTypeLength x.1.ChannelDataType ≠ 0)
    (hfit : groupSize chs < 4294967296) :
    rawLenOK chs ∧ ∀ x ∈ chs, x.2.2 < 4294967296 := by
  have hsz := groupSize_eq chs
  have key : ∀ x ∈ chs, x.2.2 ≠ 0 →
      x.2.2 * dataTypeLength x.1.ChannelDataType < 4294967296 := by
    intro x hx hz
    have hin : x ∈ included chs := by
      simp only [included, List.mem_filter]
      exact ⟨hx, by simpa using hz⟩
    have := le_sum_of_mem (fun x : TDMS_Channel_t × Mem × Nat =>
      x.2.2 * dataTypeLength x.1.ChannelDataType) (included chs) x hin
    simp only [groupRawSize] at hsz
    simp only at this
    omega
  constructor
  · intro x hx hz
    have h1 := key x hx hz
    have h2 : 0 < x.2.2 * dataTypeLength x.1.ChannelDataType :=
      Nat.mul_pos (Nat.pos_of_ne_zero hz) (Nat.pos_of_ne_zero (hgw x hx hz))
    rw [Nat.mul_comm, u32_of_lt h1]
    omega
  · intro x hx
    by_cases hz : x.2.2 = 0
    · omega
    · have h1 := key x hx hz
      have h2 : x.2.2 ≤ x.2.2 * dataTypeLength x.1.ChannelDataType :=
        Nat.le_mul_of_pos_right _ (Nat.pos_of_ne_zero (hgw x hx hz))
      omega

theorem Group_emit_fits (Group : TDMS_Group_t) (b0 : Mem) (Size : Nat)
    (args : List (Mem × Nat)) (hcap : Group.ChannelArray.length < 4294967296)
    (hne : included (Group.ChannelArray.zip args) ≠ [])
    (hgw : ∀ x ∈ Group.ChannelArray.zip args, x.2.2 ≠ 0 →
      dataTypeLength x.1.ChannelDataType ≠ 0)
    (hfit : groupSize (Group.ChannelArray.zip args) < 4294967296) :
    TDMS_SetGroupDataValues Group (some b0) Size args
      = ⟨TDMS_OK, groupSize (Group.ChannelArray.zip args),
          some (writeBytes b0 0 (groupDataBytes (Group.ChannelArray.zip args)))⟩ := by
  obtain ⟨hok, hcnt⟩ := group_fits _ hgw hfit
  rw [groupSize_eq] at hfit ⊢
  exact Group_emit Group b0 Size args hcap hne hok hcnt hfit

theorem Group_emit_struct (Group : TDMS_Group_t) (b0 : Mem) (Size : Nat)
    (args : List (Mem × Nat)) (hcap : Group.ChannelArray.length < 4294967296)
    (hne : included (Group.ChannelArray.zip args) ≠ [])
    (h : rawLenOK (Group.ChannelArray.zip args)) :
    TDMS_SetGroupDataValues Group (some b0) Size args
      = ⟨TDMS_OK,
          (SetGroupDataValues.emitRaw (SetGroupDataValues.emitMeta
            ((Cursor.leadIn ⟨b0, 0⟩ (kTocRawData ||| kTocNewObjList ||| kTocMetaData)
              (u32 (u32 (4 + groupMetaSize (Group.ChannelArray.zip args))
                + u32 (groupRawSize (Group.ChannelArray.zip args))))
              (u32 (4 + groupMetaSize (Group.ChannelArray.zip args)))).save32
                (included (Group.ChannelArray.zip args)).length)
            (Group.ChannelArray.zip args)) (Group.ChannelArray.zip args)).DataSize,
          some (SetGroupDataValues.emitRaw (SetGroupDataValues.emitMeta
            ((Cursor.leadIn ⟨b0, 0⟩ (kTocRawData ||| kTocNewObjList ||| kTocMetaData)
              (u32 (u32 (4 + groupMetaSize (Group.ChannelArray.zip args))
                + u32 (groupRawSize (Group.ChannelArray.zip args))))
              (u32 (4 + groupMetaSize (Group.ChannelArray.zip args)))).save32
                (included (Group.ChannelArray.zip args)).length)
            (Group.ChannelArray.zip args)) (Group.ChannelArray.zip args)).Buffer⟩ := by
  have hz : (Group.ChannelArray.zip args).length < 4294967296 := by
    rw [List.length_zip]; omega
  have hl : (included (Group.ChannelArray.zip args)).length ≠ 0 := by
    intro h0; exact hne (List.length_eq_zero.mp h0)
  simp only [TDMS_SetGroupDataValues, countObjects_val _ hz, hl, if_false, lenLoop_start _ h]

theorem emitRaw_two (c : Cursor) (x1 x2 : TDMS_Channel_t × Mem × Nat)
    (h1 : x1.2.2 ≠ 0) (h2 : x2.2.2 ≠ 0) :
    (SetGroupDataValues.emitRaw c [x1, x2]).Buffer
      = writeBytes
          (writeBytes c.Buffer c.DataSize
            (memDump x1.2.1 (u32 (dataTypeLength x1.1.ChannelDataType * x1.2.2))))
          (u32 (c.DataSize + u32 (dataTypeLength x1.1.ChannelDataType * x1.2.2)))
          (memDump x2.2.1 (u32 (dataTypeLength x2.1.ChannelDataType * x2.2.2))) := by
  simp only [SetGroupDataValues.emitRaw, List.foldl_cons, List.foldl_nil, ne_eq, h1, h2,
    not_false_eq_true, if_true, memcpyMem]

theorem field64_writeBytes_above (m : Mem) (off : Nat) (l : List Nat) (k : Nat)
    (h : k + 8 ≤ off) : field64 (writeBytes m off l) k = field64 m k := by
  simp only [field64]
  congr 1
  apply List.map_congr_left
  intro i hi
  have hi8 : i < 8 := List.mem_range.mp hi
  rw [writeBytes_apply, if_neg (by omega)]

theorem objectRecords_objectPaths (File : TDMS_File_t) :
    objectRecords (objectPaths File)
      = objectRecord [0x2F] ++ (File.GroupArray.map (fun g =>
          objectRecord g.GroupPath
            ++ (g.ChannelArray.map (fun ch => objectRecord ch.ChannelPath)).flatten)).flatten := by
  have key : ∀ gs : List TDMS_Group_t, objectRecords (gs.map groupPaths).flatten
      = (gs.map (fun g => objectRecord g.GroupPath
          ++ (g.ChannelArray.map (fun ch => objectRecord ch.ChannelPath)).flatten)).flatten := by
    intro gs
    induction gs with
    | nil => rfl
    | cons g rest ih =>
      simp only [List.map_cons, List.flatten_cons, objectRecords_append, ih, groupPaths,
        objectRecords_cons]
      simp only [objectRecords, List.map_map, List.append_assoc]
      rfl
  rw [objectPaths, objectRecords_cons, key]

theorem propertyMeta_length (Path Name : List Nat) (DataType : TDMS_Data_t) (Value : List Nat)
    (hval : DataType ≠ TDMS_DataType_String → dataTypeLength DataType ≤ Value.length) :
    28 + (propertyMeta Path Name DataType Value).length
      = propertySize Path Name DataType Value := by
  by_cases hs : DataType = TDMS_DataType_String
  · simp only [propertyMeta, propertySize, propertyValueSize, hs, if_true, List.length_append,
      le32_length, lenString_length, List.length_cons, List.length_nil]
    omega
  · have := hval hs
    simp only [propertyMeta, propertySize, propertyValueSize, hs, if_false, List.length_append,
      le32_length, lenString_length, List.length_cons, List.length_nil, List.length_take]
    omega

theorem property_name_wraps (b0 : Mem) (Name : List Nat) (h : Name.length = 4294967240) :
    (TDMS_AddPropertyToFile (some b0) 0 Name TDMS_DataType_String valueX).ret = TDMS_OK ∧
    (TDMS_AddPropertyToFile (some b0) 0 Name TDMS_DataType_String valueX).Size = 2 ∧
    28 + (propertyMeta [0x2F] Name TDMS_DataType_String valueX).length = 4294967298 := by
  have hp : propertySize [0x2F] Name TDMS_DataType_String valueX = 4294967298 := by
    simp only [propertySize, propertyValueSize, if_true, h, List.length_cons, List.length_nil,
      valueX]
  obtain ⟨h1, h2, _⟩ := AddProperty_emit_size [0x2F] b0 0 Name TDMS_DataType_String valueX
    (by decide)
  refine ⟨h1, ?_, ?_⟩
  · rw [TDMS_AddPropertyToFile, h2, hp]
    decide
  · rw [propertyMeta_length _ _ _ _ (fun hs => absurd rfl hs), hp]

/-! ## The lead-in of a segment -/

theorem EmitCall.run_fits (c : EmitCall) (b0 : Mem) (Size : Nat) (h : c.Fits) :
    ∃ k Next Raw rest, c.run b0 Size
      = some ⟨TDMS_OK, k, some (writeBytes b0 0 (leadInBytes c.tocOf Next Raw ++ rest))⟩ := by
  cases c with
  | firstPart File =>
    have e := GenFirstPart_emit File b0 Size h
    simp only [firstPartBytes, List.append_assoc] at e
    exact ⟨_, _, _, _, congrArg some e⟩
  | property Path Name DataType Value =>
    have e := AddProperty_emit Path b0 Size Name DataType Value h.1 h.2
    simp only [propertyBytes, List.append_assoc] at e
    exact ⟨_, _, _, _, congrArg some e⟩
  | channelData fuel ch Values n =>
    obtain ⟨hw, hn, hfit, hterm⟩ := h
    have e := SetChannel_emit_fits fuel ch b0 Size Values n hw hn hfit hterm
    simp only [channelDataBytes, List.append_assoc] at e
    exact ⟨_, _, _, _, congrArg (Option.map (fun o : OutData => (⟨o.ret, o.Size, o.Buffer⟩ : Out))) e⟩
  | groupData Group args =>
    obtain ⟨hcap, _, hne, hgw, hfit⟩ := h
    have e := Group_emit_fits Group b0 Size args
      (by simp only [TDMS_CONFIG_MAX_CHANNEL_OF_GROUP] at hcap; omega)
      (by intro h0; rw [h0] at hne; simp at hne) hgw hfit
    simp only [groupDataBytes, List.append_assoc] at e
    exact ⟨_, _, _, _, congrArg some e⟩

theorem bytesAt_writeBytes (m : Mem) (off : Nat) (l : List Nat) :
    bytesAt (writeBytes m off l) off (off + l.length) = l := by
  apply List.ext_getElem
  · simp [bytesAt, memDump]
  · intro i h1 h2
    simp only [bytesAt, memDump, List.getElem_drop, List.getElem_map, List.getElem_range]
    rw [writeBytes_apply, if_pos (by omega)]
    have e : off + i - off = i := by omega
    rw [e, List.getElem?_eq_getElem h2]
    rfl

theorem leadIn_prefix (b0 : Mem) (ToC Next Raw : Nat) (rest : List Nat) :
    memDump (writeBytes b0 0 (leadInBytes ToC Next Raw ++ rest)) 12
      = [0x54, 0x44, 0x53, 0x6D] ++ le32 ToC ++ [0x69, 0x12, 0x00, 0x00] := by
  have e : leadInBytes ToC Next Raw ++ rest
      = ([0x54, 0x44, 0x53, 0x6D] ++ le32 ToC ++ [0x69, 0x12, 0x00, 0x00])
        ++ (le64 Next ++ le64 Raw ++ rest) := by
    simp only [leadInBytes, List.append_assoc]
  rw [e]
  exact memDump_writeBytes b0 ([0x54, 0x44, 0x53, 0x6D] ++ le32 ToC ++ [0x69, 0x12, 0x00, 0x00]) _

theorem memDump_take (b : Mem) (i j : Nat) (h : i ≤ j) : (memDump b j).take i = memDump b i := by
  apply List.ext_getElem
  · simp [memDump]; omega
  · intro k h1 h2
    simp [memDump]

theorem group_wrap_overwrites (k : Nat) (hk : k ≤ 24) (b0 : Mem) :
    (TDMS_SetGroupDataValues twoChannelGroup (some b0) 0 (wrapArgs k)).ret = TDMS_OK ∧
    (TDMS_SetGroupDataValues twoChannelGroup (some b0) 0 (wrapArgs k)).Buffer.map
      (fun b => bytesAt b k (k + 4)) = some [0xFF, 0xFF, 0xFF, 0xFF] := by
  have hcap : twoChannelGroup.ChannelArray.length < 4294967296 := by decide
  have hchs : twoChannelGroup.ChannelArray.zip (wrapArgs k)
      = [(⟨TDMS_DataType_U8, pathGC⟩, fun _ => 0, 4294967192 + k),
         (⟨TDMS_DataType_U8, pathGD⟩, fun _ => 0xFF, 4)] := rfl
  have hinc : included (twoChannelGroup.ChannelArray.zip (wrapArgs k))
      = twoChannelGroup.ChannelArray.zip (wrapArgs k) := by
    rw [hchs]; simp [included]
  have hne : included (twoChannelGroup.ChannelArray.zip (wrapArgs k)) ≠ [] := by
    rw [hinc, hchs]; simp
  have hok : rawLenOK (twoChannelGroup.ChannelArray.zip (wrapArgs k)) := by
    intro x hx _
    rw [hchs] at hx
    simp only [List.mem_cons, List.mem_singleton, List.not_mem_nil, or_false] at hx
    rcases hx with rfl | rfl <;> simp only [dataTypeLength, u32] <;> omega
  have hcnt : ∀ x ∈ twoChannelGroup.ChannelArray.zip (wrapArgs k), x.2.2 < 4294967296 := by
    intro x hx
    rw [hchs] at hx
    simp only [List.mem_cons, List.mem_singleton, List.not_mem_nil, or_false] at hx
    rcases hx with rfl | rfl <;> simp only <;> omega
  obtain ⟨h1, _, _⟩ := Group_emit_size twoChannelGroup b0 0 (wrapArgs k) hcap hne hok
  refine ⟨h1, ?_⟩
  rw [Group_emit_struct twoChannelGroup b0 0 (wrapArgs k) hcap hne hok, Option.map_some']
  refine congrArg some ?_
  have hM : groupMetaSize (twoChannelGroup.ChannelArray.zip (wrapArgs k)) = 72 := by
    simp only [groupMetaSize, hinc]; rfl
  have c0 := Cursor.leadIn_holds b0 (kTocRawData ||| kTocNewObjList ||| kTocMetaData)
    (u32 (u32 (4 + groupMetaSize (twoChannelGroup.ChannelArray.zip (wrapArgs k)))
      + u32 (groupRawSize (twoChannelGroup.ChannelArray.zip (wrapArgs k)))))
    (u32 (4 + groupMetaSize (twoChannelGroup.ChannelArray.zip (wrapArgs k))))
  have c1 := Cursor.save32_holds (included (twoChannelGroup.ChannelArray.zip (wrapArgs k))).length
    c0 (by simp) (by simp [leadInBytes_length])
  have c2 := emitMeta_holds (twoChannelGroup.ChannelArray.zip (wrapArgs k)) c1 hok hcnt
    (by simp only [List.length_append, leadInBytes_length, le32_length, hM]; decide)
  have key : ∀ (cm : Cursor) (acc : List Nat), acc.length = 104 → cm.Holds b0 acc [] →
      bytesAt (SetGroupDataValues.emitRaw cm
        (twoChannelGroup.ChannelArray.zip (wrapArgs k))).Buffer k (k + 4)
        = [0xFF, 0xFF, 0xFF, 0xFF] := by
    intro cm acc hacc hc
    have hsz := hc.2
    rw [hacc] at hsz
    have hoff : u32 (104 + u32 (dataTypeLength TDMS_DataType_U8 * (4294967192 + k))) = k := by
      simp only [dataTypeLength, u32]; omega
    have hv : memDump (fun _ => 0xFF) (u32 (dataTypeLength TDMS_DataType_U8 * 4))
        = [0xFF, 0xFF, 0xFF, 0xFF] := by decide
    rw [hchs, emitRaw_two cm _ _ (by simp only; omega) (by decide), hsz]
    simp only [hoff, hv]
    exact bytesAt_writeBytes _ k [0xFF, 0xFF, 0xFF, 0xFF]
  exact key _ _ (by
    simp only [List.length_append, leadInBytes_length, le32_length, groupHeaders_length, hM]) c2

theorem bytesAt_leadIn (b0 : Mem) (ToC Next Raw : Nat) (rest : List Nat) :
    bytesAt (writeBytes b0 0 (leadInBytes ToC Next Raw ++ rest)) 0 4 = [0x54, 0x44, 0x53, 0x6D] ∧
    bytesAt (writeBytes b0 0 (leadInBytes ToC Next Raw ++ rest)) 4 8 = le32 ToC ∧
    bytesAt (writeBytes b0 0 (leadInBytes ToC Next Raw ++ rest)) 8 12
      = [0x69, 0x12, 0x00, 0x00] := by
  have h := leadIn_prefix b0 ToC Next Raw rest
  refine ⟨?_, ?_, ?_⟩
  · simp only [bytesAt]
    rw [← memDump_take _ 4 12 (by decide), h]; rfl
  · simp only [bytesAt]
    rw [← memDump_take _ 8 12 (by decide), h]; rfl
  · simp only [bytesAt]
    rw [h]; rfl

/-! ## Results of the single-channel data builder -/

theorem bytesAt_suffix (m : Mem) (l r : List Nat) :
    bytesAt (writeBytes m 0 (l ++ r)) l.length (l.length + r.length) = r := by
  apply List.ext_getElem
  · simp [bytesAt, memDump]
  · intro i h1 h2
    simp only [bytesAt, memDump, List.getElem_drop, List.getElem_map, List.getElem_range]
    rw [writeBytes_apply, if_pos (Nat.zero_le _), Nat.sub_zero,
      List.getElem?_append_right (Nat.le_add_right _ _)]
    have e : l.length + i - l.length = i := by omega
    rw [e, List.getElem?_eq_getElem h2]
    rfl

theorem boolLoop_some (n : Nat) (hn : n < 65536) (fuel : Nat) :
    ∀ (i : Nat) (v w : Mem), i ≤ n → SetChannelDataValues.boolLoop n fuel i v = some w →
      w = fun k => if i ≤ k ∧ k < n then (if v k ≠ 0 then 1 else 0) else v k := by
  induction fuel with
  | zero => intro i v w _ h; simp [SetChannelDataValues.boolLoop] at h
  | succ fuel ih =>
    intro i v w hi h
    have hret := boolLoop_eq n hn (n - i + 1) i v hi (by omega)
    rw [SetChannelDataValues.boolLoop] at h
    by_cases hlt : i < n
    · have hmod : (i + 1) % 65536 = i + 1 := Nat.mod_eq_of_lt (by omega)
      rw [if_pos hlt, hmod] at h
      have h2 := ih (i + 1) _ w (by omega) h
      have h3 := boolLoop_eq n hn (n - (i + 1) + 1) (i + 1)
        (memSet v i (if v i ≠ 0 then 1 else 0)) (by omega) (by omega)
      have e : n - i + 1 = (n - (i + 1) + 1) + 1 := by omega
      rw [e, SetChannelDataValues.boolLoop, if_pos hlt, hmod, h3, ← h2] at hret
      exact Option.some.inj hret
    · rw [if_neg hlt] at h
      have e : n - i + 1 = (n - i) + 1 := rfl
      rw [e, SetChannelDataValues.boolLoop, if_neg hlt, h] at hret
      exact Option.some.inj hret

theorem SetChannel_returned (fuel : Nat) (ch : TDMS_Channel_t) (Buffer : Option Mem) (Size : Nat)
    (Values : Mem) (n : Nat) (o : OutData)
    (ho : TDMS_SetChannelDataValues fuel ch Buffer Size Values n = some o)
    (hR : u32 (dataTypeLength ch.ChannelDataType * n) ≠ 0) :
    (ch.ChannelDataType = TDMS_DataType_Boolean → n < 65536) ∧
    TDMS_SetChannelDataValues (n + 1) ch Buffer Size Values n = some o := by
  by_cases hb : ch.ChannelDataType = TDMS_DataType_Boolean
  · have hR2 : u32 (dataTypeLength TDMS_DataType_Boolean * n) ≠ 0 := by rw [← hb]; exact hR
    have hlt : n < 65536 := by
      by_contra hge
      have hd := boolLoop_diverges n (by omega) fuel 0 Values (by decide)
      simp only [TDMS_SetChannelDataValues, hb, if_neg hR2, if_true, hd] at ho
      exact Option.noConfusion ho
    refine ⟨fun _ => hlt, ?_⟩
    cases hl : SetChannelDataValues.boolLoop n fuel 0 Values with
    | none =>
      simp only [TDMS_SetChannelDataValues, hb, if_neg hR2, if_true, hl] at ho
      exact Option.noConfusion ho
    | some w =>
      have hw := boolLoop_some n hlt fuel 0 Values w (Nat.zero_le _) hl
      have hr := boolLoop_eq n hlt (n + 1) 0 Values (Nat.zero_le _) (by omega)
      rw [← hw] at hr
      rw [← ho]
      simp only [TDMS_SetChannelDataValues, hb, if_neg hR2, if_true, hl, hr]
  · refine ⟨fun h => absurd h hb, ?_⟩
    rw [← ho]
    simp only [TDMS_SetChannelDataValues, if_neg hR, if_neg hb]

theorem SetChannel_wrongArg (fuel : Nat) (ch : TDMS_Channel_t) (Buffer : Option Mem) (Size : Nat)
    (Values : Mem) (n : Nat) (hR : u32 (dataTypeLength ch.ChannelDataType * n) = 0) :
    TDMS_SetChannelDataValues fuel ch Buffer Size Values n
      = some ⟨TDMS_WRONG_ARG, Size, Buffer, Values⟩ := by
  simp only [TDMS_SetChannelDataValues, if_pos hR]

theorem SetChannel_ok (fuel : Nat) (ch : TDMS_Channel_t) (Buffer : Option Mem) (Size : Nat)
    (Values : Mem) (n : Nat) (hR : u32 (dataTypeLength ch.ChannelDataType * n) ≠ 0)
    (hterm : ch.ChannelDataType = TDMS_DataType_Boolean → n < 65536 ∧ n < fuel) :
    ∃ o, TDMS_SetChannelDataValues fuel ch Buffer Size Values n = some o ∧ o.ret = TDMS_OK ∧
      o.Values = valuesAfter ch.ChannelDataType n Values := by
  have hnorm := normalised_eq fuel ch Values n hterm
  cases Buffer with
  | none => exact ⟨_, SetChannel_query fuel ch Size Values n hR hterm, rfl, rfl⟩
  | some b0 =>
    simp only [TDMS_SetChannelDataValues, if_neg hR, hnorm]
    exact ⟨_, rfl, rfl, rfl⟩

/-! ## The timestamp helper -/

theorem countDown_succ (lo : Int) (n : Nat) :
    countDown (lo + (n + 1 : Nat) - 1) lo = (lo + n) :: countDown (lo + n - 1) lo := by
  have e1 : (lo + ((n + 1 : Nat) : Int) - 1 + 1 - lo).toNat = n + 1 := by omega
  have e2 : (lo + (n : Int) - 1 + 1 - lo).toNat = n := by omega
  simp only [countDown, e1, e2, List.range_succ_eq_map, List.map_cons, List.map_map]
  refine congrArg₂ List.cons (by push_cast; omega) ?_
  apply List.map_congr_left
  intro i _
  simp only [Function.comp]
  push_cast
  omega

theorem countDown_zero (lo : Int) : countDown (lo + (0 : Nat) - 1) lo = [] := by
  have e : (lo + ((0 : Nat) : Int) - 1 + 1 - lo).toNat = 0 := by omega
  simp only [countDown, e, List.range_zero, List.map_nil]

theorem foldlM_countDown (f : Int → Int → Option Int) (c : Nat → Nat) (lo : Int) :
    ∀ (n : Nat) (t : Int),
      (∀ i : Nat, i < n → ∀ t : Int, 0 ≤ t → t + (c i : Int) < 4294967296 →
        f t (lo + i) = some (t + (c i : Int))) →
      0 ≤ t → t + (((List.range n).map c).sum : Nat) < 4294967296 →
      (countDown (lo + n - 1) lo).foldlM f t = some (t + (((List.range n).map c).sum : Nat)) := by
  intro n
  induction n with
  | zero =>
    intro t _ _ _
    rw [countDown_zero]
    simp
  | succ n ih =>
    intro t hf ht hlt
    rw [countDown_succ, List.foldlM_cons]
    have hsum : ((List.range (n + 1)).map c).sum = ((List.range n).map c).sum + c n := by
      simp [List.range_succ]
    rw [hsum, Nat.cast_add] at hlt ⊢
    rw [hf n (by omega) t ht (by omega)]
    simp only [Option.bind_eq_bind, Option.some_bind]
    rw [ih (t + (c n : Int)) (fun i hi => hf i (by omega)) (by omega) (by omega)]
    congr 1
    omega

theorem leapYear_cast (Y : Nat) : leapYear (Y : Int) = if isLeapYear Y then 1 else 0 := by
  unfold leapYear isLeapYear
  split_ifs <;> omega

theorem daysPerMonthAt_eq (Y i : Nat) (hi : i < 12) :
    daysPerMonthAt (leapYear (Y : Int)) (1 + (i : Int)) = some ((daysOfMonth Y (1 + i) : Nat) : Int) := by
  rw [leapYear_cast]
  by_cases hl : isLeapYear Y
  · simp only [if_pos hl, daysOfMonth]
    interval_cases i <;> rfl
  · simp only [if_neg hl, daysOfMonth]
    interval_cases i <;> rfl

theorem u32z_of_lt {x : Int} (h0 : 0 ≤ x) (h : x < 4294967296) : u32z x = x :=
  Int.emod_eq_of_lt h0 h

theorem daysOfFullMonths_13 (Y : Nat) : daysOfFullMonths Y 13 = daysOfYear Y := by
  by_cases hl : isLeapYear Y <;>
    simp [daysOfFullMonths, daysOfYear, daysOfMonth, hl, List.range_succ]

theorem fullYear_eq (Y : Nat) (t : Int) (ht : 0 ≤ t) (hlt : t + (daysOfYear Y : Int) < 4294967296) :
    DateDef.fullYear (Y : Int) t = some (t + (daysOfYear Y : Int)) := by
  have h := foldlM_countDown (fun total_days m =>
      (daysPerMonthAt (leapYear (Y : Int)) m).map (fun d => u32z (total_days + d)))
    (fun i => daysOfMonth Y (1 + i)) 1 12 t ?_ ht ?_
  · have e : ((List.range 12).map (fun i => daysOfMonth Y (1 + i))).sum = daysOfYear Y :=
      daysOfFullMonths_13 Y
    rw [e] at h
    exact h
  · intro i hi t2 ht2 hlt2
    simp only [daysPerMonthAt_eq Y i hi, Option.map_some']
    rw [u32z_of_lt (by omega) hlt2]
  · have e : ((List.range 12).map (fun i => daysOfMonth Y (1 + i))).sum = daysOfYear Y :=
      daysOfFullMonths_13 Y
    rw [e]; exact hlt

theorem countDown_cons (hi lo : Int) (h : lo ≤ hi) :
    countDown hi lo = hi :: countDown (hi - 1) lo := by
  have e := countDown_succ lo (hi - lo).toNat
  have e1 : lo + (((hi - lo).toNat + 1 : Nat) : Int) - 1 = hi := by omega
  have e2 : lo + ((hi - lo).toNat : Int) = hi := by omega
  rw [e1, e2] at e
  exact e

theorem foldlM_countDown_to (f : Int → Int → Option Int) (c : Nat → Nat) (hi lo : Int) (n : Nat)
    (t : Int) (hhi : hi = lo + n - 1)
    (hf : ∀ i : Nat, i < n → ∀ t : Int, 0 ≤ t → t + (c i : Int) < 4294967296 →
      f t (lo + i) = some (t + (c i : Int)))
    (ht : 0 ≤ t) (hlt : t + (((List.range n).map c).sum : Nat) < 4294967296) :
    (countDown hi lo).foldlM f t = some (t + (((List.range n).map c).sum : Nat)) := by
  rw [hhi]
  exact foldlM_countDown f c lo n t hf ht hlt

theorem baseYear_eq (t : Int) (ht : 0 ≤ t) (hlt : t + 365 < 4294967296) :
    DateDef.baseYear BaseYear t = some (t + 365) := by
  have h := foldlM_countDown_to (fun total_days m =>
      if m = BaseMonth then
        (daysPerMonthAt (leapYear BaseYear) m).map (fun d => u32z (total_days + (d - BaseDay)))
      else (daysPerMonthAt (leapYear BaseYear) m).map (fun d => u32z (total_days + d)))
    (fun i => if i = 0 then 30 else daysOfMonth 1904 (1 + i)) 12 BaseMonth 12 t rfl ?_ ht ?_
  · exact h
  · intro i hi t2 ht2 hlt2
    have e := daysPerMonthAt_eq 1904 i hi
    have eb : BaseYear = ((1904 : Nat) : Int) := rfl
    rw [eb]
    by_cases h0 : i = 0
    · subst h0
      simp only [BaseMonth, e, Option.map_some', BaseDay]
      rw [if_pos (by omega)]
      simp only [if_true] at hlt2 ⊢
      have e30 : ((daysOfMonth 1904 (1 + 0) : Nat) : Int) - 1 = 30 := by decide
      rw [e30, u32z_of_lt (by omega) (by omega)]
      rfl
    · simp only [BaseMonth, e, Option.map_some', if_neg h0] at hlt2 ⊢
      rw [if_neg (by omega), u32z_of_lt (by omega) hlt2]
  · have e : ((List.range 12).map (fun i => if i = 0 then 30 else daysOfMonth 1904 (1 + i))).sum
        = 365 := by decide
    rw [e]; exact hlt

theorem currentYear_eq (Y D M : Nat) (hM1 : 1 ≤ M) (hM : M ≤ 12) (t : Int) (ht : 0 ≤ t)
    (hlt : t + (D : Int) + (daysOfFullMonths Y M : Int) < 4294967296) :
    DateDef.currentYear D M (Y : Int) t = some (t + (D : Int) + (daysOfFullMonths Y M : Int)) := by
  unfold DateDef.currentYear
  rw [countDown_cons _ _ (by omega), List.foldlM_cons, if_pos rfl]
  simp only [Option.bind_eq_bind, Option.some_bind]
  rw [u32z_of_lt (by omega) (by omega)]
  exact foldlM_countDown_to _ (fun i => daysOfMonth Y (1 + i)) _ 1 (M - 1) _ (by omega)
    (by
      intro i hi t2 ht2 hlt2
      rw [if_neg (by omega), daysPerMonthAt_eq Y i (by omega), Option.map_some',
        u32z_of_lt (by omega) hlt2])
    (by omega) hlt

theorem daysOfYear_le (Y : Nat) : daysOfYear Y ≤ 366 := by
  unfold daysOfYear; split_ifs <;> omega

theorem daysOfFullMonths_le (Y M : Nat) (hM : M ≤ 12) : daysOfFullMonths Y M ≤ 366 := by
  by_cases hl : isLeapYear Y <;> interval_cases M <;>
    simp [daysOfFullMonths, daysOfMonth, hl, List.range_succ]

theorem earlierYears_sum (n : Nat) :
    ((List.range (n + 1)).map (fun i => if i = 0 then 365 else daysOfYear (1904 + i))).sum + 1
      = ((List.range (n + 1)).map (fun i => daysOfYear (1904 + i))).sum := by
  induction n with
  | zero => decide
  | succ n ih =>
    rw [List.range_succ, List.map_append, List.sum_append, List.map_append, List.sum_append,
      ← ih]
    simp only [List.map_cons, List.map_nil, List.sum_cons, List.sum_nil]
    rw [if_neg (by omega)]
    omega

theorem daysOfFullYears_le (Y : Nat) : daysOfFullYears Y ≤ 366 * (Y - 1904) := by
  unfold daysOfFullYears
  generalize Y - 1904 = n
  induction n with
  | zero => simp
  | succ n ih =>
    rw [List.range_succ, List.map_append, List.sum_append]
    simp only [List.map_cons, List.map_nil, List.sum_cons, List.sum_nil]
    have := daysOfYear_le (1904 + n)
    omega

theorem int16_of_lt (x : Nat) (h : x < 32768) : int16 x = (x : Int) := by
  unfold int16
  simp only [Int.ofNat_eq_coe]
  omega

theorem year_earlier (D M Y : Nat) (i : Nat) (hi : i < Y - 1904) (t : Int) (ht : 0 ≤ t)
    (hlt : t + ((if i = 0 then 365 else daysOfYear (1904 + i) : Nat) : Int) < 4294967296) :
    DateDef.year D M Y t (1904 + (i : Int))
      = some (t + ((if i = 0 then 365 else daysOfYear (1904 + i) : Nat) : Int)) := by
  unfold DateDef.year
  rw [if_neg (by omega)]
  by_cases h0 : i = 0
  · subst h0
    rw [if_pos rfl]
    simp only [if_true] at hlt ⊢
    exact baseYear_eq t ht hlt
  · rw [if_neg (by simp only [BaseYear]; omega)]
    simp only [if_neg h0] at hlt ⊢
    have e : (1904 : Int) + (i : Int) = ((1904 + i : Nat) : Int) := by push_cast; rfl
    rw [e]
    exact fullYear_eq (1904 + i) t ht hlt

theorem DateDef_eq (D M Y : Nat) (hY : 1904 ≤ Y) (hY2 : Y ≤ 32767) (hM1 : 1 ≤ M) (hM : M ≤ 12)
    (hD : D < 256) :
    TDMS_DateDef D M Y
      = some (((daysOfFullYears Y + daysOfFullMonths Y M + D - (if Y = 1904 then 0 else 1) : Nat)
          : Int)) := by
  have hm := daysOfFullMonths_le Y M hM
  have hy := daysOfFullYears_le Y
  unfold TDMS_DateDef
  rw [if_neg (by simp only [BaseYear]; omega), int16_of_lt Y (by omega),
    countDown_cons _ _ (by simp only [BaseYear]; omega), List.foldlM_cons]
  have hcur : DateDef.year D M Y 0 (Y : Int) = some ((D : Int) + (daysOfFullMonths Y M : Int)) := by
    unfold DateDef.year
    rw [if_pos rfl, currentYear_eq Y D M hM1 hM 0 (le_refl 0) (by omega)]
    refine congrArg some ?_
    omega
  rw [hcur]
  simp only [Option.bind_eq_bind, Option.some_bind]
  by_cases h4 : Y = 1904
  · subst h4
    have e : countDown (((1904 : Nat) : Int) - 1) BaseYear = [] := countDown_zero BaseYear
    rw [e]
    simp only [List.foldlM_nil, if_true]
    have e0 : daysOfFullYears 1904 = 0 := by decide
    rw [e0]
    simp only [pure]
    refine congrArg some ?_
    omega
  · obtain ⟨n, hn⟩ : ∃ n, Y - 1904 = n + 1 := ⟨Y - 1905, by omega⟩
    have hsum := earlierYears_sum n
    have hfy : daysOfFullYears Y = ((List.range (n + 1)).map (fun i => daysOfYear (1904 + i))).sum := by
      unfold daysOfFullYears; rw [hn]
    rw [foldlM_countDown_to (DateDef.year D M Y)
      (fun i => if i = 0 then 365 else daysOfYear (1904 + i)) _ BaseYear (Y - 1904) _
      (by simp only [BaseYear]; omega)
      (fun i hi t ht hlt => year_earlier D M Y i hi t ht hlt) (by omega)
      (by rw [hn]; omega)]
    rw [hn, if_neg h4]
    refine congrArg some ?_
    omega

theorem int64_of_lt {x : Int} (h0 : 0 ≤ x) (h : x < 9223372036854775808) : int64 x = x := by
  unfold int64; omega

theorem TimeSecond_eq (Y M D h m s : Nat) (hv : validCivil Y M D h m s) (hY2 : Y ≤ 32767)
    (hD : D < 256) :
    TDMS_TimeSecond Y M D h m s
      = some (civilSeconds Y M D h m s + (if Y = 1904 then 86400 else 0)) := by
  obtain ⟨hY, hM1, hM, hD1, _, hh, hm, hs⟩ := hv
  have hmo := daysOfFullMonths_le Y M hM
  have hyr := daysOfFullYears_le Y
  unfold TDMS_TimeSecond
  rw [DateDef_eq D M Y hY hY2 hM1 hM hD, Option.map_some']
  refine congrArg some ?_
  have hday : (((daysOfFullYears Y + daysOfFullMonths Y M + D - (if Y = 1904 then 0 else 1) : Nat)
      : Int)) = ((daysOfFullYears Y + daysOfFullMonths Y M + (D - 1) : Nat) : Int)
        + (if Y = 1904 then 1 else 0) := by
    split_ifs <;> omega
  simp only [civilSeconds]
  rw [hday]
  have hd : daysOfFullYears Y + daysOfFullMonths Y M + (D - 1) < 20000000 := by omega
  generalize daysOfFullYears Y + daysOfFullMonths Y M + (D - 1) = d at hd ⊢
  simp only [int64, ulong]
  split_ifs <;> omega

/-! ## The construction functions in sequence -/

theorem AddChannel_files (h : Objects) (Channel Group : Ptr) (Name : List Nat)
    (DataType : TDMS_Data_t) :
    (TDMS_AddChannelToGroup h Channel Group Name DataType).2.files = h.files := by
  simp only [TDMS_AddChannelToGroup]
  split_ifs <;> rfl

theorem AddChannel_groups_other (h : Objects) (Channel Group : Ptr) (Name : List Nat)
    (DataType : TDMS_Data_t) (G : Ptr) (hG : G ≠ Group) :
    (TDMS_AddChannelToGroup h Channel Group Name DataType).2.groups G = h.groups G := by
  simp only [TDMS_AddChannelToGroup]
  split_ifs
  · rfl
  · rfl
  · simp only [Objects.setGroup, Objects.setChannel, if_neg hG]

theorem AddGroup_groups_other (h : Objects) (Group File : Ptr) (Name : List Nat)
    (G : Ptr) (hG : G ≠ Group) :
    (TDMS_AddGroupToFile h Group File Name).2.groups G = h.groups G := by
  simp only [TDMS_AddGroupToFile]
  split_ifs
  · simp only [Objects.setGroup, if_neg hG]
  · simp only [Objects.setGroup, Objects.setFile, if_neg hG]

/-- What `TDMS_AddGroupToFile` returns and leaves in the file object. -/
theorem AddGroup_file (h : Objects) (Group File : Ptr) (Name : List Nat) :
    (4 ≤ (h.files File).NumOfGroups →
      (TDMS_AddGroupToFile h Group File Name).1 = TDMS_OUT_OF_CAP ∧
      (TDMS_AddGroupToFile h Group File Name).2.files File = h.files File) ∧
    ((h.files File).NumOfGroups < 4 →
      (TDMS_AddGroupToFile h Group File Name).1 = TDMS_OK ∧
      (TDMS_AddGroupToFile h Group File Name).2.files File
        = ⟨(h.files File).NumOfGroups + 1,
            setSlot (h.files File).GroupArray (h.files File).NumOfGroups Group⟩ ∧
      ((TDMS_AddGroupToFile h Group File Name).2.groups Group).NumOfChannels = 0) := by
  refine ⟨fun hfull => ?_, fun hroom => ?_⟩
  · have hc : (h.files File).NumOfGroups ≥ 4 := hfull
    simp only [TDMS_AddGroupToFile, Objects.setGroup, TDMS_CONFIG_MAX_GROUP_OF_FILE, if_pos hc,
      and_self]
  · have hc : ¬ (h.files File).NumOfGroups ≥ 4 := by omega
    have hu : u32 ((h.files File).NumOfGroups + 1) = (h.files File).NumOfGroups + 1 :=
      u32_of_lt (by omega)
    simp only [TDMS_AddGroupToFile, Objects.setGroup, Objects.setFile,
      TDMS_CONFIG_MAX_GROUP_OF_FILE, if_neg hc, if_true, hu, and_self]

/-- What `TDMS_AddChannelToGroup` returns and leaves in the group object. -/
theorem AddChannel_group (h : Objects) (Channel Group : Ptr) (Name : List Nat)
    (DataType : TDMS_Data_t) :
    (dataTypeLength DataType = 0 ∨ 8 ≤ (h.groups Group).NumOfChannels →
      (TDMS_AddChannelToGroup h Channel Group Name DataType).1 ≠ TDMS_OK ∧
      (TDMS_AddChannelToGroup h Channel Group Name DataType).2.groups Group = h.groups Group) ∧
    (dataTypeLength DataType ≠ 0 → (h.groups Group).NumOfChannels < 8 →
      (TDMS_AddChannelToGroup h Channel Group Name DataType).1 = TDMS_OK ∧
      (TDMS_AddChannelToGroup h Channel Group Name DataType).2.groups Group
        = ⟨(h.groups Group).FileOfGroup, (h.groups Group).NumOfChannels + 1,
            setSlot (h.groups Group).ChannelArray (h.groups Group).NumOfChannels Channel,
            (h.groups Group).GroupPath⟩) := by
  refine ⟨fun hbad => ?_, fun hw hroom => ?_⟩
  · by_cases hw : dataTypeLength DataType = 0
    · simp only [TDMS_AddChannelToGroup, if_pos hw]
      exact ⟨fun hc => TDMS_Result_t.noConfusion hc, trivial⟩
    · have hc : (h.groups Group).NumOfChannels ≥ 8 := by
        rcases hbad with h1 | h1
        · exact absurd h1 hw
        · exact h1
      simp only [TDMS_AddChannelToGroup, Objects.setChannel, TDMS_CONFIG_MAX_CHANNEL_OF_GROUP,
        if_neg hw, if_pos hc]
      exact ⟨fun hc => TDMS_Result_t.noConfusion hc, trivial⟩
  · have hc : ¬ (h.groups Group).NumOfChannels ≥ 8 := by omega
    have hu : u32 ((h.groups Group).NumOfChannels + 1) = (h.groups Group).NumOfChannels + 1 :=
      u32_of_lt (by omega)
    simp only [TDMS_AddChannelToGroup, Objects.setChannel, Objects.setGroup,
      TDMS_CONFIG_MAX_CHANNEL_OF_GROUP, if_neg hw, if_neg hc, if_true, hu, and_self]

theorem range_map_setSlot (Array : Nat → Ptr) (n : Nat) (p : Ptr) :
    (List.range (n + 1)).map (setSlot Array n p) = (List.range n).map Array ++ [p] := by
  rw [List.range_succ, List.map_append]
  congr 1
  · apply List.map_congr_left
    intro i hi
    have : i ≠ n := by have := List.mem_range.mp hi; omega
    simp only [setSlot, if_neg this]
  · simp [setSlot]

theorem runCalls_cons (File : Ptr) (h : Objects) (c : Call) (cs : List Call) :
    runCalls File h (c :: cs)
      = ((c, (c.run File h).1) :: (runCalls File (c.run File h).2 cs).1,
          (runCalls File (c.run File h).2 cs).2) := rfl

theorem file_counts (File : Ptr) (cs : List Call) :
    ∀ h : Objects, (h.files File).NumOfGroups ≤ 4 →
      ((runCalls File h cs).2.files File).NumOfGroups
        = (h.files File).NumOfGroups + (okGroups (runCalls File h cs).1).length ∧
      ((runCalls File h cs).2.files File).NumOfGroups ≤ 4 ∧
      (List.range ((runCalls File h cs).2.files File).NumOfGroups).map
          ((runCalls File h cs).2.files File).GroupArray
        = (List.range (h.files File).NumOfGroups).map (h.files File).GroupArray
          ++ okGroups (runCalls File h cs).1 := by
  induction cs with
  | nil => intro h hle; simp [runCalls, okGroups, hle]
  | cons c cs ih =>
    intro h hle
    rw [runCalls_cons]
    cases c with
    | addGroup Group Name =>
      by_cases hroom : (h.files File).NumOfGroups < 4
      · obtain ⟨hret, hfile, _⟩ := (AddGroup_file h Group File Name).2 hroom
        have hi := ih (TDMS_AddGroupToFile h Group File Name).2 (by rw [hfile]; exact hroom)
        simp only [Call.run, hret, okGroups, List.filterMap_cons, okGroup, List.length_cons]
        simp only [Call.run, okGroups, hfile] at hi
        refine ⟨by omega, hi.2.1, ?_⟩
        rw [hi.2.2, range_map_setSlot, List.append_assoc]
        rfl
      · obtain ⟨hret, hfile⟩ := (AddGroup_file h Group File Name).1 (by omega)
        have hi := ih (TDMS_AddGroupToFile h Group File Name).2 (by rw [hfile]; exact hle)
        simp only [Call.run, hret, okGroups, List.filterMap_cons, okGroup]
        simp only [Call.run, okGroups, hfile] at hi
        exact hi
    | addChannel Channel Group Name DataType =>
      have hfile := AddChannel_files h Channel Group Name DataType
      have hi := ih (TDMS_AddChannelToGroup h Channel Group Name DataType).2
        (by rw [hfile]; exact hle)
      simp only [Call.run, okGroups, List.filterMap_cons, okGroup]
      simp only [Call.run, okGroups, hfile] at hi
      exact hi

theorem group_counts (File : Ptr) (G : Ptr) (cs : List Call) :
    ∀ h : Objects, G ∉ groupsAdded cs → (h.groups G).NumOfChannels ≤ 8 →
      ((runCalls File h cs).2.groups G).NumOfChannels
        = (h.groups G).NumOfChannels + (okChannels G (runCalls File h cs).1).length ∧
      ((runCalls File h cs).2.groups G).NumOfChannels ≤ 8 ∧
      (List.range ((runCalls File h cs).2.groups G).NumOfChannels).map
          ((runCalls File h cs).2.groups G).ChannelArray
        = (List.range (h.groups G).NumOfChannels).map (h.groups G).ChannelArray
          ++ okChannels G (runCalls File h cs).1 := by
  induction cs with
  | nil => intro h _ hle; simp [runCalls, okChannels, hle]
  | cons c cs ih =>
    intro h hnot hle
    rw [runCalls_cons]
    cases c with
    | addGroup Group Name =>
      have hne : G ≠ Group := by
        intro e; apply hnot; simp [groupsAdded, e]
      have hnot2 : G ∉ groupsAdded cs := by
        intro hm; apply hnot; simp only [groupsAdded, List.filterMap_cons]; exact List.mem_cons_of_mem _ hm
      have hg := AddGroup_groups_other h Group File Name G hne
      have hi := ih (TDMS_AddGroupToFile h Group File Name).2 hnot2 (by rw [hg]; exact hle)
      simp only [Call.run, okChannels, List.filterMap_cons, okChannel]
      simp only [Call.run, okChannels, hg] at hi
      exact hi
    | addChannel Channel Group Name DataType =>
      have hnot2 : G ∉ groupsAdded cs := by
        intro hm; apply hnot; simp only [groupsAdded, List.filterMap_cons]; exact hm
      by_cases hne : G = Group
      · subst hne
        by_cases hok : dataTypeLength DataType ≠ 0 ∧ (h.groups G).NumOfChannels < 8
        · obtain ⟨hret, hgrp⟩ := (AddChannel_group h Channel G Name DataType).2 hok.1 hok.2
          have hi := ih (TDMS_AddChannelToGroup h Channel G Name DataType).2 hnot2
            (by rw [hgrp]; exact hok.2)
          simp only [Call.run, hret, okChannels, List.filterMap_cons, okChannel, if_true,
            List.length_cons]
          simp only [Call.run, okChannels, hgrp] at hi
          refine ⟨by omega, hi.2.1, ?_⟩
          rw [hi.2.2, range_map_setSlot, List.append_assoc]
          rfl
        · have hbad : dataTypeLength DataType = 0 ∨ 8 ≤ (h.groups G).NumOfChannels := by
            by_cases hw : dataTypeLength DataType = 0
            · exact Or.inl hw
            · exact Or.inr (by
                have : ¬ (h.groups G).NumOfChannels < 8 := fun hlt => hok ⟨hw, hlt⟩
                omega)
          obtain ⟨hret, hgrp⟩ := (AddChannel_group h Channel G Name DataType).1 hbad
          have hi := ih (TDMS_AddChannelToGroup h Channel G Name DataType).2 hnot2
            (by rw [hgrp]; exact hle)
          have hnone : okChannel G (Call.addChannel Channel G Name DataType,
              (TDMS_AddChannelToGroup h Channel G Name DataType).1) = none := by
            cases hr : (TDMS_AddChannelToGroup h Channel G Name DataType).1 with
            | TDMS_OK => exact absurd hr hret
            | TDMS_OUT_OF_CAP => rfl
            | TDMS_WRONG_ARG => rfl
          simp only [Call.run, okChannels, List.filterMap_cons, hnone]
          simp only [Call.run, okChannels, hgrp] at hi
          exact hi
      · have hg := AddChannel_groups_other h Channel Group Name DataType G hne
        have hi := ih (TDMS_AddChannelToGroup h Channel Group Name DataType).2 hnot2
          (by rw [hg]; exact hle)
        have hnone : okChannel G (Call.addChannel Channel Group Name DataType,
            (TDMS_AddChannelToGroup h Channel Group Name DataType).1) = none := by
          have hne2 : ¬ Group = G := fun e => hne e.symm
          cases (TDMS_AddChannelToGroup h Channel Group Name DataType).1 with
          | TDMS_OK => simp only [okChannel, if_neg hne2]
          | TDMS_OUT_OF_CAP => rfl
          | TDMS_WRONG_ARG => rfl
        simp only [Call.run, okChannels, List.filterMap_cons, hnone]
        simp only [Call.run, okChannels, hg] at hi
        exact hi

theorem okGroups_sub (File : Ptr) (G : Ptr) (cs : List Call) :
    ∀ h : Objects, G ∈ okGroups (runCalls File h cs).1 → G ∈ groupsAdded cs := by
  induction cs with
  | nil => intro h hm; simp [runCalls, okGroups] at hm
  | cons c cs ih =>
    intro h hm
    rw [runCalls_cons] at hm
    cases c with
    | addGroup Group Name =>
      simp only [groupsAdded, List.filterMap_cons]
      cases hr : (Call.run File h (Call.addGroup Group Name)).1 with
      | TDMS_OK =>
        simp only [okGroups, List.filterMap_cons, hr, okGroup, List.mem_cons] at hm
        rcases hm with hm | hm
        · exact hm ▸ List.mem_cons_self _ _
        · exact List.mem_cons_of_mem _ (ih _ hm)
      | TDMS_OUT_OF_CAP =>
        simp only [okGroups, List.filterMap_cons, hr, okGroup] at hm
        exact List.mem_cons_of_mem _ (ih _ hm)
      | TDMS_WRONG_ARG =>
        simp only [okGroups, List.filterMap_cons, hr, okGroup] at hm
        exact List.mem_cons_of_mem _ (ih _ hm)
    | addChannel Channel Group Name DataType =>
      simp only [groupsAdded, List.filterMap_cons]
      simp only [okGroups, List.filterMap_cons, okGroup] at hm
      exact ih _ hm

theorem attached_counts (File : Ptr) (G : Ptr) (cs : List Call) :
    ∀ h : Objects, (groupsAdded cs).Nodup → G ∈ okGroups (runCalls File h cs).1 →
      ((runCalls File h cs).2.groups G).NumOfChannels ≤ 8 ∧
      ((runCalls File h cs).2.groups G).NumOfChannels
        = (okChannels G (afterAttached G (runCalls File h cs).1)).length ∧
      (List.range ((runCalls File h cs).2.groups G).NumOfChannels).map
          ((runCalls File h cs).2.groups G).ChannelArray
        = okChannels G (afterAttached G (runCalls File h cs).1) := by
  induction cs with
  | nil => intro h _ hm; simp [runCalls, okGroups] at hm
  | cons c cs ih =>
    intro h hnd hm
    rw [runCalls_cons] at hm ⊢
    cases c with
    | addGroup Group Name =>
      simp only [groupsAdded, List.filterMap_cons, List.nodup_cons] at hnd
      obtain ⟨hfresh, hnd2⟩ := hnd
      by_cases hhead : okGroup (Call.addGroup Group Name,
          (Call.run File h (Call.addGroup Group Name)).1) = some G
      · simp only [afterAttached, if_pos hhead]
        have hGG : Group = G := by
          cases hr : (Call.run File h (Call.addGroup Group Name)).1 with
          | TDMS_OK => rw [hr] at hhead; exact Option.some.inj hhead
          | TDMS_OUT_OF_CAP => rw [hr] at hhead; exact Option.noConfusion hhead
          | TDMS_WRONG_ARG => rw [hr] at hhead; exact Option.noConfusion hhead
        subst hGG
        have hroom : (h.files File).NumOfGroups < 4 := by
          by_contra hfull
          obtain ⟨hret, _⟩ := (AddGroup_file h Group File Name).1 (by omega)
          simp only [Call.run, hret, okGroup] at hhead
          exact Option.noConfusion hhead
        obtain ⟨_, _, hzero⟩ := (AddGroup_file h Group File Name).2 hroom
        have hb := group_counts File Group cs (TDMS_AddGroupToFile h Group File Name).2 hfresh
          (by rw [hzero]; omega)
        rw [hzero] at hb
        simp only [List.range_zero, List.map_nil, List.nil_append, Nat.zero_add] at hb
        exact ⟨hb.2.1, hb.1, hb.2.2⟩
      · simp only [afterAttached, if_neg hhead]
        have hm2 : G ∈ okGroups (runCalls File (Call.run File h (Call.addGroup Group Name)).2 cs).1 := by
          simp only [okGroups, List.filterMap_cons] at hm
          cases hg : okGroup (Call.addGroup Group Name,
              (Call.run File h (Call.addGroup Group Name)).1) with
          | none => rw [hg] at hm; exact hm
          | some G2 =>
            rw [hg] at hm hhead
            simp only [List.mem_cons] at hm
            rcases hm with hm | hm
            · exact absurd (congrArg some hm.symm) hhead
            · exact hm
        exact ih _ hnd2 hm2
    | addChannel Channel Group Name DataType =>
      have hnd2 : (groupsAdded cs).Nodup := by
        simp only [groupsAdded, List.filterMap_cons] at hnd; exact hnd
      have hhead : ¬ okGroup (Call.addChannel Channel Group Name DataType,
          (Call.run File h (Call.addChannel Channel Group Name DataType)).1) = some G := by
        simp only [okGroup]
        exact fun e => Option.noConfusion e
      simp only [afterAttached, if_neg hhead]
      simp only [okGroups, List.filterMap_cons, okGroup] at hm
      exact ih _ hnd2 hm

/-! ## The cached paths and the legacy encoder -/

theorem StrnCpy_fits (Dest Src : List Nat) (DestSize : Nat) (h : Src.length < DestSize)
    (h16 : Src.length < 65536) :
    Legacy.TDMS_StrnCpy Dest Src DestSize = (TDMS_OK, Src) := by
  have e : strlen Src % 65536 = Src.length := Nat.mod_eq_of_lt h16
  simp only [Legacy.TDMS_StrnCpy, e, if_pos h, List.take_length]

theorem StrnCpy_long (Dest Src : List Nat) (DestSize : Nat) (h : DestSize ≤ Src.length)
    (h16 : Src.length < 65536) :
    Legacy.TDMS_StrnCpy Dest Src DestSize = (TDMS_WRONG_ARG, Dest) := by
  have e : strlen Src % 65536 = Src.length := Nat.mod_eq_of_lt h16
  have hn : ¬ Src.length < DestSize := by omega
  simp only [Legacy.TDMS_StrnCpy, e, if_neg hn]

theorem StrnCpy_result (Dest Src : List Nat) (DestSize : Nat) :
    (Legacy.TDMS_StrnCpy Dest Src DestSize).1 = TDMS_OK ∨
    (Legacy.TDMS_StrnCpy Dest Src DestSize).1 = TDMS_WRONG_ARG := by
  unfold Legacy.TDMS_StrnCpy
  simp only
  split_ifs
  · exact Or.inl rfl
  · exact Or.inr rfl

theorem Legacy_AddGroup_files (cfg : Legacy.Config) (h : Legacy.Objects) (File : Ptr)
    (Name Description : List Nat) (Group : Ptr)
    (hret : (Legacy.TDMS_AddGroup cfg h File Name Description Group).1 ≠ TDMS_OK) :
    (Legacy.TDMS_AddGroup cfg h File Name Description Group).2.files = h.files := by
  revert hret
  simp only [Legacy.TDMS_AddGroup]
  split_ifs
  · intro _; rfl
  · intro _; rfl
  · intro _; rfl
  · intro hc; exact absurd rfl hc

theorem Legacy_AddGroup_path (cfg : Legacy.Config) (h : Legacy.Objects) (File : Ptr)
    (Name Description : List Nat) (Group : Ptr)
    (hN : Name.length < TDMS_GROUP_NAME_LEN)
    (hcfg : cfg.TDMS_GROUP_DESCRIPTION_LEN < 65536)
    (hD : Description.length < cfg.TDMS_GROUP_DESCRIPTION_LEN) :
    (Legacy.TDMS_AddGroup cfg h File Name Description Group).1 ≠ TDMS_WRONG_ARG ∧
    ((Legacy.TDMS_AddGroup cfg h File Name Description Group).2.groups Group).GroupName = Name ∧
    ((Legacy.TDMS_AddGroup cfg h File Name Description Group).2.groups Group).GroupPath
      = [0x2F, 0x27] ++ Name ++ [0x27] := by
  have hN2 : Name.length < 65536 := by simp only [TDMS_GROUP_NAME_LEN] at hN; omega
  have e1 := fun Dest => StrnCpy_fits Dest Name TDMS_GROUP_NAME_LEN hN hN2
  have e2 := fun Dest => StrnCpy_fits Dest Description (cfg.TDMS_GROUP_DESCRIPTION_LEN % 65536)
    (by rw [Nat.mod_eq_of_lt hcfg]; exact hD) (by omega)
  simp only [Legacy.TDMS_AddGroup, e1, e2, ne_eq, not_true_eq_false, if_false]
  split_ifs <;>
    simp [Legacy.Objects.setGroup, Legacy.Objects.setFile, Legacy.TDMS_GenerateGroupPath]

theorem onHost_little (beyond : Nat) (data : Mem) (off value : Nat) :
    TDMS_SaveDataLittleEndian32.onHost 0 0 beyond data off value
      = TDMS_SaveDataLittleEndian32 data off value := by
  simp [TDMS_SaveDataLittleEndian32.onHost, TDMS_SaveDataLittleEndian32, U32toU8,
    TDMS_SaveDataLittleEndian32.index, List.range, List.range.loop]

theorem leValue_le32_small (x : Nat) (h : x < 256) : le32 x = [x, 0, 0, 0] ∧ leValue (le32 x) = x := by
  have e : le32 x = [x, 0, 0, 0] := by
    simp only [le32, List.cons.injEq, and_true]
    omega
  rw [e]
  exact ⟨rfl, by simp [leValue]⟩

/-! ## The legacy declaration segment -/

theorem Legacy_lenChannels_eq (m : Nat) (chs : List Legacy.TDMS_Channel_t) :
    Legacy.GenFirstPart.lenChannels (u32 m) chs
      = u32 (m + (chs.map Legacy.channelLen).sum) := by
  induction chs generalizing m with
  | nil => simp [Legacy.GenFirstPart.lenChannels]
  | cons ch rest ih =>
    have e : u32 (u32 (u32 (u32 (u32 (u32 (u32 m + 36) + strlen ch.ChannelPath)
        + strlen Legacy.strDescription) + strlen ch.ChannelDescription)
        + strlen Legacy.strUnit) + strlen ch.ChannelUitString)
        = u32 (m + Legacy.channelLen ch) := by
      simp only [u32, strlen, Legacy.channelLen, Legacy.strDescription, Legacy.strUnit,
        List.length_cons, List.length_nil]
      omega
    have := ih (m + Legacy.channelLen ch)
    simp only [Legacy.GenFirstPart.lenChannels, List.foldl_cons] at this ⊢
    rw [e, this]
    simp only [List.map_cons, List.sum_cons]
    congr 1
    omega

theorem Legacy_lenGroups_eq (m : Nat) (gs : List Legacy.TDMS_Group_t) :
    Legacy.GenFirstPart.lenGroups (u32 m) gs
      = u32 (m + (gs.map Legacy.groupLen).sum) := by
  induction gs generalizing m with
  | nil => simp [Legacy.GenFirstPart.lenGroups]
  | cons g rest ih =>
    have e : Legacy.GenFirstPart.lenChannels (u32 (u32 (u32 (u32 (u32 m + 24) + strlen g.GroupPath)
        + strlen Legacy.strDescription) + strlen g.GroupDescription)) g.ChannelArray
        = u32 (m + Legacy.groupLen g) := by
      rw [Legacy_lenChannels_eq]
      simp only [u32, strlen, Legacy.groupLen, Legacy.strDescription,
        List.length_cons, List.length_nil]
      omega
    have h1 := ih (m + Legacy.groupLen g)
    simp only [Legacy.GenFirstPart.lenGroups, List.foldl_cons] at h1 ⊢
    rw [e, h1]
    simp only [List.map_cons, List.sum_cons]
    congr 1
    omega

theorem Legacy_query (File : Legacy.TDMS_File_t) (Size : Nat) :
    Legacy.TDMS_GenFirstPart File none Size
      = ⟨TDMS_OK, u32 (28 + Legacy.metaLen File), none⟩ := by
  have e : u32 (u32 (u32 (u32 (u32 (u32 (u32 (0 + 53) + strlen Legacy.strDescription)
      + strlen File.FileDescription) + strlen Legacy.strTitle) + strlen File.FileTitle)
      + strlen Legacy.strAuthor) + strlen File.FileAuthor)
      = u32 (53 + 22 + File.FileDescription.length + File.FileTitle.length
          + File.FileAuthor.length) := by
    simp only [u32, strlen, Legacy.strDescription, Legacy.strTitle, Legacy.strAuthor,
      List.length_cons, List.length_nil]
    omega
  simp only [Legacy.TDMS_GenFirstPart, e, Legacy_lenGroups_eq, LeadInPartLen, Nat.add_zero,
    u32_add_right, u32_idem, Legacy.metaLen]


theorem Legacy_stringProperty_length (N V : List Nat) :
    (Legacy.stringProperty N V).length = 4 + N.length + 4 + (4 + V.length) := by
  simp only [Legacy.stringProperty, List.length_append, lenString_length, le32_length]

theorem Legacy_channelRecord_length (ch : Legacy.TDMS_Channel_t) :
    (Legacy.channelRecord ch).length = Legacy.channelLen ch := by
  simp only [Legacy.channelRecord, List.length_append, lenString_length, le32_length,
    Legacy_stringProperty_length, Legacy.channelLen, Legacy.strDescription, Legacy.strUnit,
    List.length_cons, List.length_nil]
  omega

theorem Legacy_channelRecords_length (chs : List Legacy.TDMS_Channel_t) :
    ((chs.map Legacy.channelRecord).flatten).length = (chs.map Legacy.channelLen).sum := by
  induction chs with
  | nil => rfl
  | cons ch rest ih =>
    simp only [List.map_cons, List.flatten_cons, List.length_append, List.sum_cons, ih,
      Legacy_channelRecord_length]

theorem Legacy_groupRecord_length (g : Legacy.TDMS_Group_t) :
    (Legacy.groupRecord g).length = Legacy.groupLen g := by
  simp only [Legacy.groupRecord, List.length_append, lenString_length, le32_length,
    Legacy_stringProperty_length, Legacy.groupLen, Legacy.strDescription,
    Legacy_channelRecords_length, List.length_cons, List.length_nil]
  omega

theorem Legacy_groupRecords_length (gs : List Legacy.TDMS_Group_t) :
    ((gs.map Legacy.groupRecord).flatten).length = (gs.map Legacy.groupLen).sum := by
  induction gs with
  | nil => rfl
  | cons g rest ih =>
    simp only [List.map_cons, List.flatten_cons, List.length_append, List.sum_cons, ih,
      Legacy_groupRecord_length]

theorem Legacy_segmentBytes_length (File : Legacy.TDMS_File_t) :
    (Legacy.segmentBytes File).length = 28 + Legacy.metaLen File := by
  simp only [Legacy.segmentBytes, List.length_append, leadInBytes_length, le32_length,
    Legacy.fileRecord, lenString_length, Legacy_stringProperty_length,
    Legacy_groupRecords_length, Legacy.metaLen, Legacy.strDescription, Legacy.strTitle,
    Legacy.strAuthor, List.length_cons, List.length_nil]
  omega

theorem Legacy_emitPath_holds {c : Cursor} {b0 : Mem} {acc t : List Nat} (path : List Nat)
    (h : c.Holds b0 acc t) (ht : t.length ≤ 4)
    (hlt : acc.length + (4 + path.length) < 4294967296) :
    (Legacy.GenFirstPart.emitPath c path).Holds b0 (acc ++ lenString path) [0] := by
  have h1 := Cursor.save32_holds (u32 (strlen path)) h ht (by omega)
  rw [le32_u32] at h1
  constructor
  · have := Cursor.holds_write (path ++ [0]) h1 (by simp)
    simp only [Legacy.GenFirstPart.emitPath, strcpy, this]
    simp [lenString, strlen]
  · show u32 ((c.save32 (u32 (strlen path))).DataSize + u32 (strlen path)) = _
    rw [h1.2]
    simp only [List.length_append, le32_length, lenString_length, strlen, u32]
    omega

theorem Legacy_emitProperty_holds {c : Cursor} {b0 : Mem} {acc t : List Nat} (N V : List Nat)
    (h : c.Holds b0 acc t) (ht : t.length ≤ 4)
    (hlt : acc.length + (4 + N.length + 4 + (4 + V.length)) < 4294967296) :
    (Legacy.GenFirstPart.emitProperty c N V).Holds b0 (acc ++ Legacy.stringProperty N V) [0] := by
  have h1 := Cursor.saveStr_holds N h ht (by omega)
  have h2 := Cursor.save32_holds Legacy.tdsTypeString h1 (by simp)
    (by simp only [List.length_append, lenString_length]; omega)
  have h3 := Cursor.saveStr_holds V h2 (by simp)
    (by simp only [List.length_append, lenString_length, le32_length]; omega)
  simp only [Legacy.stringProperty, ← List.append_assoc]
  exact h3

theorem Legacy_emitChannels_holds {c : Cursor} {b0 : Mem} {acc : List Nat}
    (chs : List Legacy.TDMS_Channel_t) (h : c.Holds b0 acc [0])
    (hlt : acc.length + (chs.map Legacy.channelLen).sum < 4294967296) :
    (Legacy.GenFirstPart.emitChannels c chs).Holds b0
      (acc ++ (chs.map Legacy.channelRecord).flatten) [0] := by
  induction chs generalizing c acc with
  | nil => simpa [Legacy.GenFirstPart.emitChannels] using h
  | cons ch rest ih =>
    simp only [List.map_cons, List.sum_cons] at hlt
    have hl := Legacy_channelRecord_length ch
    have hcl : Legacy.channelLen ch = 36 + 15 + ch.ChannelPath.length
        + ch.ChannelDescription.length + ch.ChannelUitString.length := rfl
    have hd : Legacy.strDescription.length = 11 := rfl
    have hu : Legacy.strUnit.length = 4 := rfl
    have h1 := Legacy_emitPath_holds ch.ChannelPath h (by simp) (by omega)
    have h2 := Cursor.save32_holds 0xFFFFFFFF h1 (by simp)
      (by simp only [List.length_append, lenString_length]; omega)
    have h3 := Cursor.save32_holds 0x02 h2 (by simp)
      (by simp only [List.length_append, lenString_length, le32_length]; omega)
    have h4 := Legacy_emitProperty_holds Legacy.strDescription ch.ChannelDescription h3 (by simp)
      (by simp only [List.length_append, lenString_length, le32_length, hd]; omega)
    have h5 := Legacy_emitProperty_holds Legacy.strUnit ch.ChannelUitString h4 (by simp)
      (by simp only [List.length_append, lenString_length, le32_length,
            Legacy_stringProperty_length, hd, hu]; omega)
    have e : acc ++ lenString ch.ChannelPath ++ le32 0xFFFFFFFF ++ le32 0x02
        ++ Legacy.stringProperty Legacy.strDescription ch.ChannelDescription
        ++ Legacy.stringProperty Legacy.strUnit ch.ChannelUitString
        = acc ++ Legacy.channelRecord ch := by
      simp only [Legacy.channelRecord, List.append_assoc]
    rw [e] at h5
    have h6 := ih h5 (by simp only [List.length_append, hl]; omega)
    simp only [Legacy.GenFirstPart.emitChannels, List.foldl_cons, List.map_cons,
      List.flatten_cons] at h6 ⊢
    rw [← List.append_assoc]
    exact h6

theorem Legacy_emitGroups_holds {c : Cursor} {b0 : Mem} {acc : List Nat}
    (gs : List Legacy.TDMS_Group_t) (h : c.Holds b0 acc [0])
    (hlt : acc.length + (gs.map Legacy.groupLen).sum < 4294967296) :
    (Legacy.GenFirstPart.emitGroups c gs).Holds b0
      (acc ++ (gs.map Legacy.groupRecord).flatten) [0] := by
  induction gs generalizing c acc with
  | nil => simpa [Legacy.GenFirstPart.emitGroups] using h
  | cons g rest ih =>
    simp only [List.map_cons, List.sum_cons] at hlt
    have hl := Legacy_groupRecord_length g
    have hgl : Legacy.groupLen g = 24 + 11 + g.GroupPath.length + g.GroupDescription.length
        + (g.ChannelArray.map Legacy.channelLen).sum := rfl
    have hd : Legacy.strDescription.length = 11 := rfl
    have h1 := Legacy_emitPath_holds g.GroupPath h (by simp) (by omega)
    have h2 := Cursor.save32_holds 0xFFFFFFFF h1 (by simp)
      (by simp only [List.length_append, lenString_length]; omega)
    have h3 := Cursor.save32_holds 0x01 h2 (by simp)
      (by simp only [List.length_append, lenString_length, le32_length]; omega)
    have h4 := Legacy_emitProperty_holds Legacy.strDescription g.GroupDescription h3 (by simp)
      (by simp only [List.length_append, lenString_length, le32_length, hd]; omega)
    have h5 := Legacy_emitChannels_holds g.ChannelArray h4
      (by simp only [List.length_append, lenString_length, le32_length,
            Legacy_stringProperty_length, hd]; omega)
    have e : acc ++ lenString g.GroupPath ++ le32 0xFFFFFFFF ++ le32 0x01
        ++ Legacy.stringProperty Legacy.strDescription g.GroupDescription
        ++ (g.ChannelArray.map Legacy.channelRecord).flatten
        = acc ++ Legacy.groupRecord g := by
      simp only [Legacy.groupRecord, List.append_assoc]
    rw [e] at h5
    have h6 := ih h5 (by simp only [List.length_append, hl]; omega)
    simp only [Legacy.GenFirstPart.emitGroups, List.foldl_cons, List.map_cons,
      List.flatten_cons] at h6 ⊢
    rw [← List.append_assoc]
    exact h6

theorem Legacy_tnoc_eq (t : Nat) (gs : List Legacy.TDMS_Group_t) :
    gs.foldl (fun tnoc g => u32 (tnoc + g.ChannelArray.length)) (u32 t)
      = u32 (t + (gs.map (fun g => g.ChannelArray.length)).sum) := by
  induction gs generalizing t with
  | nil => simp
  | cons g rest ih =>
    simp only [List.foldl_cons, List.map_cons, List.sum_cons]
    rw [u32_add_left, ih]
    congr 1
    omega

theorem Legacy_emit (File : Legacy.TDMS_File_t) (b0 : Mem) (Size : Nat)
    (hlt : 28 + Legacy.metaLen File < 4294967296) :
    Legacy.TDMS_GenFirstPart File (some b0) Size
      = ⟨TDMS_OK, 28 + Legacy.metaLen File,
          some (writeBytes b0 0 (Legacy.segmentBytes File ++ [0]))⟩ := by
  have hml : Legacy.metaLen File = 53 + 22 + File.FileDescription.length
      + File.FileTitle.length + File.FileAuthor.length
      + (File.GroupArray.map Legacy.groupLen).sum := rfl
  have e : u32 (u32 (u32 (u32 (u32 (u32 (u32 (0 + 53) + strlen Legacy.strDescription)
      + strlen File.FileDescription) + strlen Legacy.strTitle) + strlen File.FileTitle)
      + strlen Legacy.strAuthor) + strlen File.FileAuthor)
      = u32 (53 + 22 + File.FileDescription.length + File.FileTitle.length
          + File.FileAuthor.length) := by
    simp only [u32, strlen, Legacy.strDescription, Legacy.strTitle, Legacy.strAuthor,
      List.length_cons, List.length_nil]
    omega
  have hM : Legacy.GenFirstPart.lenGroups (u32 (53 + 22 + File.FileDescription.length
      + File.FileTitle.length + File.FileAuthor.length)) File.GroupArray
      = Legacy.metaLen File := by
    rw [Legacy_lenGroups_eq, ← hml, u32_of_lt (by omega)]
  have hnoo : le32 (u32 (u32 (File.GroupArray.length
      + File.GroupArray.foldl (fun tnoc g => u32 (tnoc + g.ChannelArray.length)) 0) + 1))
      = le32 (Legacy.numObjects File) := by
    have := Legacy_tnoc_eq 0 File.GroupArray
    rw [show u32 0 = 0 from rfl, Nat.zero_add] at this
    rw [this, Legacy.numObjects, ← le32_u32 (_ + _ + 1)]
    congr 1
    simp only [u32]; omega
  have hd : Legacy.strDescription.length = 11 := rfl
  have ht : Legacy.strTitle.length = 5 := rfl
  have ha : Legacy.strAuthor.length = 6 := rfl
  have h0 := Cursor.leadIn_holds b0 (kTocMetaData ||| kTocNewObjList)
    (Legacy.metaLen File) (Legacy.metaLen File)
  have hToC : (kTocMetaData ||| kTocNewObjList) &&& 0xEE = 0x06 := by decide
  rw [hToC] at h0
  have h1 := Cursor.save32_holds (u32 (u32 (File.GroupArray.length
      + File.GroupArray.foldl (fun tnoc g => u32 (tnoc + g.ChannelArray.length)) 0) + 1)) h0
      (by simp) (by simp [leadInBytes_length])
  rw [hnoo] at h1
  have h2 := Cursor.saveStr_holds [0x2F] h1 (by simp)
    (by simp [leadInBytes_length, le32_length])
  have h3 := Cursor.save32_holds 0xFFFFFFFF h2 (by simp)
    (by simp [leadInBytes_length, le32_length, lenString_length])
  have h4 := Cursor.save32_holds 0x03 h3 (by simp)
    (by simp [leadInBytes_length, le32_length, lenString_length])
  have h5 := Legacy_emitProperty_holds Legacy.strDescription File.FileDescription h4 (by simp)
    (by simp only [List.length_append, leadInBytes_length, le32_length, lenString_length,
          List.length_cons, List.length_nil, hd]; omega)
  have h6 := Legacy_emitProperty_holds Legacy.strTitle File.FileTitle h5 (by simp)
    (by simp only [List.length_append, leadInBytes_length, le32_length, lenString_length,
          Legacy_stringProperty_length, List.length_cons, List.length_nil, hd, ht]; omega)
  have h7 := Legacy_emitProperty_holds Legacy.strAuthor File.FileAuthor h6 (by simp)
    (by simp only [List.length_append, leadInBytes_length, le32_length, lenString_length,
          Legacy_stringProperty_length, List.length_cons, List.length_nil, hd, ht, ha]; omega)
  have h8 := Legacy_emitGroups_holds File.GroupArray h7
    (by simp only [List.length_append, leadInBytes_length, le32_length, lenString_length,
          Legacy_stringProperty_length, List.length_cons, List.length_nil, hd, ht, ha]; omega)
  have hbytes : leadInBytes 0x06 (Legacy.metaLen File) (Legacy.metaLen File)
        ++ le32 (Legacy.numObjects File) ++ lenString [0x2F] ++ le32 0xFFFFFFFF ++ le32 0x03
        ++ Legacy.stringProperty Legacy.strDescription File.FileDescription
        ++ Legacy.stringProperty Legacy.strTitle File.FileTitle
        ++ Legacy.stringProperty Legacy.strAuthor File.FileAuthor
        ++ (File.GroupArray.map Legacy.groupRecord).flatten
      = Legacy.segmentBytes File := by
    simp only [Legacy.segmentBytes, Legacy.fileRecord, List.append_assoc]
  rw [hbytes] at h8
  simp only [Legacy.TDMS_GenFirstPart, e, hM, Nat.add_zero,
    u32_of_lt (show Legacy.metaLen File < 4294967296 by omega)]
  rw [h8.2, Legacy_segmentBytes_length, h8.1]

theorem Legacy_metaLen_le (File : Legacy.TDMS_File_t) (h : File.WellFormed) :
    28 + Legacy.metaLen File < 8000000 := by
  obtain ⟨h1, h2, h3, h4, h5⟩ := h
  have hch : ∀ chs : List Legacy.TDMS_Channel_t, (∀ ch ∈ chs, ch.WellFormed) →
      (chs.map Legacy.channelLen).sum ≤ chs.length * 196656 := by
    intro chs
    induction chs with
    | nil => intro _; simp
    | cons ch rest ih =>
      intro hw
      obtain ⟨a, b, c⟩ := hw ch (List.mem_cons_self _ _)
      have := ih (fun q hq => hw q (List.mem_cons_of_mem _ hq))
      simp only [List.map_cons, List.sum_cons, List.length_cons, Nat.add_mul, Nat.one_mul,
        Legacy.channelLen]
      omega
  have hg : ∀ gs : List Legacy.TDMS_Group_t, (∀ g ∈ gs, g.WellFormed) →
      (gs.map Legacy.groupLen).sum ≤ gs.length * 1704353 := by
    intro gs
    induction gs with
    | nil => intro _; simp
    | cons g rest ih =>
      intro hw
      obtain ⟨a, b, c, d⟩ := hw g (List.mem_cons_self _ _)
      have := ih (fun q hq => hw q (List.mem_cons_of_mem _ hq))
      have hc := hch g.ChannelArray d
      simp only [Legacy.TDMS_MAX_CHANNEL_OF_GROUP] at c
      simp only [List.map_cons, List.sum_cons, List.length_cons, Nat.add_mul, Nat.one_mul,
        Legacy.groupLen]
      omega
  have := hg File.GroupArray h5
  simp only [Legacy.TDMS_MAX_GROUP_OF_FILE] at h4
  simp only [Legacy.metaLen]
  omega

/-! ## Zero counts and normalised values -/

theorem zip_included (chs : List (TDMS_Channel_t × Mem × Nat)) :
    ((included chs).map (fun x => x.1)).zip ((included chs).map (fun x => x.2)) = included chs := by
  induction included chs with
  | nil => rfl
  | cons x xs ih => simp only [List.map_cons, List.zip_cons_cons, ih]

theorem countObjects_included (chs : List (TDMS_Channel_t × Mem × Nat)) :
    SetGroupDataValues.countObjects (included chs) = SetGroupDataValues.countObjects chs := by
  have key : ∀ (l : List (TDMS_Channel_t × Mem × Nat)) (k : Nat),
      (included l).foldl (fun NumberOfObjects x =>
          if x.2.2 ≠ 0 then u32 (NumberOfObjects + 1) else NumberOfObjects) k
        = l.foldl (fun NumberOfObjects x =>
          if x.2.2 ≠ 0 then u32 (NumberOfObjects + 1) else NumberOfObjects) k := by
    intro l
    induction l with
    | nil => intro k; rfl
    | cons x xs ih =>
      intro k
      by_cases h : x.2.2 ≠ 0
      · rw [included_cons_pos x xs h, List.foldl_cons, List.foldl_cons, ih]
      · rw [included_cons_zero x xs (by simpa using h), List.foldl_cons, if_neg h, ih]
  exact key chs 0

theorem lenLoop_included (chs : List (TDMS_Channel_t × Mem × Nat)) :
    ∀ (R M : Nat), R < 4294967296 →
      SetGroupDataValues.lenLoop (included chs) (R, M) = SetGroupDataValues.lenLoop chs (R, M) := by
  induction chs with
  | nil => intro R M _; rfl
  | cons x xs ih =>
    intro R M hR
    obtain ⟨ch, v, n⟩ := x
    by_cases h : n ≠ 0
    · rw [included_cons_pos _ xs h]
      simp only [SetGroupDataValues.lenLoop, if_pos h]
      split_ifs
      · rfl
      · exact ih _ _ (u32_lt _)
      · exact ih _ _ (u32_lt _)
    · rw [included_cons_zero _ xs (by simpa using h)]
      simp only [SetGroupDataValues.lenLoop, if_neg h, Nat.add_zero, u32_of_lt hR]
      exact ih R M hR

theorem emitMeta_included (chs : List (TDMS_Channel_t × Mem × Nat)) :
    ∀ c : Cursor, SetGroupDataValues.emitMeta c (included chs)
      = SetGroupDataValues.emitMeta c chs := by
  induction chs with
  | nil => intro c; rfl
  | cons x xs ih =>
    intro c
    by_cases h : x.2.2 ≠ 0
    · rw [included_cons_pos x xs h]
      simp only [SetGroupDataValues.emitMeta, List.foldl_cons] at ih ⊢
      exact ih _
    · rw [included_cons_zero x xs (by simpa using h)]
      simp only [SetGroupDataValues.emitMeta, List.foldl_cons, if_neg h] at ih ⊢
      exact ih _

theorem emitRaw_included (chs : List (TDMS_Channel_t × Mem × Nat)) :
    ∀ c : Cursor, SetGroupDataValues.emitRaw c (included chs)
      = SetGroupDataValues.emitRaw c chs := by
  induction chs with
  | nil => intro c; rfl
  | cons x xs ih =>
    intro c
    by_cases h : x.2.2 ≠ 0
    · rw [included_cons_pos x xs h]
      simp only [SetGroupDataValues.emitRaw, List.foldl_cons] at ih ⊢
      exact ih _
    · rw [included_cons_zero x xs (by simpa using h)]
      simp only [SetGroupDataValues.emitRaw, List.foldl_cons, if_neg h] at ih ⊢
      exact ih _

theorem boolNorm_idem (n : Nat) (Values : Mem) :
    boolNorm n (boolNorm n Values) = boolNorm n Values := by
  funext k
  simp only [boolNorm]
  split_ifs <;> simp_all

theorem groupMetaSize_le (chs : List (TDMS_Channel_t × Mem × Nat))
    (h : ∀ x ∈ chs, x.1.WellFormed) : groupMetaSize chs ≤ chs.length * 93 := by
  induction chs with
  | nil => simp [groupMetaSize, included]
  | cons x rest ih =>
    have h1 := channel_path_le x.1 (h x (List.mem_cons_self _ _))
    have h2 := ih (fun y hy => h y (List.mem_cons_of_mem _ hy))
    by_cases hz : x.2.2 = 0
    · simp only [groupMetaSize, included_cons_zero x rest hz, List.length_cons] at h2 ⊢
      omega
    · simp only [groupMetaSize, included_cons_pos x rest hz, List.map_cons, List.sum_cons,
        List.length_cons] at h2 ⊢
      omega

/-! ## Order of civil instants -/

theorem daysOfFullMonths_succ (Y M : Nat) (hM : 1 ≤ M) :
    daysOfFullMonths Y (M + 1) = daysOfFullMonths Y M + daysOfMonth Y M := by
  obtain ⟨k, rfl⟩ : ∃ k, M = k + 1 := ⟨M - 1, by omega⟩
  simp only [daysOfFullMonths, Nat.add_sub_cancel]
  rw [List.range_succ, List.map_append, List.sum_append]
  simp only [List.map_cons, List.map_nil, List.sum_cons, List.sum_nil, Nat.add_zero]
  rw [Nat.add_comm 1 k]

theorem daysOfFullMonths_mono (Y M N : Nat) (hM : 1 ≤ M) (h : M ≤ N) :
    daysOfFullMonths Y M ≤ daysOfFullMonths Y N := by
  induction N with
  | zero => omega
  | succ N ih =>
    by_cases e : M = N + 1
    · rw [e]
    · have := ih (by omega)
      rw [daysOfFullMonths_succ Y N (by omega)]
      omega

theorem daysOfFullYears_succ (Y : Nat) (hY : 1904 ≤ Y) :
    daysOfFullYears (Y + 1) = daysOfFullYears Y + daysOfYear Y := by
  have e : Y + 1 - 1904 = (Y - 1904) + 1 := by omega
  simp only [daysOfFullYears, e]
  rw [List.range_succ, List.map_append, List.sum_append]
  simp only [List.map_cons, List.map_nil, List.sum_cons, List.sum_nil, Nat.add_zero]
  rw [show 1904 + (Y - 1904) = Y by omega]

theorem daysOfFullYears_mono (Y Z : Nat) (hY : 1904 ≤ Y) (h : Y ≤ Z) :
    daysOfFullYears Y ≤ daysOfFullYears Z := by
  induction Z with
  | zero => omega
  | succ Z ih =>
    by_cases e : Y = Z + 1
    · rw [e]
    · have := ih (by omega)
      rw [daysOfFullYears_succ Z (by omega)]
      omega

theorem civilSeconds_lt (Y1 M1 D1 h1 m1 s1 Y2 M2 D2 h2 m2 s2 : Nat)
    (ha : validCivil Y1 M1 D1 h1 m1 s1) (hb : validCivil Y2 M2 D2 h2 m2 s2)
    (hlt : civilEarlier Y1 M1 D1 h1 m1 s1 Y2 M2 D2 h2 m2 s2) :
    civilSeconds Y1 M1 D1 h1 m1 s1 < civilSeconds Y2 M2 D2 h2 m2 s2 := by
  obtain ⟨a1, a2, a3, a4, a5, a6, a7, a8⟩ := ha
  obtain ⟨b1, b2, b3, b4, b5, b6, b7, b8⟩ := hb
  have hmA := daysOfFullMonths_succ Y1 M1 a2
  have hyA := daysOfFullYears_succ Y1 a1
  have h13 := daysOfFullMonths_mono Y1 (M1 + 1) 13 (by omega) (by omega)
  rw [daysOfFullMonths_13] at h13
  simp only [civilSeconds]
  rcases hlt with h | ⟨rfl, h⟩
  · have := daysOfFullYears_mono (Y1 + 1) Y2 (by omega) (by omega)
    omega
  · rcases h with h | ⟨rfl, h⟩
    · have := daysOfFullMonths_mono Y1 (M1 + 1) M2 (by omega) (by omega)
      omega
    · omega

/-! ## Properties of the specification -/

/-- C1: for every well-formed file (at most 4 groups, at most 8 channels per
group, cached paths within their arrays) `TDMS_GenFirstPart` returns `TDMS_OK`
with a NULL buffer and with a non-NULL buffer, both calls report the same
`Size`, which is 28 + 4 + the sum over all objects of 4 + len(path) + 4 + 4,
and the emit call writes exactly the bytes at the indices below that value. -/
theorem C1_GenFirstPart_size (File : TDMS_File_t) (hwf : File.WellFormed) (b0 : Mem)
    (Size : Nat) :
    TDMS_GenFirstPart File none Size
        = ⟨TDMS_OK, 28 + 4 + recordsSize (objectPaths File), none⟩ ∧
    ∃ seg : List Nat, seg.length = 28 + 4 + recordsSize (objectPaths File) ∧
      TDMS_GenFirstPart File (some b0) Size
        = ⟨TDMS_OK, 28 + 4 + recordsSize (objectPaths File), some (writeBytes b0 0 seg)⟩ := by
  have hle := wellFormed_size_le File hwf
  constructor
  · rw [GenFirstPart_query, u32_of_lt (by omega)]
  · refine ⟨firstPartBytes File, ?_, GenFirstPart_emit File b0 Size (by omega)⟩
    simp only [firstPartBytes, List.length_append, leadInBytes_length, le32_length,
      objectRecords_length]

/-- Witness of C1: the file with one group `G` holding one U8 channel `C`. -/
theorem C1_GenFirstPart_size_witness :
    TDMS_GenFirstPart exampleFile none 0
        = ⟨TDMS_OK, 28 + 4 + recordsSize (objectPaths exampleFile), none⟩ ∧
    ∃ seg : List Nat, seg.length = 28 + 4 + recordsSize (objectPaths exampleFile) ∧
      TDMS_GenFirstPart exampleFile (some (fun _ => 0)) 0
        = ⟨TDMS_OK, 28 + 4 + recordsSize (objectPaths exampleFile),
            some (writeBytes (fun _ => 0) 0 seg)⟩ :=
  C1_GenFirstPart_size exampleFile (by decide) (fun _ => 0) 0

/-- C2 (as amended): for every channel with a well-formed path whose type has
nonzero fixed width, and every count n > 0 with n * width < 2^32 (n < 65536 on
a Boolean channel, with fuel for the normalisation loop),
`TDMS_SetChannelDataValues` returns `TDMS_OK` and reports the same `Size` in
size-query mode and in emit mode, namely 28 + 32 + len(path) + n * width
reduced modulo 2^32, and the emit call writes exactly the
28 + 32 + len(path) + n * width bytes of the segment. -/
theorem C2_channel_size (fuel : Nat) (ch : TDMS_Channel_t) (b0 : Mem) (Size : Nat) (Values : Mem)
    (n : Nat) (hwf : ch.WellFormed) (hw : dataTypeLength ch.ChannelDataType ≠ 0) (hn : 0 < n)
    (hlt : n * dataTypeLength ch.ChannelDataType < 4294967296)
    (hterm : ch.ChannelDataType = TDMS_DataType_Boolean → n < 65536 ∧ n < fuel) :
    ∃ seg : List Nat,
      seg.length = 28 + 32 + ch.ChannelPath.length + n * dataTypeLength ch.ChannelDataType ∧
      TDMS_SetChannelDataValues fuel ch none Size Values n
        = some ⟨TDMS_OK,
            u32 (28 + 32 + ch.ChannelPath.length + n * dataTypeLength ch.ChannelDataType),
            none, valuesAfter ch.ChannelDataType n Values⟩ ∧
      TDMS_SetChannelDataValues fuel ch (some b0) Size Values n
        = some ⟨TDMS_OK,
            u32 (28 + 32 + ch.ChannelPath.length + n * dataTypeLength ch.ChannelDataType),
            some (writeBytes b0 0 seg), valuesAfter ch.ChannelDataType n Values⟩ := by
  have hlen := channel_path_le ch hwf
  have hlt2 : dataTypeLength ch.ChannelDataType * n < 4294967296 := by
    rw [Nat.mul_comm]; exact hlt
  have hpos : 0 < dataTypeLength ch.ChannelDataType * n :=
    Nat.mul_pos (Nat.pos_of_ne_zero hw) hn
  have hRe : u32 (dataTypeLength ch.ChannelDataType * n) = dataTypeLength ch.ChannelDataType * n :=
    u32_of_lt hlt2
  have hR : u32 (dataTypeLength ch.ChannelDataType * n) ≠ 0 := by rw [hRe]; omega
  have hn2 : n < 4294967296 := by
    have : n ≤ dataTypeLength ch.ChannelDataType * n :=
      Nat.le_mul_of_pos_left n (Nat.pos_of_ne_zero hw)
    omega
  refine ⟨leadInBytes 0x0E
      (u32 (32 + ch.ChannelPath.length + dataTypeLength ch.ChannelDataType * n))
      (32 + ch.ChannelPath.length) ++ le32 1 ++ channelHeader ch n
      ++ memDump (valuesAfter ch.ChannelDataType n Values)
          (dataTypeLength ch.ChannelDataType * n), ?_, ?_, ?_⟩
  · simp only [List.length_append, leadInBytes_length, le32_length, channelHeader_length,
      memDump_length]
    rw [Nat.mul_comm n]
    omega
  · rw [SetChannel_query fuel ch Size Values n hR hterm, Nat.mul_comm n]
  · rw [SetChannel_emit fuel ch b0 Size Values n hR hn2 (by omega) hterm, hRe, Nat.mul_comm n]

/-- Witness of C2: three values on the U8 channel `/'G'/'C'`. -/
theorem C2_channel_size_witness :
    ∃ seg : List Nat,
      seg.length = 28 + 32 + exampleChannel.ChannelPath.length
        + 3 * dataTypeLength exampleChannel.ChannelDataType ∧
      TDMS_SetChannelDataValues 0 exampleChannel none 0 (fun _ => 7) 3
        = some ⟨TDMS_OK, u32 (28 + 32 + exampleChannel.ChannelPath.length
            + 3 * dataTypeLength exampleChannel.ChannelDataType),
            none, valuesAfter exampleChannel.ChannelDataType 3 (fun _ => 7)⟩ ∧
      TDMS_SetChannelDataValues 0 exampleChannel (some (fun _ => 0)) 0 (fun _ => 7) 3
        = some ⟨TDMS_OK, u32 (28 + 32 + exampleChannel.ChannelPath.length
            + 3 * dataTypeLength exampleChannel.ChannelDataType),
            some (writeBytes (fun _ => 0) 0 seg),
            valuesAfter exampleChannel.ChannelDataType 3 (fun _ => 7)⟩ :=
  C2_channel_size 0 exampleChannel (fun _ => 0) 0 (fun _ => 7) 3 (by decide) (by decide)
    (by decide) (by decide) (by decide)

/-- Counterexample to C2 as stated: on the U8 channel `/'G'/'C'` the count
n = 2^32 - 1 satisfies n > 0 and n * width < 2^32, yet the size query reports
67, not 28 + 32 + 8 + n. -/
theorem C2_counterexample :
    dataTypeLength exampleChannel.ChannelDataType ≠ 0 ∧ 0 < 4294967295 ∧
    4294967295 * dataTypeLength exampleChannel.ChannelDataType < 4294967296 ∧
    (TDMS_SetChannelDataValues 0 exampleChannel none 0 (fun _ => 0) 4294967295).map
        (fun o => (o.ret, o.Size)) = some (TDMS_OK, 67) ∧
    67 ≠ 28 + 32 + exampleChannel.ChannelPath.length
      + 4294967295 * dataTypeLength exampleChannel.ChannelDataType := by
  refine ⟨by decide, by decide, by decide, ?_, by decide⟩
  rw [SetChannel_query 0 exampleChannel 0 (fun _ => 0) 4294967295 (by decide) (by decide)]
  decide

/-- C3 (as amended): for every group of at most 8 channels and every list of
per-channel (values, count) pairs, `TDMS_SetGroupDataValues` returns the same
result code and reports the same `Size` with a NULL buffer as with a non-NULL
buffer; when it returns `TDMS_OK` with at least one nonzero count, that `Size`
is 28 + 4 + the sum over the channels with nonzero count of
28 + len(path_i) + count_i * width_i, reduced modulo 2^32. -/
theorem C3_group_size (Group : TDMS_Group_t) (b0 : Mem) (Size : Nat) (args : List (Mem × Nat))
    (hcap : Group.ChannelArray.length ≤ TDMS_CONFIG_MAX_CHANNEL_OF_GROUP)
    (_hargs : args.length = Group.ChannelArray.length) :
    (TDMS_SetGroupDataValues Group (some b0) Size args).ret
        = (TDMS_SetGroupDataValues Group none Size args).ret ∧
    (TDMS_SetGroupDataValues Group (some b0) Size args).Size
        = (TDMS_SetGroupDataValues Group none Size args).Size ∧
    ((TDMS_SetGroupDataValues Group none Size args).ret = TDMS_OK →
      included (Group.ChannelArray.zip args) ≠ [] →
      (TDMS_SetGroupDataValues Group none Size args).Size
        = u32 (groupSize (Group.ChannelArray.zip args))) := by
  have hcap2 : Group.ChannelArray.length < 4294967296 := by
    simp only [TDMS_CONFIG_MAX_CHANNEL_OF_GROUP] at hcap; omega
  by_cases hinc : included (Group.ChannelArray.zip args) = []
  · rw [Group_empty Group (some b0) Size args hcap2 hinc,
      Group_empty Group none Size args hcap2 hinc]
    exact ⟨rfl, rfl, fun _ h => absurd hinc h⟩
  · by_cases hok : rawLenOK (Group.ChannelArray.zip args)
    · obtain ⟨h1, h2, _⟩ := Group_emit_size Group b0 Size args hcap2 hinc hok
      rw [h1, h2, Group_query Group Size args hcap2 hinc hok, groupSize_eq]
      exact ⟨rfl, rfl, fun _ _ => rfl⟩
    · rw [Group_reject Group (some b0) Size args hcap2 hinc hok,
        Group_reject Group none Size args hcap2 hinc hok]
      exact ⟨rfl, rfl, fun h _ => nomatch h⟩

/-- Witness of C3: the group `G` with its U8 channel and three values. -/
theorem C3_group_size_witness :
    (TDMS_SetGroupDataValues exampleGroup none 0 [(fun _ => 7, 3)]).ret = TDMS_OK ∧
    included (exampleGroup.ChannelArray.zip [((fun _ => 7 : Mem), 3)]) ≠ [] ∧
    (TDMS_SetGroupDataValues exampleGroup (some (fun _ => 0)) 0 [(fun _ => 7, 3)]).Size
      = (TDMS_SetGroupDataValues exampleGroup none 0 [(fun _ => 7, 3)]).Size ∧
    (TDMS_SetGroupDataValues exampleGroup none 0 [(fun _ => 7, 3)]).Size = 71 :=
  have h := C3_group_size exampleGroup (fun _ => 0) 0 [(fun _ => 7, 3)] (by decide) (by decide)
  have hne : included (exampleGroup.ChannelArray.zip [((fun _ => 7 : Mem), 3)]) ≠ [] := by
    simp [included, exampleGroup]
  ⟨by decide, hne, h.2.1, (h.2.2 (by decide) hne).trans (by decide)⟩

/-- Counterexample to C3 as stated: for the group `G` with its U8 channel and
the count 2^32 - 1 the call returns `TDMS_OK` with a nonzero count and reports
67, not 28 + 4 + (28 + 8 + (2^32 - 1)). -/
theorem C3_counterexample :
    (TDMS_SetGroupDataValues exampleGroup none 0 [(fun _ => 0, 4294967295)]).ret = TDMS_OK ∧
    (TDMS_SetGroupDataValues exampleGroup none 0 [(fun _ => 0, 4294967295)]).Size = 67 ∧
    groupSize (exampleGroup.ChannelArray.zip [((fun _ => 0 : Mem), 4294967295)]) = 4294967363 := by
  decide

/-- C4 (as amended): for every object path, property name, accepted data type
and value, the property builder returns `TDMS_OK` and reports the same `Size`
in size-query mode and in emit mode, namely 28 + 24 + len(path) + len(name) +
(4 + len(value) for String, the fixed width otherwise) reduced modulo 2^32;
the file property `Author` = String `X` gives 64. -/
theorem C4_property_size (Path : List Nat) (b0 : Mem) (Size : Nat) (Name : List Nat)
    (DataType : TDMS_Data_t) (Value : List Nat) (hacc : acceptedProperty DataType) :
    TDMS_AddPropertyToObject Path none Size Name DataType Value
        = ⟨TDMS_OK, u32 (propertySize Path Name DataType Value), none⟩ ∧
    (TDMS_AddPropertyToObject Path (some b0) Size Name DataType Value).ret = TDMS_OK ∧
    (TDMS_AddPropertyToObject Path (some b0) Size Name DataType Value).Size
        = u32 (propertySize Path Name DataType Value) ∧
    (TDMS_AddPropertyToFile none Size nameAuthor TDMS_DataType_String valueX).Size = 64 ∧
    (TDMS_AddPropertyToFile (some b0) Size nameAuthor TDMS_DataType_String valueX).Size = 64 := by
  obtain ⟨h1, h2, _⟩ := AddProperty_emit_size Path b0 Size Name DataType Value hacc
  refine ⟨AddProperty_query Path Size Name DataType Value hacc, h1, h2, ?_, ?_⟩
  · rw [TDMS_AddPropertyToFile, AddProperty_query _ _ _ _ _ (by decide)]
    decide
  · rw [TDMS_AddPropertyToFile,
      (AddProperty_emit_size _ b0 Size nameAuthor TDMS_DataType_String valueX (by decide)).2.1]
    decide

/-- Witness of C4: the group property `Author` = String `X` on group `G`. -/
theorem C4_property_size_witness :
    TDMS_AddPropertyToObject pathG none 0 nameAuthor TDMS_DataType_String valueX
        = ⟨TDMS_OK, u32 (propertySize pathG nameAuthor TDMS_DataType_String valueX), none⟩ ∧
    (TDMS_AddPropertyToObject pathG (some (fun _ => 0)) 0 nameAuthor TDMS_DataType_String
        valueX).ret = TDMS_OK ∧
    (TDMS_AddPropertyToObject pathG (some (fun _ => 0)) 0 nameAuthor TDMS_DataType_String
        valueX).Size = u32 (propertySize pathG nameAuthor TDMS_DataType_String valueX) ∧
    (TDMS_AddPropertyToFile none 0 nameAuthor TDMS_DataType_String valueX).Size = 64 ∧
    (TDMS_AddPropertyToFile (some (fun _ => 0)) 0 nameAuthor TDMS_DataType_String valueX).Size
        = 64 :=
  C4_property_size pathG (fun _ => 0) 0 nameAuthor TDMS_DataType_String valueX (by decide)

theorem property_wraps (Value : List Nat) (h : Value.length = 4294967240) :
    (TDMS_AddPropertyToFile none 0 [0x41] TDMS_DataType_String Value).Size = 2 ∧
    propertySize [0x2F] [0x41] TDMS_DataType_String Value = 4294967298 := by
  have hp : propertySize [0x2F] [0x41] TDMS_DataType_String Value = 4294967298 := by
    simp only [propertySize, propertyValueSize, if_true, h, List.length_cons, List.length_nil]
  refine ⟨?_, hp⟩
  rw [TDMS_AddPropertyToFile, AddProperty_query _ _ _ _ _ (by decide), hp]
  decide

/-- Counterexample to C4 as stated: for the file property `A` whose String
value has 4294967240 bytes the size query reports 2, not
28 + 24 + 1 + 1 + 4 + 4294967240. -/
theorem C4_counterexample :
    (TDMS_AddPropertyToFile none 0 [0x41] TDMS_DataType_String
        (List.replicate 4294967240 0x58)).Size = 2 ∧
    propertySize [0x2F] [0x41] TDMS_DataType_String (List.replicate 4294967240 0x58)
        = 4294967298 :=
  property_wraps (List.replicate 4294967240 0x58) (List.length_replicate _ _)

/-- C5 (code evaluated at the failing input): emitting the file property
`Author` = String `X` into a buffer filled with 0xAA reports `Size` 64 and
stores the string terminator 0 at index 64, one past the reported size. -/
theorem C5_string_property_writes_at_size :
    (TDMS_AddPropertyToFile (some (fun _ => 0xAA)) 0 nameAuthor TDMS_DataType_String valueX).Size
      = 64 ∧
    (TDMS_AddPropertyToFile (some (fun _ => 0xAA)) 0 nameAuthor TDMS_DataType_String
      valueX).Buffer.map (fun b => (b 63, b 64, b 65)) = some (0x58, 0, 0xAA) := by
  decide

/-- C6 (as amended): in every segment emitted by any of the four builders
whose size fits in 32 bits, the little-endian u64 at bytes [12..20) plus 28 is
the total number of bytes of the segment (the reported `Size`), and the
little-endian u64 at bytes [20..28) is the number of metadata bytes (the total
minus the lead-in and the raw data); for `TDMS_GenFirstPart` and the property
builder, which emit no raw data, the two fields are equal. -/
theorem C6_leadIn_offsets (b0 : Mem) (Size : Nat)
    (File : TDMS_File_t) (hwf : File.WellFormed)
    (Path Name : List Nat) (DataType : TDMS_Data_t) (Value : List Nat)
    (hacc : acceptedProperty DataType)
    (hprop : propertySize Path Name DataType Value < 4294967296)
    (fuel : Nat) (ch : TDMS_Channel_t) (Values : Mem) (n : Nat)
    (hw : dataTypeLength ch.ChannelDataType ≠ 0) (hn : 0 < n)
    (hch : 28 + 32 + ch.ChannelPath.length + dataTypeLength ch.ChannelDataType * n < 4294967296)
    (hterm : ch.ChannelDataType = TDMS_DataType_Boolean → n < 65536 ∧ n < fuel)
    (Group : TDMS_Group_t) (args : List (Mem × Nat))
    (hcap : Group.ChannelArray.length ≤ TDMS_CONFIG_MAX_CHANNEL_OF_GROUP)
    (_hargs : args.length = Group.ChannelArray.length)
    (hne : included (Group.ChannelArray.zip args) ≠ [])
    (hgw : ∀ x ∈ Group.ChannelArray.zip args, x.2.2 ≠ 0 →
      dataTypeLength x.1.ChannelDataType ≠ 0)
    (hgfit : groupSize (Group.ChannelArray.zip args) < 4294967296) :
    (∃ k b, TDMS_GenFirstPart File (some b0) Size = ⟨TDMS_OK, k, some b⟩ ∧
      field64 b 12 + 28 = k ∧ field64 b 20 + 28 = k ∧ field64 b 12 = field64 b 20) ∧
    (∃ k b, TDMS_AddPropertyToObject Path (some b0) Size Name DataType Value
        = ⟨TDMS_OK, k, some b⟩ ∧
      field64 b 12 + 28 = k ∧ field64 b 20 + 28 = k ∧ field64 b 12 = field64 b 20) ∧
    (∃ k b V, TDMS_SetChannelDataValues fuel ch (some b0) Size Values n
        = some ⟨TDMS_OK, k, some b, V⟩ ∧
      field64 b 12 + 28 = k ∧
      field64 b 20 + 28 + n * dataTypeLength ch.ChannelDataType = k) ∧
    (∃ k b, TDMS_SetGroupDataValues Group (some b0) Size args = ⟨TDMS_OK, k, some b⟩ ∧
      field64 b 12 + 28 = k ∧
      field64 b 20 + 28 + groupRawSize (Group.ChannelArray.zip args) = k) := by
  have hcap2 : Group.ChannelArray.length < 4294967296 := by
    simp only [TDMS_CONFIG_MAX_CHANNEL_OF_GROUP] at hcap; omega
  have hfile := wellFormed_size_le File hwf
  refine ⟨?_, ?_, ?_, ?_⟩
  · refine ⟨_, _, GenFirstPart_emit File b0 Size (by omega), ?_⟩
    simp only [firstPartBytes, List.append_assoc]
    rw [field64_next _ _ _ _ _ (by omega), field64_raw _ _ _ _ _ (by omega)]
    omega
  · refine ⟨_, _, AddProperty_emit Path b0 Size Name DataType Value hacc hprop, ?_⟩
    have h28 : 28 ≤ propertySize Path Name DataType Value := by
      simp only [propertySize]; omega
    simp only [propertyBytes, List.append_assoc]
    rw [field64_next _ _ _ _ _ (by omega), field64_raw _ _ _ _ _ (by omega)]
    omega
  · refine ⟨_, _, _, SetChannel_emit_fits fuel ch b0 Size Values n hw hn hch hterm, ?_⟩
    simp only [channelDataBytes, List.append_assoc, memDump_length]
    rw [field64_next _ _ _ _ _ (by omega), field64_raw _ _ _ _ _ (by omega), Nat.mul_comm n]
    omega
  · refine ⟨_, _, Group_emit_fits Group b0 Size args hcap2 hne hgw hgfit, ?_⟩
    have hsz := groupSize_eq (Group.ChannelArray.zip args)
    simp only [groupDataBytes, List.append_assoc]
    rw [field64_next _ _ _ _ _ (by omega), field64_raw _ _ _ _ _ (by omega)]
    omega

/-- Witness of C6: the file, group and channel of the example, the property
`Author` = `X` and three values. -/
theorem C6_leadIn_offsets_witness :
    (∃ k b, TDMS_GenFirstPart exampleFile (some (fun _ => 0)) 0 = ⟨TDMS_OK, k, some b⟩ ∧
      field64 b 12 + 28 = k ∧ field64 b 20 + 28 = k ∧ field64 b 12 = field64 b 20) ∧
    (∃ k b, TDMS_AddPropertyToObject [0x2F] (some (fun _ => 0)) 0 nameAuthor
        TDMS_DataType_String valueX = ⟨TDMS_OK, k, some b⟩ ∧
      field64 b 12 + 28 = k ∧ field64 b 20 + 28 = k ∧ field64 b 12 = field64 b 20) ∧
    (∃ k b V, TDMS_SetChannelDataValues 0 exampleChannel (some (fun _ => 0)) 0 (fun _ => 7) 3
        = some ⟨TDMS_OK, k, some b, V⟩ ∧
      field64 b 12 + 28 = k ∧
      field64 b 20 + 28 + 3 * dataTypeLength exampleChannel.ChannelDataType = k) ∧
    (∃ k b, TDMS_SetGroupDataValues exampleGroup (some (fun _ => 0)) 0 [(fun _ => 7, 3)]
        = ⟨TDMS_OK, k, some b⟩ ∧
      field64 b 12 + 28 = k ∧
      field64 b 20 + 28
        + groupRawSize (exampleGroup.ChannelArray.zip [((fun _ => 7 : Mem), 3)]) = k) :=
  C6_leadIn_offsets (fun _ => 0) 0 exampleFile (by decide) [0x2F] nameAuthor
    TDMS_DataType_String valueX (by decide) (by decide) 0 exampleChannel (fun _ => 7) 3
    (by decide) (by decide) (by decide) (by decide) exampleGroup [(fun _ => 7, 3)]
    (by decide) (by decide) (by simp [included, exampleGroup]) (by decide) (by decide)

/-- Counterexample to C6 as stated: for the group `G` with two U8 channels and
the counts 2^32 - 1 and 2^32 - 85 the emit call returns `TDMS_OK` and reports
`Size` 18, while the next-segment-offset field at bytes [12..20) of the buffer
holds 4294967286. -/
theorem C6_counterexample :
    (TDMS_SetGroupDataValues twoChannelGroup (some (fun _ => 0)) 0 hugeArgs).ret = TDMS_OK ∧
    (TDMS_SetGroupDataValues twoChannelGroup (some (fun _ => 0)) 0 hugeArgs).Size = 18 ∧
    (TDMS_SetGroupDataValues twoChannelGroup (some (fun _ => 0)) 0 hugeArgs).Buffer.map
      (fun b => field64 b 12) = some 4294967286 := by
  have hcap : twoChannelGroup.ChannelArray.length < 4294967296 := by decide
  have hchs : twoChannelGroup.ChannelArray.zip hugeArgs
      = [(⟨TDMS_DataType_U8, pathGC⟩, fun _ => 0, 4294967295),
         (⟨TDMS_DataType_U8, pathGD⟩, fun _ => 0, 4294967211)] := rfl
  have hne : included (twoChannelGroup.ChannelArray.zip hugeArgs) ≠ [] := by
    rw [hchs]; simp [included]
  have hok : rawLenOK (twoChannelGroup.ChannelArray.zip hugeArgs) := by decide
  obtain ⟨h1, h2, _⟩ := Group_emit_size twoChannelGroup (fun _ => 0) 0 hugeArgs hcap hne hok
  refine ⟨h1, h2.trans (by decide), ?_⟩
  rw [Group_emit_struct twoChannelGroup (fun _ => 0) 0 hugeArgs hcap hne hok, Option.map_some']
  refine congrArg some ?_
  have hM : groupMetaSize (twoChannelGroup.ChannelArray.zip hugeArgs) = 72 := by decide
  have hN : u32 (u32 (4 + groupMetaSize (twoChannelGroup.ChannelArray.zip hugeArgs))
      + u32 (groupRawSize (twoChannelGroup.ChannelArray.zip hugeArgs))) = 4294967286 := by
    decide
  have hcnt : ∀ x ∈ twoChannelGroup.ChannelArray.zip hugeArgs, x.2.2 < 4294967296 := by decide
  rw [hN]
  have c0 := Cursor.leadIn_holds (fun _ => 0) (kTocRawData ||| kTocNewObjList ||| kTocMetaData)
    4294967286 (u32 (4 + groupMetaSize (twoChannelGroup.ChannelArray.zip hugeArgs)))
  have c1 := Cursor.save32_holds (included (twoChannelGroup.ChannelArray.zip hugeArgs)).length
    c0 (by simp) (by simp [leadInBytes_length])
  have c2 := emitMeta_holds (twoChannelGroup.ChannelArray.zip hugeArgs) c1 hok hcnt
    (by simp only [List.length_append, leadInBytes_length, le32_length, hM]; decide)
  have key : ∀ cm : Cursor,
      cm.Holds (fun _ => 0)
        (leadInBytes ((kTocRawData ||| kTocNewObjList ||| kTocMetaData) &&& 0xEE) 4294967286
            (u32 (4 + groupMetaSize (twoChannelGroup.ChannelArray.zip hugeArgs)))
          ++ le32 (included (twoChannelGroup.ChannelArray.zip hugeArgs)).length
          ++ groupHeaders (twoChannelGroup.ChannelArray.zip hugeArgs)) [] →
      field64 (SetGroupDataValues.emitRaw cm
        (twoChannelGroup.ChannelArray.zip hugeArgs)).Buffer 12 = 4294967286 := by
    intro cm hc
    have hsz := hc.2
    simp only [List.length_append, leadInBytes_length, le32_length, groupHeaders_length, hM]
      at hsz
    have hbuf := hc.1
    rw [hchs, emitRaw_two cm _ _ (by decide) (by decide), hsz,
      field64_writeBytes_above _ _ _ _ (by decide),
      field64_writeBytes_above _ _ _ _ (by decide),
      hbuf, List.append_nil, List.append_assoc, field64_next _ _ _ _ _ (by decide)]
  exact key _ c2

/-- C7: for every well-formed file the bytes `TDMS_GenFirstPart` emits after
the 28-byte lead-in are the u32-LE object count 1 + |groups| + sum of
|channels|, the record of the root `/`, then for each group in insertion order
its record followed by the records of its channels in insertion order, a record
being the u32-LE path length, the path bytes, FF FF FF FF and u32-LE 0; for the
empty file the segment has 45 bytes and bytes [28..45) are
01 00 00 00 01 00 00 00 2F FF FF FF FF 00 00 00 00. -/
theorem C7_GenFirstPart_bytes (File : TDMS_File_t) (hwf : File.WellFormed) (b0 : Mem)
    (Size : Nat) :
    (∃ k b, TDMS_GenFirstPart File (some b0) Size = ⟨TDMS_OK, k, some b⟩ ∧
      (memDump b k).drop 28
        = le32 (1 + File.GroupArray.length
            + (File.GroupArray.map (fun g => g.ChannelArray.length)).sum)
          ++ (le32 1 ++ [0x2F] ++ [0xFF, 0xFF, 0xFF, 0xFF] ++ le32 0)
          ++ (File.GroupArray.map (fun g =>
              (le32 g.GroupPath.length ++ g.GroupPath ++ [0xFF, 0xFF, 0xFF, 0xFF] ++ le32 0)
              ++ (g.ChannelArray.map (fun ch =>
                  le32 ch.ChannelPath.length ++ ch.ChannelPath ++ [0xFF, 0xFF, 0xFF, 0xFF]
                    ++ le32 0)).flatten)).flatten) ∧
    (∃ b, TDMS_GenFirstPart ⟨[]⟩ (some b0) Size = ⟨TDMS_OK, 45, some b⟩ ∧
      (memDump b 45).drop 28
        = [0x01, 0x00, 0x00, 0x00, 0x01, 0x00, 0x00, 0x00, 0x2F, 0xFF, 0xFF, 0xFF, 0xFF,
           0x00, 0x00, 0x00, 0x00]) := by
  have general : ∀ F : TDMS_File_t, F.WellFormed →
      ∃ b, TDMS_GenFirstPart F (some b0) Size
          = ⟨TDMS_OK, 28 + 4 + recordsSize (objectPaths F), some b⟩ ∧
        (memDump b (28 + 4 + recordsSize (objectPaths F))).drop 28
          = le32 (objectPaths F).length ++ objectRecords (objectPaths F) := by
    intro F hF
    have hle := wellFormed_size_le F hF
    refine ⟨_, GenFirstPart_emit F b0 Size (by omega), ?_⟩
    have hlen : (firstPartBytes F).length = 28 + 4 + recordsSize (objectPaths F) := by
      simp only [firstPartBytes, List.length_append, leadInBytes_length, le32_length,
        objectRecords_length]
    rw [← hlen, memDump_written, firstPartBytes, List.append_assoc,
      List.drop_left' (leadInBytes_length _ _ _)]
  constructor
  · obtain ⟨b, h1, h2⟩ := general File hwf
    refine ⟨_, b, h1, ?_⟩
    rw [h2, objectRecords_objectPaths, objectPaths_length]
    have e : File.GroupArray.length + (File.GroupArray.map (fun g => g.ChannelArray.length)).sum
        + 1 = 1 + File.GroupArray.length
          + (File.GroupArray.map (fun g => g.ChannelArray.length)).sum := by omega
    rw [e]
    simp only [objectRecord, lenString, List.length_cons, List.length_nil, List.append_assoc]
  · obtain ⟨b, h1, h2⟩ := general ⟨[]⟩ (by decide)
    exact ⟨b, h1, h2⟩

/-- Witness of C7: the file with one group `G` holding one U8 channel `C`. -/
theorem C7_GenFirstPart_bytes_witness :
    ∃ k b, TDMS_GenFirstPart exampleFile (some (fun _ => 0)) 0 = ⟨TDMS_OK, k, some b⟩ ∧
      (memDump b k).drop 28
        = le32 3 ++ (le32 1 ++ [0x2F] ++ [0xFF, 0xFF, 0xFF, 0xFF] ++ le32 0)
          ++ ((le32 4 ++ pathG ++ [0xFF, 0xFF, 0xFF, 0xFF] ++ le32 0)
            ++ (le32 8 ++ pathGC ++ [0xFF, 0xFF, 0xFF, 0xFF] ++ le32 0)) := by
  obtain ⟨k, b, h1, h2⟩ := (C7_GenFirstPart_bytes exampleFile (by decide) (fun _ => 0) 0).1
  refine ⟨k, b, h1, ?_⟩
  rw [h2]
  decide

/-- C8 (as amended): for every channel with a well-formed path and a type of
nonzero fixed width, and every n > 0 with n * width < 2^32 (n < 65536 on a
Boolean channel), the segment emitted by `TDMS_SetChannelDataValues` consists of
the 28-byte lead-in, u32-LE 1, u32-LE len(path), the path bytes, u32-LE 0x14,
the u32-LE wire code of the type, u32-LE 1, u64-LE n, u32-LE 0, followed by
exactly n * width raw bytes equal to the caller's value bytes in order, as the
call leaves them (unchanged unless the channel is Boolean); for group `G`, U8
channel `C` and values 10 20 30 (hex) the metadata has 40 bytes, the
next-segment offset is 43 and the last three bytes are 10 20 30. -/
theorem C8_channel_bytes (fuel : Nat) (ch : TDMS_Channel_t) (b0 : Mem) (Size : Nat)
    (Values : Mem) (n : Nat) (hwf : ch.WellFormed)
    (hw : dataTypeLength ch.ChannelDataType ≠ 0) (hn : 0 < n)
    (hlt : n * dataTypeLength ch.ChannelDataType < 4294967296)
    (hterm : ch.ChannelDataType = TDMS_DataType_Boolean → n < 65536 ∧ n < fuel) :
    (∃ k b V lead, lead.length = 28 ∧
      TDMS_SetChannelDataValues fuel ch (some b0) Size Values n = some ⟨TDMS_OK, k, some b, V⟩ ∧
      memDump b (28 + 32 + ch.ChannelPath.length + n * dataTypeLength ch.ChannelDataType)
        = lead ++ le32 1 ++ le32 ch.ChannelPath.length ++ ch.ChannelPath ++ le32 0x14
          ++ le32 (dataTypeBinary ch.ChannelDataType) ++ le32 1 ++ le64 n ++ le32 0
          ++ memDump V (n * dataTypeLength ch.ChannelDataType) ∧
      (ch.ChannelDataType ≠ TDMS_DataType_Boolean → V = Values)) ∧
    (TDMS_SetChannelDataValues 0 exampleChannel (some b0) Size (fun i => 16 * (i + 1)) 3).map
      (fun o => (o.ret, o.Size,
        o.Buffer.map (fun b => (field64 b 12, field64 b 20, (memDump b 71).drop 68))))
      = some (TDMS_OK, 71, some (43, 40, [0x10, 0x20, 0x30])) := by
  have hlen := channel_path_le ch hwf
  have hlt2 : dataTypeLength ch.ChannelDataType * n < 4294967296 := by
    rw [Nat.mul_comm]; exact hlt
  have hpos : 0 < dataTypeLength ch.ChannelDataType * n :=
    Nat.mul_pos (Nat.pos_of_ne_zero hw) hn
  have hRe : u32 (dataTypeLength ch.ChannelDataType * n) = dataTypeLength ch.ChannelDataType * n :=
    u32_of_lt hlt2
  have hR : u32 (dataTypeLength ch.ChannelDataType * n) ≠ 0 := by rw [hRe]; omega
  have hn2 : n < 4294967296 := by
    have : n ≤ dataTypeLength ch.ChannelDataType * n :=
      Nat.le_mul_of_pos_left n (Nat.pos_of_ne_zero hw)
    omega
  constructor
  · have hemit := SetChannel_emit fuel ch b0 Size Values n hR hn2 (by omega) hterm
    rw [hRe] at hemit
    refine ⟨_, _, _, leadInBytes 0x0E
        (u32 (32 + ch.ChannelPath.length + dataTypeLength ch.ChannelDataType * n))
        (32 + ch.ChannelPath.length), leadInBytes_length _ _ _, hemit, ?_, ?_⟩
    · have hseg : (leadInBytes 0x0E
          (u32 (32 + ch.ChannelPath.length + dataTypeLength ch.ChannelDataType * n))
          (32 + ch.ChannelPath.length) ++ le32 1 ++ channelHeader ch n
          ++ memDump (valuesAfter ch.ChannelDataType n Values)
            (dataTypeLength ch.ChannelDataType * n)).length
          = 28 + 32 + ch.ChannelPath.length + n * dataTypeLength ch.ChannelDataType := by
        simp only [List.length_append, leadInBytes_length, le32_length, channelHeader_length,
          memDump_length]
        rw [Nat.mul_comm n]
        omega
      rw [← hseg, memDump_written, Nat.mul_comm n]
      simp only [channelHeader, lenString, List.append_assoc]
    · intro hb
      simp only [valuesAfter, hb, if_false]
  · rw [SetChannel_emit_fits 0 exampleChannel b0 Size _ 3 (by decide) (by decide) (by decide)
      (by decide)]
    simp only [Option.map_some', channelDataBytes, List.append_assoc]
    rw [field64_next _ _ _ _ _ (by decide), field64_raw _ _ _ _ _ (by decide)]
    have e : (71 : Nat) = (leadInBytes 0x0E
        (32 + exampleChannel.ChannelPath.length
          + (memDump (valuesAfter exampleChannel.ChannelDataType 3 (fun i => 16 * (i + 1)))
              (dataTypeLength exampleChannel.ChannelDataType * 3)).length)
        (32 + exampleChannel.ChannelPath.length) ++ (le32 1 ++ (channelHeader exampleChannel 3
          ++ memDump (valuesAfter exampleChannel.ChannelDataType 3 (fun i => 16 * (i + 1)))
              (dataTypeLength exampleChannel.ChannelDataType * 3)))).length := by decide
    rw [e, memDump_written]
    decide

/-- Witness of C8: three values on the U8 channel `/'G'/'C'`. -/
theorem C8_channel_bytes_witness :
    ∃ k b V lead, lead.length = 28 ∧
      TDMS_SetChannelDataValues 0 exampleChannel (some (fun _ => 0)) 0 (fun _ => 7) 3
        = some ⟨TDMS_OK, k, some b, V⟩ ∧
      memDump b (28 + 32 + exampleChannel.ChannelPath.length
          + 3 * dataTypeLength exampleChannel.ChannelDataType)
        = lead ++ le32 1 ++ le32 exampleChannel.ChannelPath.length ++ exampleChannel.ChannelPath
          ++ le32 0x14 ++ le32 (dataTypeBinary exampleChannel.ChannelDataType) ++ le32 1
          ++ le64 3 ++ le32 0
          ++ memDump V (3 * dataTypeLength exampleChannel.ChannelDataType) ∧
      (exampleChannel.ChannelDataType ≠ TDMS_DataType_Boolean → V = fun _ => 7) :=
  (C8_channel_bytes 0 exampleChannel (fun _ => 0) 0 (fun _ => 7) 3 (by decide) (by decide)
    (by decide) (by decide) (by decide)).1

/-- Counterexample to C8 as stated: on a TimeStamp channel (width 16) the count
n = 2^28 + 1 gives a segment of 84 bytes whose raw block, bytes [68..84), has 16
bytes (index 84 of the buffer is not written), not n * 16 = 4294967312. -/
theorem C8_counterexample :
    (TDMS_SetChannelDataValues 0 exampleTimeChannel (some (fun _ => 0xAA)) 0 (fun _ => 1)
        268435457).map
      (fun o => (o.ret, o.Size, o.Buffer.map (fun b => ((memDump b 84).drop 68, b 84))))
      = some (TDMS_OK, 84, some (List.replicate 16 1, 0xAA)) ∧
    268435457 * dataTypeLength exampleTimeChannel.ChannelDataType = 4294967312 := by
  decide

/-- C9 (as amended): for every group of at most 8 channels and per-channel
counts with at least one nonzero count, where every channel with a nonzero
count has a type of nonzero fixed width and the segment size fits in 32 bits,
the segment emitted by `TDMS_SetGroupDataValues` consists of the lead-in, the
number of channels with nonzero count, one object header (path, 0x14, wire
type, dimension 1, u64 count, 0 properties) for each such channel in group
insertion order, and the raw data block that concatenates, in the same order,
the count_i * width_i value bytes of each included channel; for channels
U8 x3 and SingleFloat x2 the raw block is 3 + 8 = 11 bytes. -/
theorem C9_group_bytes (Group : TDMS_Group_t) (b0 : Mem) (Size : Nat) (args : List (Mem × Nat))
    (hcap : Group.ChannelArray.length ≤ TDMS_CONFIG_MAX_CHANNEL_OF_GROUP)
    (_hargs : args.length = Group.ChannelArray.length)
    (hne : included (Group.ChannelArray.zip args) ≠ [])
    (hgw : ∀ x ∈ Group.ChannelArray.zip args, x.2.2 ≠ 0 →
      dataTypeLength x.1.ChannelDataType ≠ 0)
    (hgfit : groupSize (Group.ChannelArray.zip args) < 4294967296) :
    (∃ k b lead, lead.length = 28 ∧
      TDMS_SetGroupDataValues Group (some b0) Size args = ⟨TDMS_OK, k, some b⟩ ∧
      memDump b k
        = lead ++ le32 (included (Group.ChannelArray.zip args)).length
          ++ ((included (Group.ChannelArray.zip args)).map (fun x =>
              le32 x.1.ChannelPath.length ++ x.1.ChannelPath ++ le32 0x14
                ++ le32 (dataTypeBinary x.1.ChannelDataType) ++ le32 1 ++ le64 x.2.2
                ++ le32 0)).flatten
          ++ ((included (Group.ChannelArray.zip args)).map (fun x =>
              memDump x.2.1 (x.2.2 * dataTypeLength x.1.ChannelDataType))).flatten) ∧
    (TDMS_SetGroupDataValues mixedGroup (some b0) Size mixedArgs).ret = TDMS_OK ∧
    (TDMS_SetGroupDataValues mixedGroup (some b0) Size mixedArgs).Size = 104 + 11 ∧
    (TDMS_SetGroupDataValues mixedGroup (some b0) Size mixedArgs).Buffer.map
      (fun b => (field64 b 20 + 28, (memDump b 115).drop 104))
      = some (104, [1, 2, 3, 100, 101, 102, 103, 104, 105, 106, 107]) := by
  have hcap2 : Group.ChannelArray.length < 4294967296 := by
    simp only [TDMS_CONFIG_MAX_CHANNEL_OF_GROUP] at hcap; omega
  constructor
  · refine ⟨_, _, leadInBytes 0x0E
      (4 + groupMetaSize (Group.ChannelArray.zip args) + groupRawSize (Group.ChannelArray.zip args))
      (4 + groupMetaSize (Group.ChannelArray.zip args)), leadInBytes_length _ _ _,
      Group_emit_fits Group b0 Size args hcap2 hne hgw hgfit, ?_⟩
    have hlen : (groupDataBytes (Group.ChannelArray.zip args)).length
        = groupSize (Group.ChannelArray.zip args) := by
      rw [groupDataBytes_length, groupSize_eq]
    rw [← hlen, memDump_written]
    simp only [groupDataBytes, groupHeaders, groupRaw, channelHeader, lenString,
      List.append_assoc]
  · have hmne : included (mixedGroup.ChannelArray.zip mixedArgs) ≠ [] := by
      simp [included, mixedGroup, mixedArgs]
    have hm := Group_emit_fits mixedGroup b0 Size mixedArgs (by decide) hmne (by decide)
      (by decide)
    have hsz : groupSize (mixedGroup.ChannelArray.zip mixedArgs) = 115 := by decide
    rw [hm, hsz]
    refine ⟨rfl, rfl, ?_⟩
    simp only [Option.map_some', groupDataBytes, List.append_assoc]
    rw [field64_raw _ _ _ _ _ (by decide)]
    have e : (115 : Nat) = (leadInBytes 0x0E
        (4 + groupMetaSize (mixedGroup.ChannelArray.zip mixedArgs)
          + groupRawSize (mixedGroup.ChannelArray.zip mixedArgs))
        (4 + groupMetaSize (mixedGroup.ChannelArray.zip mixedArgs))
        ++ (le32 (included (mixedGroup.ChannelArray.zip mixedArgs)).length
          ++ (groupHeaders (mixedGroup.ChannelArray.zip mixedArgs)
            ++ groupRaw (mixedGroup.ChannelArray.zip mixedArgs)))).length := by decide
    rw [e, memDump_written]
    decide

/-- Witness of C9: the group with a U8 and a SingleFloat channel, three and two
values. -/
theorem C9_group_bytes_witness :
    ∃ k b lead, lead.length = 28 ∧
      TDMS_SetGroupDataValues mixedGroup (some (fun _ => 0)) 0 mixedArgs
        = ⟨TDMS_OK, k, some b⟩ ∧
      memDump b k
        = lead ++ le32 (included (mixedGroup.ChannelArray.zip mixedArgs)).length
          ++ ((included (mixedGroup.ChannelArray.zip mixedArgs)).map (fun x =>
              le32 x.1.ChannelPath.length ++ x.1.ChannelPath ++ le32 0x14
                ++ le32 (dataTypeBinary x.1.ChannelDataType) ++ le32 1 ++ le64 x.2.2
                ++ le32 0)).flatten
          ++ ((included (mixedGroup.ChannelArray.zip mixedArgs)).map (fun x =>
              memDump x.2.1 (x.2.2 * dataTypeLength x.1.ChannelDataType))).flatten :=
  (C9_group_bytes mixedGroup (fun _ => 0) 0 mixedArgs (by decide) (by decide)
    (by simp [included, mixedGroup, mixedArgs]) (by decide) (by decide)).1

set_option maxRecDepth 100000 in
/-- Counterexample to C9 as stated: for a group with one TimeStamp channel
(width 16) and the count 2^28 + 1 the emitted segment has 84 bytes and its raw
block, bytes [68..84), has 16 bytes (index 84 of the buffer is not written),
not count * 16 = 4294967312. -/
theorem C9_counterexample :
    (TDMS_SetGroupDataValues timeGroup (some (fun _ => 0xAA)) 0 [(fun _ => 1, 268435457)]).ret
      = TDMS_OK ∧
    (TDMS_SetGroupDataValues timeGroup (some (fun _ => 0xAA)) 0 [(fun _ => 1, 268435457)]).Size
      = 84 ∧
    (TDMS_SetGroupDataValues timeGroup (some (fun _ => 0xAA)) 0
        [(fun _ => 1, 268435457)]).Buffer.map (fun b => ((memDump b 84).drop 68, b 84))
      = some (List.replicate 16 1, 0xAA) ∧
    groupRawSize (timeGroup.ChannelArray.zip [((fun _ => 1 : Mem), 268435457)])
      = 4294967312 := by
  decide

/-- C10 (as amended): for every accepted property whose segment size fits in 32
bits (a non-String value holding at least the fixed width of its type), the
segment emitted by the property builder consists of the lead-in, u32-LE 1, the
length-prefixed object path, FF FF FF FF, u32-LE 1, the length-prefixed property
name, the u32-LE wire code of the type and the value: a u32-LE length and the
string bytes for String, otherwise exactly the fixed-width bytes copied from
the caller's value; the file wrapper passes the path `/`, the group wrapper the
group's cached path and the channel wrapper the channel's cached path. -/
theorem C10_property_bytes (Path Name : List Nat) (DataType : TDMS_Data_t) (Value : List Nat)
    (b0 : Mem) (Size : Nat) (Group : TDMS_Group_t) (Channel : TDMS_Channel_t)
    (hacc : acceptedProperty DataType)
    (hfit : propertySize Path Name DataType Value < 4294967296)
    (hval : DataType ≠ TDMS_DataType_String → dataTypeLength DataType ≤ Value.length) :
    (∃ k b lead, lead.length = 28 ∧
      TDMS_AddPropertyToObject Path (some b0) Size Name DataType Value
        = ⟨TDMS_OK, k, some b⟩ ∧
      memDump b k
        = lead ++ le32 1 ++ (le32 Path.length ++ Path) ++ [0xFF, 0xFF, 0xFF, 0xFF] ++ le32 1
          ++ (le32 Name.length ++ Name) ++ le32 (dataTypeBinary DataType)
          ++ (if DataType = TDMS_DataType_String then le32 Value.length ++ Value
              else Value.take (dataTypeLength DataType)) ∧
      (DataType ≠ TDMS_DataType_String →
        (Value.take (dataTypeLength DataType)).length = dataTypeLength DataType)) ∧
    TDMS_AddPropertyToFile (some b0) Size Name DataType Value
      = TDMS_AddPropertyToObject [0x2F] (some b0) Size Name DataType Value ∧
    TDMS_AddPropertyToGroup Group (some b0) Size Name DataType Value
      = TDMS_AddPropertyToObject Group.GroupPath (some b0) Size Name DataType Value ∧
    TDMS_AddPropertyToChannel Channel (some b0) Size Name DataType Value
      = TDMS_AddPropertyToObject Channel.ChannelPath (some b0) Size Name DataType Value := by
  refine ⟨?_, rfl, rfl, rfl⟩
  refine ⟨_, _, leadInBytes 0x06 (propertySize Path Name DataType Value - 28)
    (propertySize Path Name DataType Value - 28), leadInBytes_length _ _ _,
    AddProperty_emit Path b0 Size Name DataType Value hacc hfit, ?_, ?_⟩
  · have hlen : (propertyBytes Path Name DataType Value).length
        = propertySize Path Name DataType Value := by
      rw [propertyBytes, List.length_append, leadInBytes_length, propertyMeta_length _ _ _ _ hval]
    have hd := memDump_writeBytes b0 (propertyBytes Path Name DataType Value)
      (if DataType = TDMS_DataType_String then [0] else [])
    rw [hlen] at hd
    rw [hd]
    simp only [propertyBytes, propertyMeta, lenString, List.append_assoc]
  · intro hs
    rw [List.length_take]
    exact Nat.min_eq_left (hval hs)

/-- Witness of C10: the property `Author` = String `X` on the group `G`. -/
theorem C10_property_bytes_witness :
    ∃ k b lead, lead.length = 28 ∧
      TDMS_AddPropertyToObject pathG (some (fun _ => 0)) 0 nameAuthor TDMS_DataType_String valueX
        = ⟨TDMS_OK, k, some b⟩ ∧
      memDump b k
        = lead ++ le32 1 ++ (le32 pathG.length ++ pathG) ++ [0xFF, 0xFF, 0xFF, 0xFF] ++ le32 1
          ++ (le32 nameAuthor.length ++ nameAuthor)
          ++ le32 (dataTypeBinary TDMS_DataType_String)
          ++ (if TDMS_DataType_String = TDMS_DataType_String then le32 valueX.length ++ valueX
              else valueX.take (dataTypeLength TDMS_DataType_String)) ∧
      (TDMS_DataType_String ≠ TDMS_DataType_String →
        (valueX.take (dataTypeLength TDMS_DataType_String)).length
          = dataTypeLength TDMS_DataType_String) :=
  (C10_property_bytes pathG nameAuthor TDMS_DataType_String valueX (fun _ => 0) 0 exampleGroup
    exampleChannel (by decide) (by decide) (by decide)).1

/-- Counterexample to C10 as stated: for the file property whose name has
4294967240 bytes and whose String value is `X`, the emit call returns `TDMS_OK`
with `Size` 2, while the lead-in and the metadata the claim describes take
4294967298 bytes. -/
theorem C10_counterexample :
    (TDMS_AddPropertyToFile (some (fun _ => 0)) 0 (List.replicate 4294967240 0x41)
        TDMS_DataType_String valueX).ret = TDMS_OK ∧
    (TDMS_AddPropertyToFile (some (fun _ => 0)) 0 (List.replicate 4294967240 0x41)
        TDMS_DataType_String valueX).Size = 2 ∧
    28 + (propertyMeta [0x2F] (List.replicate 4294967240 0x41) TDMS_DataType_String
        valueX).length = 4294967298 :=
  property_name_wraps (fun _ => 0) (List.replicate 4294967240 0x41) (List.length_replicate _ _)

/-- C11 (as amended): bytes [0..4) of every segment emitted by any of the four
builders (declaration, property, channel data, group data) whose size fits in
32 bits are 54 44 53 6D (`TDSm`). -/
theorem C11_tag_bytes (c : EmitCall) (b0 : Mem) (Size : Nat) (hfit : c.Fits) :
    ∃ k b, c.run b0 Size = some ⟨TDMS_OK, k, some b⟩ ∧
      bytesAt b 0 4 = [0x54, 0x44, 0x53, 0x6D] := by
  obtain ⟨k, Next, Raw, rest, e⟩ := EmitCall.run_fits c b0 Size hfit
  exact ⟨k, _, e, (bytesAt_leadIn b0 c.tocOf Next Raw rest).1⟩

/-- Witness of C11: three values on the U8 channel `/'G'/'C'`. -/
theorem C11_tag_bytes_witness :
    (EmitCall.channelData 0 exampleChannel (fun _ => 7) 3).Fits ∧
    ∃ k b, (EmitCall.channelData 0 exampleChannel (fun _ => 7) 3).run (fun _ => 0) 0
        = some ⟨TDMS_OK, k, some b⟩ ∧
      bytesAt b 0 4 = [0x54, 0x44, 0x53, 0x6D] :=
  ⟨by decide,
    C11_tag_bytes (EmitCall.channelData 0 exampleChannel (fun _ => 7) 3) (fun _ => 0) 0
      (by decide)⟩

/-- Counterexample to C11 as stated: for the group `G` with two U8 channels and
the counts 2^32 - 104 and 4 the emit call returns `TDMS_OK`; the 32-bit write
position wraps to 0 after the first raw block, the second block is copied to
the start of the buffer, and bytes [0..4) of the segment are FF FF FF FF. -/
theorem C11_counterexample :
    (TDMS_SetGroupDataValues twoChannelGroup (some (fun _ => 0)) 0 (wrapArgs 0)).ret = TDMS_OK ∧
    (TDMS_SetGroupDataValues twoChannelGroup (some (fun _ => 0)) 0 (wrapArgs 0)).Buffer.map
      (fun b => bytesAt b 0 4) = some [0xFF, 0xFF, 0xFF, 0xFF] :=
  group_wrap_overwrites 0 (by decide) (fun _ => 0)

/-- C12 (as amended): bytes [8..12) of every segment emitted by any of the four
builders whose size fits in 32 bits are 69 12 00 00. -/
theorem C12_version_bytes (c : EmitCall) (b0 : Mem) (Size : Nat) (hfit : c.Fits) :
    ∃ k b, c.run b0 Size = some ⟨TDMS_OK, k, some b⟩ ∧
      bytesAt b 8 12 = [0x69, 0x12, 0x00, 0x00] := by
  obtain ⟨k, Next, Raw, rest, e⟩ := EmitCall.run_fits c b0 Size hfit
  exact ⟨k, _, e, (bytesAt_leadIn b0 c.tocOf Next Raw rest).2.2⟩

/-- Witness of C12: the declaration of the file with one group and one channel. -/
theorem C12_version_bytes_witness :
    (EmitCall.firstPart exampleFile).Fits ∧
    ∃ k b, (EmitCall.firstPart exampleFile).run (fun _ => 0) 0 = some ⟨TDMS_OK, k, some b⟩ ∧
      bytesAt b 8 12 = [0x69, 0x12, 0x00, 0x00] :=
  ⟨by decide, C12_version_bytes (EmitCall.firstPart exampleFile) (fun _ => 0) 0 (by decide)⟩

/-- Counterexample to C12 as stated: in the declaration of the empty file bytes
[8..12) are 69 12 00 00, not 00 00 12 69; and for the group `G` with two U8
channels and the counts 2^32 - 96 and 4, where the 32-bit write position wraps
to 8, they are FF FF FF FF. -/
theorem C12_counterexample :
    (TDMS_GenFirstPart ⟨[]⟩ (some (fun _ => 0)) 0).ret = TDMS_OK ∧
    (TDMS_GenFirstPart ⟨[]⟩ (some (fun _ => 0)) 0).Buffer.map (fun b => bytesAt b 8 12)
      = some [0x69, 0x12, 0x00, 0x00] ∧
    (TDMS_SetGroupDataValues twoChannelGroup (some (fun _ => 0)) 0 (wrapArgs 8)).ret = TDMS_OK ∧
    (TDMS_SetGroupDataValues twoChannelGroup (some (fun _ => 0)) 0 (wrapArgs 8)).Buffer.map
      (fun b => bytesAt b 8 12) = some [0xFF, 0xFF, 0xFF, 0xFF] :=
  ⟨by decide, by decide, group_wrap_overwrites 8 (by decide) (fun _ => 0)⟩

/-- C13 (as amended): in every segment emitted by a builder whose size fits in
32 bits the ToC field at bytes [4..8) is 06 00 00 00 (Meta | NewObjList) for
`TDMS_GenFirstPart` and the property builder and 0E 00 00 00 (Meta | Raw |
NewObjList) for `TDMS_SetChannelDataValues` and `TDMS_SetGroupDataValues`, and
the interleaved bit 0x20, the big-endian bit 0x40 and the DAQmx bit 0x80 of the
field are clear. -/
theorem C13_toc_bytes (c : EmitCall) (b0 : Mem) (Size : Nat) (hfit : c.Fits) :
    ∃ k b, c.run b0 Size = some ⟨TDMS_OK, k, some b⟩ ∧
      (match c with
        | .firstPart _ => bytesAt b 4 8 = [0x06, 0x00, 0x00, 0x00]
        | .property _ _ _ _ => bytesAt b 4 8 = [0x06, 0x00, 0x00, 0x00]
        | .channelData _ _ _ _ => bytesAt b 4 8 = [0x0E, 0x00, 0x00, 0x00]
        | .groupData _ _ => bytesAt b 4 8 = [0x0E, 0x00, 0x00, 0x00]) ∧
      leValue (bytesAt b 4 8) &&& kTocInterleavedData = 0 ∧
      leValue (bytesAt b 4 8) &&& kTocBigEndian = 0 ∧
      leValue (bytesAt b 4 8) &&& kTocDAQmxRawData = 0 := by
  obtain ⟨k, Next, Raw, rest, e⟩ := EmitCall.run_fits c b0 Size hfit
  have h := (bytesAt_leadIn b0 c.tocOf Next Raw rest).2.1
  refine ⟨k, _, e, ?_⟩
  rw [h]
  cases c <;> simp [EmitCall.tocOf, le32, leValue, kTocInterleavedData, kTocBigEndian,
    kTocDAQmxRawData] <;> decide

/-- Witness of C13: the group `G` with its U8 channel and three values. -/
theorem C13_toc_bytes_witness :
    (EmitCall.groupData exampleGroup [(fun _ => 7, 3)]).Fits ∧
    ∃ k b, (EmitCall.groupData exampleGroup [(fun _ => 7, 3)]).run (fun _ => 0) 0
        = some ⟨TDMS_OK, k, some b⟩ ∧
      bytesAt b 4 8 = [0x0E, 0x00, 0x00, 0x00] ∧
      leValue (bytesAt b 4 8) &&& kTocInterleavedData = 0 ∧
      leValue (bytesAt b 4 8) &&& kTocBigEndian = 0 ∧
      leValue (bytesAt b 4 8) &&& kTocDAQmxRawData = 0 :=
  ⟨by decide,
    C13_toc_bytes (EmitCall.groupData exampleGroup [(fun _ => 7, 3)]) (fun _ => 0) 0 (by decide)⟩

/-- Counterexample to C13 as stated: for the group `G` with two U8 channels and
the counts 2^32 - 100 and 4 the emit call returns `TDMS_OK`; the 32-bit write
position wraps to 4 after the first raw block, and the ToC field at bytes
[4..8) of the segment is FF FF FF FF, with the bits 0x20, 0x40 and 0x80 set. -/
theorem C13_counterexample :
    (TDMS_SetGroupDataValues twoChannelGroup (some (fun _ => 0)) 0 (wrapArgs 4)).ret = TDMS_OK ∧
    (TDMS_SetGroupDataValues twoChannelGroup (some (fun _ => 0)) 0 (wrapArgs 4)).Buffer.map
      (fun b => bytesAt b 4 8) = some [0xFF, 0xFF, 0xFF, 0xFF] ∧
    leValue [0xFF, 0xFF, 0xFF, 0xFF] &&& kTocInterleavedData = kTocInterleavedData ∧
    leValue [0xFF, 0xFF, 0xFF, 0xFF] &&& kTocBigEndian = kTocBigEndian ∧
    leValue [0xFF, 0xFF, 0xFF, 0xFF] &&& kTocDAQmxRawData = kTocDAQmxRawData :=
  ⟨(group_wrap_overwrites 4 (by decide) (fun _ => 0)).1,
    (group_wrap_overwrites 4 (by decide) (fun _ => 0)).2, by decide, by decide, by decide⟩

/-- C14 (as amended): `TDMS_SetChannelDataValues` returns `TDMS_WRONG_ARG` if
and only if the raw data length, fixed width times n reduced to 32 bits, is 0,
which is the case whenever the fixed width is 0 or n = 0, and then it leaves
`Size`, the buffer and the values untouched; for every channel whose type has
nonzero fixed width it returns `TDMS_OK`, in size-query and in emit mode, for
every count n > 0 with n * width < 2^32 (n < 65536 on a Boolean channel, with
fuel for the normalisation loop). -/
theorem C14_channel_result (fuel : Nat) (ch : TDMS_Channel_t) (Buffer : Option Mem) (Size : Nat)
    (Values : Mem) (n : Nat) :
    ((TDMS_SetChannelDataValues fuel ch Buffer Size Values n).map (fun o => o.ret)
        = some TDMS_WRONG_ARG
      ↔ u32 (dataTypeLength ch.ChannelDataType * n) = 0) ∧
    (dataTypeLength ch.ChannelDataType = 0 ∨ n = 0 →
      TDMS_SetChannelDataValues fuel ch Buffer Size Values n
        = some ⟨TDMS_WRONG_ARG, Size, Buffer, Values⟩) ∧
    (dataTypeLength ch.ChannelDataType ≠ 0 → 0 < n →
      n * dataTypeLength ch.ChannelDataType < 4294967296 →
      (ch.ChannelDataType = TDMS_DataType_Boolean → n < 65536 ∧ n < fuel) →
      (TDMS_SetChannelDataValues fuel ch Buffer Size Values n).map (fun o => o.ret)
        = some TDMS_OK) := by
  refine ⟨⟨?_, ?_⟩, ?_, ?_⟩
  · intro h
    by_contra hR
    cases ho : TDMS_SetChannelDataValues fuel ch Buffer Size Values n with
    | none => rw [ho] at h; exact Option.noConfusion h
    | some o =>
      obtain ⟨hb, h1⟩ := SetChannel_returned fuel ch Buffer Size Values n o ho hR
      obtain ⟨o2, h2, hret, _⟩ := SetChannel_ok (n + 1) ch Buffer Size Values n hR
        (fun hbool => ⟨hb hbool, Nat.lt_succ_self n⟩)
      rw [h1] at h2
      rw [ho, Option.map_some', Option.some.injEq] at h
      rw [← Option.some.inj h2, h] at hret
      exact TDMS_Result_t.noConfusion hret
  · intro hR
    rw [SetChannel_wrongArg fuel ch Buffer Size Values n hR]
    rfl
  · intro h
    refine SetChannel_wrongArg fuel ch Buffer Size Values n ?_
    rcases h with h | h
    · rw [h, Nat.zero_mul]; rfl
    · rw [h, Nat.mul_zero]; rfl
  · intro hw hn hlt hterm
    have hR : u32 (dataTypeLength ch.ChannelDataType * n) ≠ 0 := by
      rw [Nat.mul_comm, u32_of_lt hlt]
      exact Nat.pos_iff_ne_zero.mp (Nat.mul_pos hn (Nat.pos_of_ne_zero hw))
    obtain ⟨o, ho, hret, _⟩ := SetChannel_ok fuel ch Buffer Size Values n hR hterm
    rw [ho, Option.map_some', hret]

/-- Witness of C14: three values on the U8 channel `/'G'/'C'`, emit mode. -/
theorem C14_channel_result_witness :
    (TDMS_SetChannelDataValues 0 exampleChannel (some (fun _ => 0)) 0 (fun _ => 7) 3).map
      (fun o => o.ret) = some TDMS_OK :=
  (C14_channel_result 0 exampleChannel (some (fun _ => 0)) 0 (fun _ => 7) 3).2.2
    (by decide) (by decide) (by decide) (by decide)

/-- Counterexample to C14 as stated: on the U8 channel `/'G'/'C'` (fixed width
1) the count n = 0 gives `TDMS_WRONG_ARG`, in size-query and in emit mode. -/
theorem C14_counterexample :
    dataTypeLength exampleChannel.ChannelDataType = 1 ∧
    (TDMS_SetChannelDataValues 0 exampleChannel none 0 (fun _ => 7) 0).map (fun o => o.ret)
      = some TDMS_WRONG_ARG ∧
    (TDMS_SetChannelDataValues 0 exampleChannel (some (fun _ => 0)) 0 (fun _ => 7) 0).map
      (fun o => o.ret) = some TDMS_WRONG_ARG := by
  decide

/-- C15: the property builder returns `TDMS_WRONG_ARG` if and only if the
property type has fixed width 0 and is not String, that is for ExtendedFloat,
the three WithUnit types, FixedPoint, ComplexSingleFloat and
ComplexDoubleFloat; in that case the buffer and `Size` are left as they were,
in size-query mode and in emit mode; the file, group and channel variants are
the same builder on the path of the object. -/
theorem C15_property_wrong_arg (Path : List Nat) (Buffer : Option Mem) (Size : Nat)
    (Name : List Nat) (DataType : TDMS_Data_t) (Value : List Nat)
    (Group : TDMS_Group_t) (Channel : TDMS_Channel_t) :
    ((TDMS_AddPropertyToObject Path Buffer Size Name DataType Value).ret = TDMS_WRONG_ARG
      ↔ (dataTypeLength DataType = 0 ∧ DataType ≠ TDMS_DataType_String)) ∧
    ((dataTypeLength DataType = 0 ∧ DataType ≠ TDMS_DataType_String)
      ↔ DataType ∈ [TDMS_DataType_ExtendedFloat, TDMS_DataType_SingleFloatWithUnit,
          TDMS_DataType_DoubleFloatWithUnit, TDMS_DataType_ExtendedFloatWithUnit,
          TDMS_DataType_FixedPoint, TDMS_DataType_ComplexSingleFloat,
          TDMS_DataType_ComplexDoubleFloat]) ∧
    ((dataTypeLength DataType = 0 ∧ DataType ≠ TDMS_DataType_String) →
      TDMS_AddPropertyToObject Path Buffer Size Name DataType Value
        = ⟨TDMS_WRONG_ARG, Size, Buffer⟩) ∧
    TDMS_AddPropertyToFile Buffer Size Name DataType Value
      = TDMS_AddPropertyToObject [0x2F] Buffer Size Name DataType Value ∧
    TDMS_AddPropertyToGroup Group Buffer Size Name DataType Value
      = TDMS_AddPropertyToObject Group.GroupPath Buffer Size Name DataType Value ∧
    TDMS_AddPropertyToChannel Channel Buffer Size Name DataType Value
      = TDMS_AddPropertyToObject Channel.ChannelPath Buffer Size Name DataType Value := by
  refine ⟨⟨?_, ?_⟩, ?_, ?_, rfl, rfl, rfl⟩
  · intro h
    by_contra hacc
    have hret : (TDMS_AddPropertyToObject Path Buffer Size Name DataType Value).ret = TDMS_OK := by
      cases Buffer with
      | none => rw [AddProperty_query Path Size Name DataType Value hacc]
      | some b0 => exact (AddProperty_emit_size Path b0 Size Name DataType Value hacc).1
    rw [h] at hret
    exact TDMS_Result_t.noConfusion hret
  · intro h
    rw [AddProperty_reject Path Buffer Size Name DataType Value (fun hacc => hacc h)]
  · cases DataType <;> decide
  · intro h
    exact AddProperty_reject Path Buffer Size Name DataType Value (fun hacc => hacc h)

/-- C16: whenever `TDMS_SetChannelDataValues` returns on a Boolean channel with
n values, each of the n caller value bytes is 0 or 1, a byte that was 0 being
0 and every other byte 1, and when the call emits a segment its raw data, the
last n bytes of the segment, is this normalised sequence; on every non-Boolean
channel the caller's values are as before the call.  The call on a Boolean
channel does return when n < 65536, given fuel for the n + 1 tests of the
loop. -/
theorem C16_boolean_normalisation (fuel : Nat) (ch : TDMS_Channel_t) (Buffer : Option Mem)
    (Size : Nat) (Values : Mem) (n : Nat) (hwf : ch.WellFormed) (hn : n < 4294967296) :
    (∀ o, TDMS_SetChannelDataValues fuel ch Buffer Size Values n = some o →
      (ch.ChannelDataType = TDMS_DataType_Boolean →
        (∀ k, k < n → o.Values k = if Values k = 0 then 0 else 1) ∧
        (∀ b, o.ret = TDMS_OK → o.Buffer = some b →
          o.Size = 28 + 32 + ch.ChannelPath.length + n ∧
          bytesAt b (28 + 32 + ch.ChannelPath.length) (28 + 32 + ch.ChannelPath.length + n)
            = (List.range n).map (fun k => if Values k = 0 then 0 else 1))) ∧
      (ch.ChannelDataType ≠ TDMS_DataType_Boolean → o.Values = Values)) ∧
    (ch.ChannelDataType = TDMS_DataType_Boolean → n < 65536 → n < fuel →
      ∃ o, TDMS_SetChannelDataValues fuel ch Buffer Size Values n = some o) := by
  have hlen := channel_path_le ch hwf
  refine ⟨?_, ?_⟩
  · intro o ho
    by_cases hR : u32 (dataTypeLength ch.ChannelDataType * n) = 0
    · rw [SetChannel_wrongArg fuel ch Buffer Size Values n hR] at ho
      have ho2 := (Option.some.inj ho).symm
      refine ⟨fun hb => ⟨?_, ?_⟩, fun _ => by rw [ho2]⟩
      · have hn0 : n = 0 := by
          rw [hb] at hR
          simp only [dataTypeLength, u32] at hR
          omega
        intro k hk
        omega
      · intro b hret
        rw [ho2] at hret
        exact TDMS_Result_t.noConfusion hret
    · obtain ⟨hb65, h1⟩ := SetChannel_returned fuel ch Buffer Size Values n o ho hR
      have hterm : ch.ChannelDataType = TDMS_DataType_Boolean → n < 65536 ∧ n < n + 1 :=
        fun hbool => ⟨hb65 hbool, Nat.lt_succ_self n⟩
      obtain ⟨o2, h2, _, hval⟩ := SetChannel_ok (n + 1) ch Buffer Size Values n hR hterm
      rw [h1] at h2
      have hval2 : o.Values = valuesAfter ch.ChannelDataType n Values := by
        rw [Option.some.inj h2]; exact hval
      refine ⟨fun hb => ⟨?_, ?_⟩, fun hnb => by rw [hval2, valuesAfter, if_neg hnb]⟩
      · intro k hk
        rw [hval2, valuesAfter, if_pos hb]
        by_cases hz : Values k = 0 <;> simp [boolNorm, hk, hz]
      · intro b _ hbuf
        cases Buffer with
        | none =>
          rw [SetChannel_query (n + 1) ch Size Values n hR hterm] at h1
          rw [← Option.some.inj h1] at hbuf
          exact Option.noConfusion hbuf
        | some b0 =>
          have hw1 : dataTypeLength ch.ChannelDataType * n = n := by
            rw [hb]; simp only [dataTypeLength]; omega
          rw [SetChannel_emit (n + 1) ch b0 Size Values n hR hn (by omega) hterm] at h1
          rw [← Option.some.inj h1] at hbuf ⊢
          have hb2 := (Option.some.inj hbuf).symm
          have h65 := hb65 hb
          refine ⟨?_, ?_⟩
          · simp only [hw1]
            rw [u32_of_lt hn, u32_of_lt (by omega)]
          · rw [hb2, hw1, u32_of_lt hn, valuesAfter, if_pos hb]
            have hsuf := bytesAt_suffix b0
              (leadInBytes 0x0E (u32 (32 + ch.ChannelPath.length + n))
                (32 + ch.ChannelPath.length) ++ le32 1 ++ channelHeader ch n)
              (memDump (boolNorm n Values) n)
            simp only [List.length_append, leadInBytes_length, le32_length,
              channelHeader_length, memDump_length] at hsuf
            have e1 : 28 + 4 + (28 + ch.ChannelPath.length) = 28 + 32 + ch.ChannelPath.length := by
              omega
            rw [e1] at hsuf
            rw [hsuf]
            simp only [memDump]
            apply List.map_congr_left
            intro k hk
            have hk2 : k < n := List.mem_range.mp hk
            by_cases hz : Values k = 0 <;> simp [boolNorm, hk2, hz]
  · intro hb h65 hf
    by_cases hR : u32 (dataTypeLength ch.ChannelDataType * n) = 0
    · exact ⟨_, SetChannel_wrongArg fuel ch Buffer Size Values n hR⟩
    · obtain ⟨o, ho, _, _⟩ := SetChannel_ok fuel ch Buffer Size Values n hR (fun _ => ⟨h65, hf⟩)
      exact ⟨o, ho⟩

/-- Witness of C16: the Boolean channel `/'G'/'C'` with the value bytes 0 5 1:
the call returns, the values are 0 1 1 afterwards and so are the last three
bytes of the 71-byte segment. -/
theorem C16_boolean_normalisation_witness :
    exampleBoolChannel.WellFormed ∧
    ∃ o b, TDMS_SetChannelDataValues 4 exampleBoolChannel (some (fun _ => 0)) 0 boolValues 3
        = some o ∧
      (∀ k, k < 3 → o.Values k = if boolValues k = 0 then 0 else 1) ∧
      o.Buffer = some b ∧ o.Size = 71 ∧ bytesAt b 68 71 = [0, 1, 1] := by
  have he := SetChannel_emit_fits 4 exampleBoolChannel (fun _ => 0) 0 boolValues 3
    (by decide) (by decide) (by decide) (by decide)
  have h := ((C16_boolean_normalisation 4 exampleBoolChannel (some (fun _ => 0)) 0 boolValues 3
    (by decide) (by decide)).1 _ he).1 rfl
  have hb := h.2 _ rfl rfl
  exact ⟨by decide, _, _, he, h.1, rfl, hb.1, hb.2⟩

/-- C17: for every group of at most 8 channels (none included) and one
(values, count) pair for each channel, `TDMS_SetGroupDataValues` called with
all counts equal to zero returns `TDMS_OK`, sets `Size` to 0 and leaves the
buffer as it was, in size-query mode and in emit mode. -/
theorem C17_group_all_zero (Group : TDMS_Group_t) (Buffer : Option Mem) (Size : Nat)
    (args : List (Mem × Nat))
    (hcap : Group.ChannelArray.length ≤ TDMS_CONFIG_MAX_CHANNEL_OF_GROUP)
    (_hargs : args.length = Group.ChannelArray.length)
    (hzero : ∀ a ∈ args, a.2 = 0) :
    TDMS_SetGroupDataValues Group Buffer Size args = ⟨TDMS_OK, 0, Buffer⟩ := by
  refine Group_empty Group Buffer Size args
    (by simp only [TDMS_CONFIG_MAX_CHANNEL_OF_GROUP] at hcap; omega) ?_
  rw [included, List.filter_eq_nil_iff]
  intro x hx
  obtain ⟨ch, v, n⟩ := x
  have hmem := (List.of_mem_zip hx).2
  have h0 : n = 0 := hzero (v, n) hmem
  simp [h0]

/-- Witness of C17: the group with two U8 channels and both counts zero, in
size-query mode and in emit mode, and the group without channels. -/
theorem C17_group_all_zero_witness :
    TDMS_SetGroupDataValues twoChannelGroup none 5 [(fun _ => 7, 0), (fun _ => 7, 0)]
      = ⟨TDMS_OK, 0, none⟩ ∧
    TDMS_SetGroupDataValues twoChannelGroup (some (fun _ => 0xAA)) 5
        [(fun _ => 7, 0), (fun _ => 7, 0)]
      = ⟨TDMS_OK, 0, some (fun _ => 0xAA)⟩ ∧
    TDMS_SetGroupDataValues ⟨[], pathG⟩ (some (fun _ => 0xAA)) 5 []
      = ⟨TDMS_OK, 0, some (fun _ => 0xAA)⟩ :=
  ⟨C17_group_all_zero twoChannelGroup none 5 [(fun _ => 7, 0), (fun _ => 7, 0)]
      (by decide) (by decide) (by decide),
    C17_group_all_zero twoChannelGroup (some (fun _ => 0xAA)) 5 [(fun _ => 7, 0), (fun _ => 7, 0)]
      (by decide) (by decide) (by decide),
    C17_group_all_zero ⟨[], pathG⟩ (some (fun _ => 0xAA)) 5 [] (by decide) (by decide)
      (by decide)⟩

/-- C18: on a file holding at most `TDMS_CONFIG_MAX_GROUP_OF_FILE` (4) groups
`TDMS_AddGroupToFile` returns `TDMS_OUT_OF_CAP` if and only if the file already
holds 4 groups, and on a group holding at most
`TDMS_CONFIG_MAX_CHANNEL_OF_GROUP` (8) channels `TDMS_AddChannelToGroup` with a
type of nonzero fixed width returns `TDMS_OUT_OF_CAP` if and only if the group
already holds 8 channels; in both error cases the count and the array of
pointers of the container are as before the call. -/
theorem C18_capacity (h : Objects) (Group File Channel : Ptr) (Name ChannelName : List Nat)
    (DataType : TDMS_Data_t)
    (hf : (h.files File).NumOfGroups ≤ TDMS_CONFIG_MAX_GROUP_OF_FILE)
    (hg : (h.groups Group).NumOfChannels ≤ TDMS_CONFIG_MAX_CHANNEL_OF_GROUP)
    (hw : dataTypeLength DataType ≠ 0) :
    ((TDMS_AddGroupToFile h Group File Name).1 = TDMS_OUT_OF_CAP
      ↔ (h.files File).NumOfGroups = 4) ∧
    ((TDMS_AddGroupToFile h Group File Name).1 = TDMS_OUT_OF_CAP →
      ((TDMS_AddGroupToFile h Group File Name).2.files File).NumOfGroups
        = (h.files File).NumOfGroups ∧
      ((TDMS_AddGroupToFile h Group File Name).2.files File).GroupArray
        = (h.files File).GroupArray) ∧
    ((TDMS_AddChannelToGroup h Channel Group ChannelName DataType).1 = TDMS_OUT_OF_CAP
      ↔ (h.groups Group).NumOfChannels = 8) ∧
    ((TDMS_AddChannelToGroup h Channel Group ChannelName DataType).1 = TDMS_OUT_OF_CAP →
      ((TDMS_AddChannelToGroup h Channel Group ChannelName DataType).2.groups Group).NumOfChannels
        = (h.groups Group).NumOfChannels ∧
      ((TDMS_AddChannelToGroup h Channel Group ChannelName DataType).2.groups Group).ChannelArray
        = (h.groups Group).ChannelArray) := by
  simp only [TDMS_CONFIG_MAX_GROUP_OF_FILE] at hf
  simp only [TDMS_CONFIG_MAX_CHANNEL_OF_GROUP] at hg
  refine ⟨?_, ?_, ?_, ?_⟩
  · by_cases hfull : (h.files File).NumOfGroups ≥ 4
    · simp only [TDMS_AddGroupToFile, Objects.setGroup, TDMS_CONFIG_MAX_GROUP_OF_FILE,
        if_pos hfull, true_iff]
      omega
    · simp only [TDMS_AddGroupToFile, Objects.setGroup, TDMS_CONFIG_MAX_GROUP_OF_FILE,
        if_neg hfull]
      constructor
      · intro hc; exact TDMS_Result_t.noConfusion hc
      · intro hc; omega
  · by_cases hfull : (h.files File).NumOfGroups ≥ 4
    · intro _
      simp only [TDMS_AddGroupToFile, Objects.setGroup, TDMS_CONFIG_MAX_GROUP_OF_FILE,
        if_pos hfull, and_self]
    · simp only [TDMS_AddGroupToFile, Objects.setGroup, TDMS_CONFIG_MAX_GROUP_OF_FILE,
        if_neg hfull]
      intro hc; exact TDMS_Result_t.noConfusion hc
  · by_cases hfull : (h.groups Group).NumOfChannels ≥ 8
    · simp only [TDMS_AddChannelToGroup, Objects.setChannel, TDMS_CONFIG_MAX_CHANNEL_OF_GROUP,
        if_neg hw, if_pos hfull, true_iff]
      omega
    · simp only [TDMS_AddChannelToGroup, Objects.setChannel, TDMS_CONFIG_MAX_CHANNEL_OF_GROUP,
        if_neg hw, if_neg hfull]
      constructor
      · intro hc; exact TDMS_Result_t.noConfusion hc
      · intro hc; omega
  · by_cases hfull : (h.groups Group).NumOfChannels ≥ 8
    · intro _
      simp only [TDMS_AddChannelToGroup, Objects.setChannel, TDMS_CONFIG_MAX_CHANNEL_OF_GROUP,
        if_neg hw, if_pos hfull, and_self]
    · simp only [TDMS_AddChannelToGroup, Objects.setChannel, TDMS_CONFIG_MAX_CHANNEL_OF_GROUP,
        if_neg hw, if_neg hfull]
      intro hc; exact TDMS_Result_t.noConfusion hc

/-- Witness of C18: the full file at address 0 and its full group at address
1 (four groups, eight channels): adding the group at address 5 and adding the
U8 channel at address 9 both return `TDMS_OUT_OF_CAP`. -/
theorem C18_capacity_witness :
    (fullGroupObjects.files 0).NumOfGroups = 4 ∧
    (TDMS_AddGroupToFile fullGroupObjects 5 0 nameG).1 = TDMS_OUT_OF_CAP ∧
    (fullGroupObjects.groups 1).NumOfChannels = 8 ∧
    (TDMS_AddChannelToGroup fullGroupObjects 9 1 nameC TDMS_DataType_U8).1 = TDMS_OUT_OF_CAP :=
  ⟨by decide,
    (C18_capacity fullGroupObjects 5 0 9 nameG nameC TDMS_DataType_U8 (by decide) (by decide)
      (by decide)).1.2 (by decide),
    by decide,
    (C18_capacity fullGroupObjects 1 0 9 nameG nameC TDMS_DataType_U8 (by decide) (by decide)
      (by decide)).2.2.1.2 (by decide)⟩

/-- C19 (the code at the failing input): `TDMS_AddChannelToGroup` returns
`TDMS_WRONG_ARG` if and only if the fixed width of the data type is 0; with
`TDMS_DataType_String`, whose fixed width is 0, it returns `TDMS_WRONG_ARG` and
leaves the caller memory as it was, whatever room the group has; with a type
of nonzero fixed width and a group with room it returns `TDMS_OK`. -/
theorem C19_channel_type_check (h : Objects) (Channel Group : Ptr) (Name : List Nat)
    (DataType : TDMS_Data_t) :
    ((TDMS_AddChannelToGroup h Channel Group Name DataType).1 = TDMS_WRONG_ARG
      ↔ dataTypeLength DataType = 0) ∧
    TDMS_AddChannelToGroup h Channel Group Name TDMS_DataType_String = (TDMS_WRONG_ARG, h) ∧
    (dataTypeLength DataType ≠ 0 →
      (h.groups Group).NumOfChannels < TDMS_CONFIG_MAX_CHANNEL_OF_GROUP →
      (TDMS_AddChannelToGroup h Channel Group Name DataType).1 = TDMS_OK) := by
  refine ⟨?_, ?_, ?_⟩
  · by_cases hw : dataTypeLength DataType = 0
    · simp only [TDMS_AddChannelToGroup, if_pos hw]
      exact ⟨fun _ => hw, fun _ => trivial⟩
    · by_cases hfull : (h.groups Group).NumOfChannels ≥ 8
      · simp only [TDMS_AddChannelToGroup, Objects.setChannel, TDMS_CONFIG_MAX_CHANNEL_OF_GROUP,
          if_neg hw, if_pos hfull]
        exact ⟨fun hc => TDMS_Result_t.noConfusion hc, fun hc => absurd hc hw⟩
      · simp only [TDMS_AddChannelToGroup, Objects.setChannel, TDMS_CONFIG_MAX_CHANNEL_OF_GROUP,
          if_neg hw, if_neg hfull]
        exact ⟨fun hc => TDMS_Result_t.noConfusion hc, fun hc => absurd hc hw⟩
  · simp only [TDMS_AddChannelToGroup, dataTypeLength, if_true]
  · intro hw hroom
    have hfull : ¬ (h.groups Group).NumOfChannels ≥ 8 := by
      simp only [TDMS_CONFIG_MAX_CHANNEL_OF_GROUP] at hroom; omega
    simp only [TDMS_AddChannelToGroup, Objects.setChannel, TDMS_CONFIG_MAX_CHANNEL_OF_GROUP,
      if_neg hw, if_neg hfull]

/-- C20: a successful `TDMS_AddGroupToFile` grows the count of the file by
exactly one, stores the group at index old-count of the array, sets the number
of channels of the group to zero and leaves the entries at every other index,
the earlier ones among them, as they were; a successful
`TDMS_AddChannelToGroup` grows the count of the group by exactly one, stores
the channel at index old-count and leaves the entries at every other index as
they were.  The first call succeeds whenever the file holds fewer than 4
groups, the second whenever the type has nonzero fixed width and the group
holds fewer than 8 channels. -/
theorem C20_append_order (h : Objects) (Group File Channel : Ptr) (Name ChannelName : List Nat)
    (DataType : TDMS_Data_t) :
    ((TDMS_AddGroupToFile h Group File Name).1 = TDMS_OK →
      ((TDMS_AddGroupToFile h Group File Name).2.files File).NumOfGroups
        = (h.files File).NumOfGroups + 1 ∧
      ((TDMS_AddGroupToFile h Group File Name).2.files File).GroupArray
        (h.files File).NumOfGroups = Group ∧
      ((TDMS_AddGroupToFile h Group File Name).2.groups Group).NumOfChannels = 0 ∧
      ∀ i, i ≠ (h.files File).NumOfGroups →
        ((TDMS_AddGroupToFile h Group File Name).2.files File).GroupArray i
          = (h.files File).GroupArray i) ∧
    ((h.files File).NumOfGroups < TDMS_CONFIG_MAX_GROUP_OF_FILE →
      (TDMS_AddGroupToFile h Group File Name).1 = TDMS_OK) ∧
    ((TDMS_AddChannelToGroup h Channel Group ChannelName DataType).1 = TDMS_OK →
      ((TDMS_AddChannelToGroup h Channel Group ChannelName DataType).2.groups Group).NumOfChannels
        = (h.groups Group).NumOfChannels + 1 ∧
      ((TDMS_AddChannelToGroup h Channel Group ChannelName DataType).2.groups Group).ChannelArray
        (h.groups Group).NumOfChannels = Channel ∧
      ∀ i, i ≠ (h.groups Group).NumOfChannels →
        ((TDMS_AddChannelToGroup h Channel Group ChannelName DataType).2.groups Group).ChannelArray
          i = (h.groups Group).ChannelArray i) ∧
    (dataTypeLength DataType ≠ 0 →
      (h.groups Group).NumOfChannels < TDMS_CONFIG_MAX_CHANNEL_OF_GROUP →
      (TDMS_AddChannelToGroup h Channel Group ChannelName DataType).1 = TDMS_OK) := by
  refine ⟨?_, ?_, ?_, ?_⟩
  · by_cases hfull : (h.files File).NumOfGroups ≥ 4
    · simp only [TDMS_AddGroupToFile, Objects.setGroup, TDMS_CONFIG_MAX_GROUP_OF_FILE,
        if_pos hfull]
      intro hc; exact TDMS_Result_t.noConfusion hc
    · intro _
      have hu : u32 ((h.files File).NumOfGroups + 1) = (h.files File).NumOfGroups + 1 :=
        u32_of_lt (by omega)
      simp only [TDMS_AddGroupToFile, Objects.setGroup, Objects.setFile, setSlot,
        TDMS_CONFIG_MAX_GROUP_OF_FILE, if_neg hfull, if_true, hu, true_and]
      intro i hi
      rw [if_neg hi]
  · intro hroom
    have hfull : ¬ (h.files File).NumOfGroups ≥ 4 := by
      simp only [TDMS_CONFIG_MAX_GROUP_OF_FILE] at hroom; omega
    simp only [TDMS_AddGroupToFile, Objects.setGroup, TDMS_CONFIG_MAX_GROUP_OF_FILE,
      if_neg hfull]
  · by_cases hw : dataTypeLength DataType = 0
    · simp only [TDMS_AddChannelToGroup, if_pos hw]
      intro hc; exact TDMS_Result_t.noConfusion hc
    · by_cases hfull : (h.groups Group).NumOfChannels ≥ 8
      · simp only [TDMS_AddChannelToGroup, Objects.setChannel, TDMS_CONFIG_MAX_CHANNEL_OF_GROUP,
          if_neg hw, if_pos hfull]
        intro hc; exact TDMS_Result_t.noConfusion hc
      · intro _
        have hu : u32 ((h.groups Group).NumOfChannels + 1) = (h.groups Group).NumOfChannels + 1 :=
          u32_of_lt (by omega)
        simp only [TDMS_AddChannelToGroup, Objects.setChannel, Objects.setGroup, setSlot,
          TDMS_CONFIG_MAX_CHANNEL_OF_GROUP, if_neg hw, if_neg hfull, if_true, hu, true_and]
        intro i hi
        rw [if_neg hi]
  · intro hw hroom
    have hfull : ¬ (h.groups Group).NumOfChannels ≥ 8 := by
      simp only [TDMS_CONFIG_MAX_CHANNEL_OF_GROUP] at hroom; omega
    simp only [TDMS_AddChannelToGroup, Objects.setChannel, TDMS_CONFIG_MAX_CHANNEL_OF_GROUP,
      if_neg hw, if_neg hfull]

/-- Witness of C20: on caller memory of zero bytes, adding the group at address
1 to the file at address 0 and adding the U8 channel at address 1 to the group
at address 1 both return `TDMS_OK`; the counts become 1 and slot 0 holds the
added object. -/
theorem C20_append_order_witness :
    (TDMS_AddGroupToFile zeroObjects 1 0 nameG).1 = TDMS_OK ∧
    ((TDMS_AddGroupToFile zeroObjects 1 0 nameG).2.files 0).NumOfGroups = 1 ∧
    ((TDMS_AddGroupToFile zeroObjects 1 0 nameG).2.files 0).GroupArray 0 = 1 ∧
    ((TDMS_AddGroupToFile zeroObjects 1 0 nameG).2.groups 1).NumOfChannels = 0 ∧
    (TDMS_AddChannelToGroup zeroObjects 1 1 nameC TDMS_DataType_U8).1 = TDMS_OK ∧
    ((TDMS_AddChannelToGroup zeroObjects 1 1 nameC TDMS_DataType_U8).2.groups 1).NumOfChannels
      = 1 ∧
    ((TDMS_AddChannelToGroup zeroObjects 1 1 nameC TDMS_DataType_U8).2.groups 1).ChannelArray 0
      = 1 :=
  ⟨by decide,
    ((C20_append_order zeroObjects 1 0 1 nameG nameC TDMS_DataType_U8).1 (by decide)).1,
    ((C20_append_order zeroObjects 1 0 1 nameG nameC TDMS_DataType_U8).1 (by decide)).2.1,
    ((C20_append_order zeroObjects 1 0 1 nameG nameC TDMS_DataType_U8).1 (by decide)).2.2.1,
    by decide,
    ((C20_append_order zeroObjects 1 0 1 nameG nameC TDMS_DataType_U8).2.2.1 (by decide)).1,
    ((C20_append_order zeroObjects 1 0 1 nameG nameC TDMS_DataType_U8).2.2.1 (by decide)).2.1⟩

/-- C24 (the code at the failing input): `TDMS_TimeSecond(1904, 1, 1, 0, 0, 0)`
is 86400 and `TDMS_TimeSecond(1904, 1, 2, 0, 0, 1)` is 172801: within the base
year the day count is the day of the year, one more than the days since the
epoch, so that the last day of 1904 and the first day of 1905 get the same
second. -/
theorem C24_epoch_value :
    TDMS_TimeSecond 1904 1 1 0 0 0 = some 86400 ∧
    TDMS_TimeSecond 1904 1 2 0 0 1 = some 172801 ∧
    TDMS_TimeSecond 1904 12 31 0 0 0 = TDMS_TimeSecond 1905 1 1 0 0 0 := by
  refine ⟨by decide, by decide, by rfl⟩

/-- C25 (the code on its domain): for every valid civil instant with
1904 <= Y <= 32767 `TDMS_TimeSecond(Y, M, D, h, m, s)` returns
86400 * (days in the full years 1904..Y-1 + days in the full months 1..M-1 of
year Y + (D - 1)) + 3600*h + 60*m + s when Y > 1904, and that value plus 86400
when Y = 1904. -/
theorem C25_TimeSecond_formula (Y M D h m s : Nat) (hv : validCivil Y M D h m s)
    (hY : Y ≤ 32767) :
    TDMS_TimeSecond Y M D h m s
      = some (civilSeconds Y M D h m s + (if Y = 1904 then 86400 else 0)) := by
  have hD : D < 256 := by
    have h1 := hv.2.2.2.2.1
    have h2 : daysOfMonth Y M ≤ 31 := by
      unfold daysOfMonth; split_ifs <;> omega
    omega
  exact TimeSecond_eq Y M D h m s hv hY hD

set_option maxRecDepth 100000 in
/-- Witness of C25: 2023-05-17 12:14:10 is second 3767170450, and 1904-01-01
00:00:00, whose civil value is 0, is second 86400. -/
theorem C25_TimeSecond_formula_witness :
    validCivil 2023 5 17 12 14 10 ∧ civilSeconds 2023 5 17 12 14 10 = 3767170450 ∧
    TDMS_TimeSecond 2023 5 17 12 14 10
      = some (civilSeconds 2023 5 17 12 14 10 + (if 2023 = 1904 then 86400 else 0)) ∧
    validCivil 1904 1 1 0 0 0 ∧ civilSeconds 1904 1 1 0 0 0 = 0 ∧
    TDMS_TimeSecond 1904 1 1 0 0 0
      = some (civilSeconds 1904 1 1 0 0 0 + (if 1904 = 1904 then 86400 else 0)) :=
  ⟨by decide, by decide, C25_TimeSecond_formula 2023 5 17 12 14 10 (by decide) (by decide),
    by decide, by decide, C25_TimeSecond_formula 1904 1 1 0 0 0 (by decide) (by decide)⟩

/-- C26: for every year Y with 1904 <= Y <= 32767, if Y is a leap year then
`TDMS_TimeSecond(Y,3,1,0,0,0) - TDMS_TimeSecond(Y,2,29,0,0,0) = 86400`, and if Y
is not a leap year then
`TDMS_TimeSecond(Y,3,1,0,0,0) - TDMS_TimeSecond(Y,2,28,0,0,0) = 86400`. -/
theorem C26_leap_year_law (Y : Nat) (h1 : 1904 ≤ Y) (h2 : Y ≤ 32767) :
    (isLeapYear Y → ∃ a b, TDMS_TimeSecond Y 3 1 0 0 0 = some a ∧
      TDMS_TimeSecond Y 2 29 0 0 0 = some b ∧ a - b = 86400) ∧
    (¬ isLeapYear Y → ∃ a b, TDMS_TimeSecond Y 3 1 0 0 0 = some a ∧
      TDMS_TimeSecond Y 2 28 0 0 0 = some b ∧ a - b = 86400) := by
  have hmar : validCivil Y 3 1 0 0 0 := by
    refine ⟨h1, by decide, by decide, by decide, ?_, by decide, by decide, by decide⟩
    simp [daysOfMonth]
  have e3 : daysOfFullMonths Y 3 = 31 + daysOfMonth Y 2 := by
    simp [daysOfFullMonths, daysOfMonth, List.range_succ]
  have e2 : daysOfFullMonths Y 2 = 31 := by
    simp [daysOfFullMonths, daysOfMonth, List.range_succ]
  refine ⟨fun hl => ?_, fun hl => ?_⟩
  · have hfeb : validCivil Y 2 29 0 0 0 := by
      refine ⟨h1, by decide, by decide, by decide, ?_, by decide, by decide, by decide⟩
      simp [daysOfMonth, hl]
    refine ⟨_, _, TimeSecond_eq Y 3 1 0 0 0 hmar h2 (by decide),
      TimeSecond_eq Y 2 29 0 0 0 hfeb h2 (by decide), ?_⟩
    have ef : daysOfMonth Y 2 = 29 := by simp [daysOfMonth, hl]
    simp only [civilSeconds, e3, e2, ef]
    push_cast
    omega
  · have hfeb : validCivil Y 2 28 0 0 0 := by
      refine ⟨h1, by decide, by decide, by decide, ?_, by decide, by decide, by decide⟩
      simp [daysOfMonth, hl]
    refine ⟨_, _, TimeSecond_eq Y 3 1 0 0 0 hmar h2 (by decide),
      TimeSecond_eq Y 2 28 0 0 0 hfeb h2 (by decide), ?_⟩
    have ef : daysOfMonth Y 2 = 28 := by simp [daysOfMonth, hl]
    simp only [civilSeconds, e3, e2, ef]
    push_cast
    omega

/-- Witness of C26: the leap year 2000 and the common year 1900 + 123. -/
theorem C26_leap_year_law_witness :
    isLeapYear 2000 ∧
    (∃ a b, TDMS_TimeSecond 2000 3 1 0 0 0 = some a ∧
      TDMS_TimeSecond 2000 2 29 0 0 0 = some b ∧ a - b = 86400) ∧
    ¬ isLeapYear 2023 ∧
    (∃ a b, TDMS_TimeSecond 2023 3 1 0 0 0 = some a ∧
      TDMS_TimeSecond 2023 2 28 0 0 0 = some b ∧ a - b = 86400) :=
  ⟨by decide, (C26_leap_year_law 2000 (by decide) (by decide)).1 (by decide), by decide,
    (C26_leap_year_law 2023 (by decide) (by decide)).2 (by decide)⟩

/-- C27 (as amended): for every year Y < 1904 and every month, day, hour,
minute and second argument (8-bit values), `TDMS_TimeSecond(Y, M, D, h, m, s)`
returns 3600*h + 60*m + s, the day count being 0; this is 0 when
h = m = s = 0. -/
theorem C27_before_base_year (Y M D h m s : Nat) (hY : Y < 1904) (hh : h < 256) (hm : m < 256)
    (hs : s < 256) :
    TDMS_TimeSecond Y M D h m s = some (3600 * (h : Int) + 60 * (m : Int) + (s : Int)) ∧
    TDMS_TimeSecond Y M D 0 0 0 = some 0 := by
  have hd : TDMS_DateDef D M Y = some 0 := by
    unfold TDMS_DateDef
    rw [if_pos (by simp only [BaseYear]; omega)]
  refine ⟨?_, ?_⟩
  · unfold TDMS_TimeSecond
    rw [hd, Option.map_some']
    refine congrArg some ?_
    simp only [int64, ulong]
    omega
  · unfold TDMS_TimeSecond
    rw [hd, Option.map_some']
    rfl

/-- Witness of C27: one o'clock on 1903-01-01 gives 3600. -/
theorem C27_before_base_year_witness :
    TDMS_TimeSecond 1903 1 1 1 0 0 = some (3600 * ((1 : Nat) : Int) + 60 * ((0 : Nat) : Int)
      + ((0 : Nat) : Int)) ∧
    TDMS_TimeSecond 1903 1 1 0 0 0 = some 0 :=
  C27_before_base_year 1903 1 1 1 0 0 (by decide) (by decide) (by decide) (by decide)

/-- Counterexample to C27 as stated: `TDMS_TimeSecond(1903, 1, 1, 1, 0, 0)`
returns 3600, not 0. -/
theorem C27_counterexample : TDMS_TimeSecond 1903 1 1 1 0 0 = some 3600 := by
  decide

/-- C28 (as amended): `TDMS_TimeSecond(1905, 1, 1, 0, 0, 0)` is 366 * 86400,
the year 1904 being a leap year. -/
theorem C28_first_day_of_1905 :
    TDMS_TimeSecond 1905 1 1 0 0 0 = some (366 * 86400) ∧ isLeapYear 1904 ∧
    daysOfFullYears 1905 = 366 := by
  refine ⟨by rfl, by decide, by decide⟩

/-- Counterexample to C28 as stated: `TDMS_TimeSecond(1905, 1, 1, 0, 0, 0)` is
31622400, which is not 365 * 86400 = 31536000. -/
theorem C28_counterexample :
    TDMS_TimeSecond 1905 1 1 0 0 0 = some 31622400 ∧ (31622400 : Int) ≠ 365 * 86400 := by
  refine ⟨by rfl, by decide⟩

/-- C21 (as amended): starting from `TDMS_InitFile`, after any finite sequence
of `TDMS_AddGroupToFile` calls on the file and `TDMS_AddChannelToGroup` calls,
successful or failing, the group count of the file is at most 4 and equals the
number of successful add-group calls, the first entries of its array being
the groups of these calls in order; and when the group objects passed to
`TDMS_AddGroupToFile` are distinct, the channel count of every attached group
is at most 8 and equals the number of successful add-channel calls made on it
after it was attached, the first entries of its array being the channels of
these calls in order. -/
theorem C21_counts (h0 : Objects) (File : Ptr) (calls : List Call) :
    ((runCalls File (TDMS_InitFile h0 File).2 calls).2.files File).NumOfGroups
      ≤ TDMS_CONFIG_MAX_GROUP_OF_FILE ∧
    ((runCalls File (TDMS_InitFile h0 File).2 calls).2.files File).NumOfGroups
      = (okGroups (runCalls File (TDMS_InitFile h0 File).2 calls).1).length ∧
    (List.range ((runCalls File (TDMS_InitFile h0 File).2 calls).2.files File).NumOfGroups).map
        ((runCalls File (TDMS_InitFile h0 File).2 calls).2.files File).GroupArray
      = okGroups (runCalls File (TDMS_InitFile h0 File).2 calls).1 ∧
    ((groupsAdded calls).Nodup →
      ∀ G ∈ okGroups (runCalls File (TDMS_InitFile h0 File).2 calls).1,
        ((runCalls File (TDMS_InitFile h0 File).2 calls).2.groups G).NumOfChannels
          ≤ TDMS_CONFIG_MAX_CHANNEL_OF_GROUP ∧
        ((runCalls File (TDMS_InitFile h0 File).2 calls).2.groups G).NumOfChannels
          = (okChannels G
              (afterAttached G (runCalls File (TDMS_InitFile h0 File).2 calls).1)).length ∧
        (List.range
            ((runCalls File (TDMS_InitFile h0 File).2 calls).2.groups G).NumOfChannels).map
            ((runCalls File (TDMS_InitFile h0 File).2 calls).2.groups G).ChannelArray
          = okChannels G
              (afterAttached G (runCalls File (TDMS_InitFile h0 File).2 calls).1)) := by
  have hinit : ((TDMS_InitFile h0 File).2.files File).NumOfGroups = 0 := by
    simp only [TDMS_InitFile, Objects.setFile, if_true]
  have hf := file_counts File calls (TDMS_InitFile h0 File).2 (by rw [hinit]; omega)
  rw [hinit] at hf
  simp only [Nat.zero_add, List.range_zero, List.map_nil, List.nil_append] at hf
  exact ⟨hf.2.1, hf.1, hf.2.2, fun hnd G hG =>
    attached_counts File G calls (TDMS_InitFile h0 File).2 hnd hG⟩

/-- Witness of C21: five add-group calls and nine add-channel calls on the
first group, on caller memory of zero bytes: the groups 1 to 4 are attached and
the first group holds 8 channels. -/
theorem C21_counts_witness :
    (groupsAdded fiveGroupsNineChannels).Nodup ∧
    okGroups (runCalls 0 (TDMS_InitFile zeroObjects 0).2 fiveGroupsNineChannels).1
      = [1, 2, 3, 4] ∧
    ((runCalls 0 (TDMS_InitFile zeroObjects 0).2 fiveGroupsNineChannels).2.files 0).NumOfGroups
      = (okGroups (runCalls 0 (TDMS_InitFile zeroObjects 0).2 fiveGroupsNineChannels).1).length ∧
    okChannels 1 (afterAttached 1
        (runCalls 0 (TDMS_InitFile zeroObjects 0).2 fiveGroupsNineChannels).1)
      = [1, 2, 3, 4, 5, 6, 7, 8] ∧
    ((runCalls 0 (TDMS_InitFile zeroObjects 0).2 fiveGroupsNineChannels).2.groups 1).NumOfChannels
      = (okChannels 1 (afterAttached 1
          (runCalls 0 (TDMS_InitFile zeroObjects 0).2 fiveGroupsNineChannels).1)).length :=
  ⟨by decide, by decide, (C21_counts zeroObjects 0 fiveGroupsNineChannels).2.1, by decide,
    ((C21_counts zeroObjects 0 fiveGroupsNineChannels).2.2.2 (by decide) 1 (by decide)).2.1⟩

/-- Counterexample to C21 as stated: on caller memory of zero bytes, after
`TDMS_InitFile`, adding the channel at address 1 to the group at address 1 and
then adding this group to the file are two successful calls on one group
object and one channel object; the group is attached, one add-channel call on
it has succeeded, and its channel count is 0. -/
theorem C21_counterexample :
    (runCalls 0 (TDMS_InitFile zeroObjects 0).2 channelBeforeGroup).1.map (fun x => x.2)
      = [TDMS_OK, TDMS_OK] ∧
    okGroups (runCalls 0 (TDMS_InitFile zeroObjects 0).2 channelBeforeGroup).1 = [1] ∧
    (okChannels 1 (runCalls 0 (TDMS_InitFile zeroObjects 0).2 channelBeforeGroup).1).length
      = 1 ∧
    ((runCalls 0 (TDMS_InitFile zeroObjects 0).2 channelBeforeGroup).2.groups 1).NumOfChannels
      = 0 := by
  decide

/-- C29 (as amended): `TDMS_SetChannelDataValues` and `TDMS_SetGroupDataValues`
make no check of the segment size.  For counts below 2^32 and channel paths
that fit their arrays, whenever every raw length count * fixed width of a
channel with a nonzero count is nonzero as a 32-bit value (n < 65536 on a
Boolean channel, with fuel for its loop; for the group call a group within its
capacity of 8 channels and at least one nonzero count) the call returns
`TDMS_OK`, in size-query and in emit mode, and reports as `Size` the sum
28 + metadata length + sum of count_i * fixed_width(type_i) reduced modulo
2^32, whether or not that sum fits in 32 bits.  In emit mode the lead-in that
the call writes carries the next-segment offset metadata length + raw length
reduced modulo 2^32 and the raw-data offset metadata length: they are the
fields [12..20) and [20..28) of the buffer that `TDMS_SetChannelDataValues`
returns, and of the buffer on which `TDMS_SetGroupDataValues` runs its raw
data loop, from the position 28 + metadata length. -/
theorem C29_no_size_check (fuel : Nat) (ch : TDMS_Channel_t) (Buffer : Option Mem) (Size : Nat)
    (Values : Mem) (n : Nat) (Group : TDMS_Group_t) (GroupBuffer : Option Mem)
    (args : List (Mem × Nat))
    (hwf : ch.WellFormed) (hn : n < 4294967296)
    (hR : u32 (dataTypeLength ch.ChannelDataType * n) ≠ 0)
    (hterm : ch.ChannelDataType = TDMS_DataType_Boolean → n < 65536 ∧ n < fuel)
    (hgwf : Group.WellFormed)
    (hcnt : ∀ x ∈ Group.ChannelArray.zip args, x.2.2 < 4294967296)
    (hne : included (Group.ChannelArray.zip args) ≠ [])
    (hok : rawLenOK (Group.ChannelArray.zip args)) :
    ((TDMS_SetChannelDataValues fuel ch Buffer Size Values n).map (fun o => (o.ret, o.Size))
      = some (TDMS_OK,
          u32 (28 + 32 + ch.ChannelPath.length + dataTypeLength ch.ChannelDataType * n))) ∧
    (∀ b0 : Mem, ∃ b : Mem,
      (TDMS_SetChannelDataValues fuel ch (some b0) Size Values n).map (fun o => o.Buffer)
        = some (some b) ∧
      field64 b 12 = u32 (32 + ch.ChannelPath.length + dataTypeLength ch.ChannelDataType * n) ∧
      field64 b 20 = 32 + ch.ChannelPath.length) ∧
    ((TDMS_SetGroupDataValues Group GroupBuffer Size args).ret = TDMS_OK ∧
     (TDMS_SetGroupDataValues Group GroupBuffer Size args).Size
      = u32 (28 + 4 + groupMetaSize (Group.ChannelArray.zip args)
          + groupRawSize (Group.ChannelArray.zip args))) ∧
    (∀ b0 : Mem, ∃ c : Cursor,
      field64 c.Buffer 12 = u32 (4 + groupMetaSize (Group.ChannelArray.zip args)
          + groupRawSize (Group.ChannelArray.zip args)) ∧
      field64 c.Buffer 20 = 4 + groupMetaSize (Group.ChannelArray.zip args) ∧
      c.DataSize = 28 + 4 + groupMetaSize (Group.ChannelArray.zip args) ∧
      (TDMS_SetGroupDataValues Group (some b0) Size args).Buffer
        = some (SetGroupDataValues.emitRaw c (Group.ChannelArray.zip args)).Buffer) := by
  have hlen := channel_path_le ch hwf
  obtain ⟨_, hcap, hchwf⟩ := hgwf
  have hcap2 : Group.ChannelArray.length < 4294967296 := by
    simp only [TDMS_CONFIG_MAX_CHANNEL_OF_GROUP] at hcap; omega
  refine ⟨?_, fun b0 => ?_, ?_, fun b0 => ?_⟩
  · cases Buffer with
    | none => rw [SetChannel_query fuel ch Size Values n hR hterm]; rfl
    | some b0 =>
      rw [SetChannel_emit fuel ch b0 Size Values n hR hn (by omega) hterm, Option.map_some',
        u32_add_right]
  · rw [SetChannel_emit fuel ch b0 Size Values n hR hn (by omega) hterm, Option.map_some']
    refine ⟨_, rfl, ?_, ?_⟩
    · simp only [List.append_assoc]
      rw [field64_next _ _ _ _ _ (Nat.lt_trans (u32_lt _) (by decide)), u32_add_right]
    · simp only [List.append_assoc]
      rw [field64_raw _ _ _ _ _ (by omega)]
  · cases GroupBuffer with
    | none =>
      rw [Group_query Group Size args hcap2 hne hok]
      exact ⟨rfl, rfl⟩
    | some b0 =>
      obtain ⟨h1, h2, _⟩ := Group_emit_size Group b0 Size args hcap2 hne hok
      exact ⟨h1, h2⟩
  · have hM := groupMetaSize_le (Group.ChannelArray.zip args)
      (fun x hx => hchwf x.1 (List.of_mem_zip hx).1)
    have hzl : (Group.ChannelArray.zip args).length ≤ 8 := by
      rw [List.length_zip]
      simp only [TDMS_CONFIG_MAX_CHANNEL_OF_GROUP] at hcap
      omega
    have hMu : u32 (4 + groupMetaSize (Group.ChannelArray.zip args))
        = 4 + groupMetaSize (Group.ChannelArray.zip args) := u32_of_lt (by omega)
    have c0 := Cursor.leadIn_holds b0 (kTocRawData ||| kTocNewObjList ||| kTocMetaData)
      (u32 (u32 (4 + groupMetaSize (Group.ChannelArray.zip args))
        + u32 (groupRawSize (Group.ChannelArray.zip args))))
      (u32 (4 + groupMetaSize (Group.ChannelArray.zip args)))
    have c1 := Cursor.save32_holds (included (Group.ChannelArray.zip args)).length c0 (by simp)
      (by simp [leadInBytes_length])
    have c2 := emitMeta_holds (Group.ChannelArray.zip args) c1 hok hcnt
      (by simp only [List.length_append, leadInBytes_length, le32_length]; omega)
    refine ⟨_, ?_, ?_, ?_, congrArg Out.Buffer
      (Group_emit_struct Group b0 Size args hcap2 hne hok)⟩
    · rw [c2.1]
      simp only [List.append_assoc, List.append_nil]
      rw [field64_next _ _ _ _ _ (Nat.lt_trans (u32_lt _) (by decide)), u32_add_left,
        u32_add_right]
    · rw [c2.1]
      simp only [List.append_assoc, List.append_nil]
      rw [field64_raw _ _ _ _ _ (Nat.lt_trans (u32_lt _) (by decide)), hMu]
    · rw [c2.2]
      simp only [List.length_append, leadInBytes_length, le32_length, groupHeaders_length]

/-- Witness of C29: the count 2^32 - 1 on the U8 channel `/'G'/'C'` and on the
group `G` holding it: the size queries return `TDMS_OK` with the wrapped size
67, and the lead-in written in emit mode carries the next-segment offset 39
and the raw-data offset 40 (channel call) and 36 (group call). -/
theorem C29_no_size_check_witness :
    exampleChannel.WellFormed ∧ exampleGroup.WellFormed ∧
    u32 (dataTypeLength exampleChannel.ChannelDataType * 4294967295) ≠ 0 ∧
    u32 (28 + 32 + exampleChannel.ChannelPath.length
      + dataTypeLength exampleChannel.ChannelDataType * 4294967295) = 67 ∧
    u32 (32 + exampleChannel.ChannelPath.length
      + dataTypeLength exampleChannel.ChannelDataType * 4294967295) = 39 ∧
    (TDMS_SetChannelDataValues 0 exampleChannel none 0 (fun _ => 0) 4294967295).map
        (fun o => (o.ret, o.Size))
      = some (TDMS_OK, u32 (28 + 32 + exampleChannel.ChannelPath.length
          + dataTypeLength exampleChannel.ChannelDataType * 4294967295)) ∧
    (∃ b : Mem,
      (TDMS_SetChannelDataValues 0 exampleChannel (some (fun _ => 0)) 0 (fun _ => 0)
          4294967295).map (fun o => o.Buffer) = some (some b) ∧
      field64 b 12 = u32 (32 + exampleChannel.ChannelPath.length
          + dataTypeLength exampleChannel.ChannelDataType * 4294967295) ∧
      field64 b 20 = 32 + exampleChannel.ChannelPath.length) ∧
    (TDMS_SetGroupDataValues exampleGroup none 0 [(fun _ => 0, 4294967295)]).ret = TDMS_OK ∧
    (TDMS_SetGroupDataValues exampleGroup none 0 [(fun _ => 0, 4294967295)]).Size
      = u32 (28 + 4
          + groupMetaSize (exampleGroup.ChannelArray.zip [((fun _ => 0 : Mem), 4294967295)])
          + groupRawSize (exampleGroup.ChannelArray.zip [((fun _ => 0 : Mem), 4294967295)])) ∧
    (∃ c : Cursor,
      field64 c.Buffer 12 = u32 (4
          + groupMetaSize (exampleGroup.ChannelArray.zip [((fun _ => 0 : Mem), 4294967295)])
          + groupRawSize (exampleGroup.ChannelArray.zip [((fun _ => 0 : Mem), 4294967295)])) ∧
      field64 c.Buffer 20 = 4
          + groupMetaSize (exampleGroup.ChannelArray.zip [((fun _ => 0 : Mem), 4294967295)]) ∧
      c.DataSize = 28 + 4
          + groupMetaSize (exampleGroup.ChannelArray.zip [((fun _ => 0 : Mem), 4294967295)]) ∧
      (TDMS_SetGroupDataValues exampleGroup (some (fun _ => 0)) 0
          [(fun _ => 0, 4294967295)]).Buffer
        = some (SetGroupDataValues.emitRaw c
            (exampleGroup.ChannelArray.zip [((fun _ => 0 : Mem), 4294967295)])).Buffer) :=
  ⟨by decide, by decide, by decide, by decide, by decide,
    (C29_no_size_check 0 exampleChannel none 0 (fun _ => 0) 4294967295 exampleGroup none
      [(fun _ => 0, 4294967295)] (by decide) (by decide) (by decide) (by decide) (by decide)
      (by simp [exampleGroup]) (by simp [included, exampleGroup]) (by decide)).1,
    (C29_no_size_check 0 exampleChannel none 0 (fun _ => 0) 4294967295 exampleGroup none
      [(fun _ => 0, 4294967295)] (by decide) (by decide) (by decide) (by decide) (by decide)
      (by simp [exampleGroup]) (by simp [included, exampleGroup]) (by decide)).2.1 (fun _ => 0),
    (C29_no_size_check 0 exampleChannel none 0 (fun _ => 0) 4294967295 exampleGroup none
      [(fun _ => 0, 4294967295)] (by decide) (by decide) (by decide) (by decide) (by decide)
      (by simp [exampleGroup]) (by simp [included, exampleGroup]) (by decide)).2.2.1.1,
    (C29_no_size_check 0 exampleChannel none 0 (fun _ => 0) 4294967295 exampleGroup none
      [(fun _ => 0, 4294967295)] (by decide) (by decide) (by decide) (by decide) (by decide)
      (by simp [exampleGroup]) (by simp [included, exampleGroup]) (by decide)).2.2.1.2,
    (C29_no_size_check 0 exampleChannel none 0 (fun _ => 0) 4294967295 exampleGroup none
      [(fun _ => 0, 4294967295)] (by decide) (by decide) (by decide) (by decide) (by decide)
      (by simp [exampleGroup]) (by simp [included, exampleGroup]) (by decide)).2.2.2 (fun _ => 0)⟩

/-- Counterexample to C29 as stated: on the U8 channel `/'G'/'C'` and on the
group `G` holding it the count 2^32 - 1 makes the segment size 4294967363,
which does not fit in 32 bits; both size queries return `TDMS_OK`, with the
size 67. -/
theorem C29_counterexample :
    4294967296 ≤ 28 + 32 + exampleChannel.ChannelPath.length
      + 4294967295 * dataTypeLength exampleChannel.ChannelDataType ∧
    (TDMS_SetChannelDataValues 0 exampleChannel none 0 (fun _ => 0) 4294967295).map
        (fun o => (o.ret, o.Size)) = some (TDMS_OK, 67) ∧
    4294967296 ≤ groupSize (exampleGroup.ChannelArray.zip [((fun _ => 0 : Mem), 4294967295)]) ∧
    (TDMS_SetGroupDataValues exampleGroup none 0 [(fun _ => 0, 4294967295)]).ret = TDMS_OK ∧
    (TDMS_SetGroupDataValues exampleGroup none 0 [(fun _ => 0, 4294967295)]).Size = 67 := by
  refine ⟨by decide, ?_, by decide, by decide, by decide⟩
  rw [SetChannel_query 0 exampleChannel 0 (fun _ => 0) 4294967295 (by decide) (by decide)]
  decide

/-- C30 (the code at the failing input): on a Boolean channel a call of
`TDMS_SetChannelDataValues` with 65536 <= n < 2^32 does not return, whatever
the number of loop tests allowed: the 16-bit counter wraps to 0 before it
reaches n.  On every other channel, and on a Boolean channel with n < 65536,
the call returns within n + 1 loop tests. -/
theorem C30_boolean_loop (ch : TDMS_Channel_t) (Buffer : Option Mem) (Size : Nat)
    (Values : Mem) (n : Nat) :
    (ch.ChannelDataType = TDMS_DataType_Boolean → 65536 ≤ n → n < 4294967296 →
      ∀ fuel, TDMS_SetChannelDataValues fuel ch Buffer Size Values n = none) ∧
    ((ch.ChannelDataType = TDMS_DataType_Boolean → n < 65536) →
      ∃ o, TDMS_SetChannelDataValues (n + 1) ch Buffer Size Values n = some o) := by
  refine ⟨fun hb hge hlt fuel => ?_, fun hsmall => ?_⟩
  · have hR : ¬ u32 (dataTypeLength TDMS_DataType_Boolean * n) = 0 := by
      simp only [dataTypeLength, u32]; omega
    have hd := boolLoop_diverges n hge fuel 0 Values (by decide)
    simp only [TDMS_SetChannelDataValues, hb, if_neg hR, if_true, hd]
  · by_cases hR : u32 (dataTypeLength ch.ChannelDataType * n) = 0
    · exact ⟨_, SetChannel_wrongArg (n + 1) ch Buffer Size Values n hR⟩
    · obtain ⟨o, ho, _, _⟩ := SetChannel_ok (n + 1) ch Buffer Size Values n hR
        (fun hb => ⟨hsmall hb, Nat.lt_succ_self n⟩)
      exact ⟨o, ho⟩

/-- C23 (as amended): in the legacy encoder with `TDMS_GROUP_NAME_LEN` = 30,
`TDMS_AddGroup`, given a name shorter than 65536 bytes and a description that
fits its array, on a file with or without room, returns `TDMS_WRONG_ARG` if and
only if the name is longer than 29 bytes (the array of 30 bytes also holds
the terminator); and whenever it returns `TDMS_WRONG_ARG`, for any name and
description, the file object is as before the call: its group count and its
group array are unchanged. -/
theorem C23_legacy_name_bound (cfg : Legacy.Config) (h : Legacy.Objects) (File Group : Ptr)
    (Name Description : List Nat)
    (hname : Name.length < 65536)
    (hcfg : cfg.TDMS_GROUP_DESCRIPTION_LEN < 65536)
    (hdesc : Description.length < cfg.TDMS_GROUP_DESCRIPTION_LEN) :
    ((Legacy.TDMS_AddGroup cfg h File Name Description Group).1 = TDMS_WRONG_ARG
      ↔ 29 < Name.length) ∧
    (∀ (AnyName AnyDescription : List Nat),
      (Legacy.TDMS_AddGroup cfg h File AnyName AnyDescription Group).1 = TDMS_WRONG_ARG →
      ((Legacy.TDMS_AddGroup cfg h File AnyName AnyDescription Group).2.files File).NumOfGroups
        = (h.files File).NumOfGroups ∧
      ((Legacy.TDMS_AddGroup cfg h File AnyName AnyDescription Group).2.files File).GroupArray
        = (h.files File).GroupArray) := by
  refine ⟨⟨fun hret => ?_, fun hlong => ?_⟩, fun AnyName AnyDescription hret => ?_⟩
  · by_contra hshort
    have hN : Name.length < TDMS_GROUP_NAME_LEN := by
      simp only [TDMS_GROUP_NAME_LEN]; omega
    exact (Legacy_AddGroup_path cfg h File Name Description Group hN hcfg hdesc).1 hret
  · have e1 := fun Dest => StrnCpy_long Dest Name TDMS_GROUP_NAME_LEN
      (by simp only [TDMS_GROUP_NAME_LEN]; omega) hname
    simp only [Legacy.TDMS_AddGroup, e1, ne_eq, if_true, not_false_eq_true,
      reduceCtorEq]
  · have hf := Legacy_AddGroup_files cfg h File AnyName AnyDescription Group
      (by rw [hret]; exact fun hc => TDMS_Result_t.noConfusion hc)
    rw [hf]
    exact ⟨rfl, rfl⟩

/-- Witness of C23: on caller memory of zero bytes, with description arrays of
30 bytes, the name `G` is accepted and a name of 31 bytes is rejected. -/
theorem C23_legacy_name_bound_witness :
    (Legacy.TDMS_AddGroup Legacy.exampleConfig Legacy.zeroObjects 0 nameG [] 1).1 = TDMS_OK ∧
    ((Legacy.TDMS_AddGroup Legacy.exampleConfig Legacy.zeroObjects 0
        (List.replicate 31 0x41) [] 1).1 = TDMS_WRONG_ARG
      ↔ 29 < (List.replicate 31 0x41).length) :=
  ⟨by decide,
    (C23_legacy_name_bound Legacy.exampleConfig Legacy.zeroObjects 0 1 (List.replicate 31 0x41) []
      (by decide) (by decide) (by decide)).1⟩

/-- Counterexample to C23 as stated: a name of 30 bytes is not longer than 30
bytes, and `TDMS_AddGroup` with an empty description on a file without groups
returns `TDMS_WRONG_ARG`. -/
theorem C23_counterexample :
    name30.length = 30 ∧
    (Legacy.zeroObjects.files 0).NumOfGroups = 0 ∧
    (Legacy.TDMS_AddGroup Legacy.exampleConfig Legacy.zeroObjects 0 name30 [] 1).1
      = TDMS_WRONG_ARG := by
  decide

/-- C31 (the code at the failing input): `TDMS_SaveDataLittleEndian32` returns 4
and stores the four bytes of the value least significant first;
`TDMS_SaveDataLittleEndian64` returns 8 and stores the eight bytes of the value
reduced to 32 bits, so that for the value 2^32 it stores eight zero bytes where
the little-endian form is 00 00 00 00 01 00 00 00. -/
theorem C31_savers (data : Mem) (off v : Nat) :
    (TDMS_SaveDataLittleEndian32 data off v).2 = 4 ∧
    bytesAt (TDMS_SaveDataLittleEndian32 data off v).1 off (off + 4) = le32 (u32 v) ∧
    (TDMS_SaveDataLittleEndian64 data off v).2 = 8 ∧
    bytesAt (TDMS_SaveDataLittleEndian64 data off v).1 off (off + 8) = le64 (u32 v) ∧
    bytesAt (TDMS_SaveDataLittleEndian64 data off 4294967296).1 off (off + 8)
      = [0, 0, 0, 0, 0, 0, 0, 0] ∧
    le64 4294967296 = [0, 0, 0, 0, 1, 0, 0, 0] := by
  have h32 : bytesAt (TDMS_SaveDataLittleEndian32 data off v).1 off (off + 4) = le32 (u32 v) := by
    simp only [TDMS_SaveDataLittleEndian32, save32_bytes, le32_u32]
    exact bytesAt_writeBytes data off (le32 v)
  have h64 : ∀ w, bytesAt (TDMS_SaveDataLittleEndian64 data off w).1 off (off + 8)
      = le64 (u32 w) := by
    intro w
    simp only [TDMS_SaveDataLittleEndian64, save64_bytes]
    have e : saved64 w = le64 (u32 w) := by
      rw [← saved64_eq_le64 (u32_lt w), saved64, saved64, le32_u32]
    rw [← e]
    exact bytesAt_writeBytes data off (saved64 w)
  refine ⟨rfl, h32, rfl, h64 v, ?_, by decide⟩
  rw [h64]; decide

/-- C32 (the code at the failing input): with the `#else` branch compiled the
loop of `TDMS_SaveDataLittleEndian32` reads the union bytes 4, 3, 2, 1, the
first of them outside the 4-byte union; on a host that stores the value most
significant byte first the value 0x01020304 is stored as the byte found behind
the union followed by 04 03 02, and with the `== 0` branch compiled as
01 02 03 04, where the little-endian form is 04 03 02 01. -/
theorem C32_big_endian_host (beyond : Nat) (data : Mem) (off : Nat) :
    (List.range 4).map (TDMS_SaveDataLittleEndian32.index 1) = [4, 3, 2, 1] ∧
    bytesAt (TDMS_SaveDataLittleEndian32.onHost 1 1 beyond data off 0x01020304).1 off (off + 4)
      = [beyond, 0x04, 0x03, 0x02] ∧
    bytesAt (TDMS_SaveDataLittleEndian32.onHost 0 1 beyond data off 0x01020304).1 off (off + 4)
      = [0x01, 0x02, 0x03, 0x04] ∧
    le32 0x01020304 = [0x04, 0x03, 0x02, 0x01] := by
  refine ⟨by decide, ?_, ?_, by decide⟩
  · exact bytesAt_writeBytes data off [beyond, 0x04, 0x03, 0x02]
  · exact bytesAt_writeBytes data off [0x01, 0x02, 0x03, 0x04]

/-- C33 (as amended): for every ToC value t passed to `TDMS_GenerateLeadInPart`
the ToC field of the lead-in, bytes [4..8) read as a little-endian u32, is
t AND 0x000000EE, and the mask keeps the kMetaData bit: bit 0x02 of the emitted
field is bit 0x02 of t. -/
theorem C33_toc_mask (LeadInSTR : Mem) (t Next Raw : Nat) :
    leValue (bytesAt (TDMS_GenerateLeadInPart LeadInSTR 0 t Next Raw) 4 8) = t &&& 0x000000EE ∧
    (leValue (bytesAt (TDMS_GenerateLeadInPart LeadInSTR 0 t Next Raw) 4 8) &&& kTocMetaData
      = t &&& kTocMetaData) := by
  have hb : bytesAt (TDMS_GenerateLeadInPart LeadInSTR 0 t Next Raw) 4 8 = le32 (t &&& 0xEE) := by
    rw [leadIn_bytes]
    have := (bytesAt_leadIn LeadInSTR (t &&& 0xEE) Next Raw []).2.1
    rwa [List.append_nil] at this
  have hlt : t &&& 0xEE < 256 := Nat.lt_of_le_of_lt Nat.and_le_right (by decide)
  rw [hb, (leValue_le32_small _ hlt).2]
  refine ⟨rfl, ?_⟩
  rw [Nat.and_assoc]
  rfl

/-- Counterexample to C33 as stated: the lead-in generated for the ToC value
kMetaData has bit 0x02 set in its ToC field, and so has the declaration of the
empty file, whose builder passes kMetaData | kNewObjList. -/
theorem C33_counterexample :
    leValue (bytesAt (TDMS_GenerateLeadInPart (fun _ => 0) 0 kTocMetaData 0 0) 4 8) &&& 0x02
      = 0x02 ∧
    (TDMS_GenFirstPart ⟨[]⟩ (some (fun _ => 0)) 0).Buffer.map
      (fun b => leValue (bytesAt b 4 8) &&& 0x02) = some 0x02 := by
  decide

/-- C34 (the code on its domain): for every file of the legacy encoder within
the capacities whose strings are shorter than 65536 bytes, `TDMS_GenFirstPart`
returns `TDMS_OK` and reports the same `Size` with a NULL buffer and with a
non-NULL buffer, the precomputed 28 + (53 + 22 + the three file string lengths)
+ per group (24 + 11 + len(path) + len(description)) + per channel (36 + 15 +
len(path) + len(description) + len(unit)); the emit call writes a segment of
that many bytes and, behind it, one zero byte at index `Size`. -/
theorem C34_legacy_first_part (File : Legacy.TDMS_File_t) (hwf : File.WellFormed) (b0 : Mem)
    (Size : Nat) :
    Legacy.TDMS_GenFirstPart File none Size = ⟨TDMS_OK, 28 + Legacy.metaLen File, none⟩ ∧
    ∃ seg : List Nat, seg.length = 28 + Legacy.metaLen File ∧
      Legacy.TDMS_GenFirstPart File (some b0) Size
        = ⟨TDMS_OK, 28 + Legacy.metaLen File, some (writeBytes b0 0 (seg ++ [0]))⟩ := by
  have hle := Legacy_metaLen_le File hwf
  constructor
  · rw [Legacy_query, u32_of_lt (by omega)]
  · exact ⟨Legacy.segmentBytes File, Legacy_segmentBytes_length File,
      Legacy_emit File b0 Size (by omega)⟩

set_option maxRecDepth 100000 in
/-- Witness of C34: the file built by `TDMS_CreateFile`, `TDMS_AddGroup` and
`TDMS_AddChannel` with one group and one channel has `Size` 207 in both modes;
emitted into a buffer of bytes AA, the last byte of the segment is at index
206 and index 207 holds the string terminator 0. -/
theorem C34_legacy_first_part_witness :
    (Legacy.exampleObjects.file 0).WellFormed ∧
    28 + Legacy.metaLen (Legacy.exampleObjects.file 0) = 207 ∧
    (Legacy.TDMS_GenFirstPart (Legacy.exampleObjects.file 0) (some (fun _ => 0xAA)) 0).Buffer.map
      (fun b => (b 206, b 207, b 208)) = some (0x43, 0, 0xAA) ∧
    (Legacy.TDMS_GenFirstPart (Legacy.exampleObjects.file 0) none 0
        = ⟨TDMS_OK, 28 + Legacy.metaLen (Legacy.exampleObjects.file 0), none⟩ ∧
     ∃ seg : List Nat, seg.length = 28 + Legacy.metaLen (Legacy.exampleObjects.file 0) ∧
      Legacy.TDMS_GenFirstPart (Legacy.exampleObjects.file 0) (some (fun _ => 0xAA)) 0
        = ⟨TDMS_OK, 28 + Legacy.metaLen (Legacy.exampleObjects.file 0),
            some (writeBytes (fun _ => 0xAA) 0 (seg ++ [0]))⟩) :=
  ⟨by decide, by decide, by decide,
    C34_legacy_first_part (Legacy.exampleObjects.file 0) (by decide) (fun _ => 0xAA) 0⟩

/-- C35: for every group, every buffer (NULL or not) and every list of
per-channel (values, count) pairs, `TDMS_SetGroupDataValues` returns the same
result code, the same `Size` and the same buffer as the call for the group that
holds only the channels with a nonzero count, in the same order with the same
values and counts. -/
theorem C35_zero_counts_invisible (Group : TDMS_Group_t) (Buffer : Option Mem) (Size : Nat)
    (args : List (Mem × Nat)) :
    TDMS_SetGroupDataValues
        ⟨(included (Group.ChannelArray.zip args)).map (fun x => x.1), Group.GroupPath⟩
        Buffer Size ((included (Group.ChannelArray.zip args)).map (fun x => x.2))
      = TDMS_SetGroupDataValues Group Buffer Size args := by
  simp only [TDMS_SetGroupDataValues, zip_included, countObjects_included,
    lenLoop_included _ 0 4 (by decide), emitMeta_included, emitRaw_included]

/-- C36: for every group holding exactly one channel whose type is not Boolean,
every n > 0, every value array and every buffer (NULL or not),
`TDMS_SetChannelDataValues(channel, values, n)` returns, and its result code,
`Size` and buffer are those of `TDMS_SetGroupDataValues(group, values, n)`; the
values are left as they are. -/
theorem C36_single_channel_group (fuel : Nat) (ch : TDMS_Channel_t) (GroupPath : List Nat)
    (Buffer : Option Mem) (Size : Nat) (Values : Mem) (n : Nat)
    (hb : ch.ChannelDataType ≠ TDMS_DataType_Boolean) (hn : 0 < n) :
    TDMS_SetChannelDataValues fuel ch Buffer Size Values n
      = some ⟨(TDMS_SetGroupDataValues ⟨[ch], GroupPath⟩ Buffer Size [(Values, n)]).ret,
          (TDMS_SetGroupDataValues ⟨[ch], GroupPath⟩ Buffer Size [(Values, n)]).Size,
          (TDMS_SetGroupDataValues ⟨[ch], GroupPath⟩ Buffer Size [(Values, n)]).Buffer,
          Values⟩ := by
  have hn0 : n ≠ 0 := by omega
  have h1 : u32 (0 + 1) ≠ 0 := by decide
  have h32 : u32 (0 + 32) = 32 := by decide
  have h428 : u32 (4 + 28) = 32 := by decide
  by_cases hR : u32 (dataTypeLength ch.ChannelDataType * n) = 0
  · simp only [TDMS_SetChannelDataValues, TDMS_SetGroupDataValues, List.zip_cons_cons,
      List.zip_nil_right, SetGroupDataValues.countObjects, List.foldl_cons, List.foldl_nil,
      SetGroupDataValues.lenLoop, if_pos hn0, if_neg h1, if_pos hR, ne_eq, not_false_eq_true,
      hn0, if_true]
  · have hs : ch.ChannelDataType ≠ TDMS_DataType_String := by
      intro hs; rw [hs] at hR; exact hR (by simp [dataTypeLength, u32])
    cases Buffer with
    | none =>
      simp only [TDMS_SetChannelDataValues, TDMS_SetGroupDataValues, List.zip_cons_cons,
        List.zip_nil_right, SetGroupDataValues.countObjects, List.foldl_cons, List.foldl_nil,
        SetGroupDataValues.lenLoop, if_pos hn0, if_neg h1, if_neg hR, if_neg hb, if_neg hs,
        ne_eq, not_false_eq_true, hn0, h32, h428, Nat.zero_add, u32_idem, if_true]
    | some b0 =>
      simp only [TDMS_SetChannelDataValues, TDMS_SetGroupDataValues, List.zip_cons_cons,
        List.zip_nil_right, SetGroupDataValues.countObjects, List.foldl_cons, List.foldl_nil,
        SetGroupDataValues.lenLoop, SetGroupDataValues.emitMeta, SetGroupDataValues.emitRaw,
        if_pos hn0, if_neg h1, if_neg hR, if_neg hb, if_neg hs,
        ne_eq, not_false_eq_true, hn0, h32, h428, Nat.zero_add, u32_idem, if_true]
      rfl

/-- Witness of C36: the U8 channel `/'G'/'C'` alone in the group `G`, with the
three values 10 20 30 emitted into a buffer of zero bytes: both builders return
`TDMS_OK` with `Size` 71. -/
theorem C36_single_channel_group_witness :
    exampleChannel.ChannelDataType ≠ TDMS_DataType_Boolean ∧ 0 < 3 ∧
    (TDMS_SetGroupDataValues ⟨[exampleChannel], pathG⟩ (some (fun _ => 0)) 0
      [(fun i => 10 * (i + 1), 3)]).ret = TDMS_OK ∧
    (TDMS_SetGroupDataValues ⟨[exampleChannel], pathG⟩ (some (fun _ => 0)) 0
      [(fun i => 10 * (i + 1), 3)]).Size = 71 ∧
    TDMS_SetChannelDataValues 0 exampleChannel (some (fun _ => 0)) 0 (fun i => 10 * (i + 1)) 3
      = some ⟨(TDMS_SetGroupDataValues ⟨[exampleChannel], pathG⟩ (some (fun _ => 0)) 0
            [(fun i => 10 * (i + 1), 3)]).ret,
          (TDMS_SetGroupDataValues ⟨[exampleChannel], pathG⟩ (some (fun _ => 0)) 0
            [(fun i => 10 * (i + 1), 3)]).Size,
          (TDMS_SetGroupDataValues ⟨[exampleChannel], pathG⟩ (some (fun _ => 0)) 0
            [(fun i => 10 * (i + 1), 3)]).Buffer,
          fun i => 10 * (i + 1)⟩ :=
  ⟨by decide, by decide, by decide, by decide,
    C36_single_channel_group 0 exampleChannel pathG (some (fun _ => 0)) 0
      (fun i => 10 * (i + 1)) 3 (by decide) (by decide)⟩

/-- C37: on a Boolean channel with n < 65536 (and fuel for the loop) the size
query and the emit call both return; the emit call made after the size query,
on the values and the `Size` the query has left, returns the same result code,
`Size`, buffer and value array as the emit call made alone on the original
values; a second size query changes nothing; for n > 0 the values after either
call are the normalised values, and normalising twice is normalising once. -/
theorem C37_two_pass_boolean (fuel : Nat) (ch : TDMS_Channel_t) (b0 : Mem) (Size : Nat)
    (Values : Mem) (n : Nat) (hb : ch.ChannelDataType = TDMS_DataType_Boolean)
    (hn : n < 65536) (hf : n < fuel) :
    ∃ q e, TDMS_SetChannelDataValues fuel ch none Size Values n = some q ∧
      TDMS_SetChannelDataValues fuel ch (some b0) Size Values n = some e ∧
      TDMS_SetChannelDataValues fuel ch (some b0) q.Size q.Values n = some e ∧
      TDMS_SetChannelDataValues fuel ch none q.Size q.Values n = some q ∧
      (n ≠ 0 → q.Values = boolNorm n Values ∧ e.Values = boolNorm n Values) ∧
      boolNorm n (boolNorm n Values) = boolNorm n Values := by
  have hterm : ch.ChannelDataType = TDMS_DataType_Boolean → n < 65536 ∧ n < fuel :=
    fun _ => ⟨hn, hf⟩
  by_cases hR : u32 (dataTypeLength ch.ChannelDataType * n) = 0
  · have hn0 : n = 0 := by
      rw [hb] at hR
      simp only [dataTypeLength, u32] at hR
      omega
    refine ⟨⟨TDMS_WRONG_ARG, Size, none, Values⟩, ⟨TDMS_WRONG_ARG, Size, some b0, Values⟩,
      SetChannel_wrongArg fuel ch none Size Values n hR,
      SetChannel_wrongArg fuel ch (some b0) Size Values n hR,
      SetChannel_wrongArg fuel ch (some b0) Size Values n hR,
      SetChannel_wrongArg fuel ch none Size Values n hR,
      fun h => absurd hn0 h, boolNorm_idem n Values⟩
  · have hv : valuesAfter ch.ChannelDataType n Values = boolNorm n Values := by
      rw [valuesAfter, if_pos hb]
    have hnorm1 := normalised_eq fuel ch Values n hterm
    have hnorm2 := normalised_eq fuel ch (boolNorm n Values) n hterm
    rw [hv] at hnorm1
    have hv2 : valuesAfter ch.ChannelDataType n (boolNorm n Values) = boolNorm n Values := by
      rw [valuesAfter, if_pos hb, boolNorm_idem]
    rw [hv2] at hnorm2
    have key : ∀ (Buffer : Option Mem) (S1 S2 : Nat),
        TDMS_SetChannelDataValues fuel ch Buffer S1 (boolNorm n Values) n
          = TDMS_SetChannelDataValues fuel ch Buffer S2 Values n := by
      intro Buffer S1 S2
      simp only [TDMS_SetChannelDataValues, if_neg hR, hnorm1, hnorm2]
    obtain ⟨q, hq, _, hqv⟩ := SetChannel_ok fuel ch none Size Values n hR hterm
    obtain ⟨e, he, _, hev⟩ := SetChannel_ok fuel ch (some b0) Size Values n hR hterm
    rw [hv] at hqv hev
    refine ⟨q, e, hq, he, ?_, ?_, fun _ => ⟨hqv, hev⟩, boolNorm_idem n Values⟩
    · rw [hqv, key]; exact he
    · rw [hqv, key]; exact hq

/-- Witness of C37: the Boolean channel `/'G'/'C'` with the three values
0 5 1: the size query reports 71 and leaves the values 0 1 1, and the emit
call after it gives what the emit call alone gives. -/
theorem C37_two_pass_boolean_witness :
    exampleBoolChannel.ChannelDataType = TDMS_DataType_Boolean ∧ 3 < 65536 ∧ 3 < 4 ∧
    (TDMS_SetChannelDataValues 4 exampleBoolChannel none 0 boolValues 3).map
      (fun q => (q.ret, q.Size, memDump q.Values 4)) = some (TDMS_OK, 71, [0, 1, 1, 9]) ∧
    ∃ q e, TDMS_SetChannelDataValues 4 exampleBoolChannel none 0 boolValues 3 = some q ∧
      TDMS_SetChannelDataValues 4 exampleBoolChannel (some (fun _ => 0)) 0 boolValues 3
        = some e ∧
      TDMS_SetChannelDataValues 4 exampleBoolChannel (some (fun _ => 0)) q.Size q.Values 3
        = some e ∧
      TDMS_SetChannelDataValues 4 exampleBoolChannel none q.Size q.Values 3 = some q ∧
      (3 ≠ 0 → q.Values = boolNorm 3 boolValues ∧ e.Values = boolNorm 3 boolValues) ∧
      boolNorm 3 (boolNorm 3 boolValues) = boolNorm 3 boolValues :=
  ⟨by decide, by decide, by decide, by decide,
    C37_two_pass_boolean 4 exampleBoolChannel (fun _ => 0) 0 boolValues 3 (by decide)
      (by decide) (by decide)⟩

/-- C38: for every valid civil instant with 1905 <= Y <= 32767
`TDMS_TimeSecond(Y, M, D, h, m, s)` returns the number of seconds from
1904-01-01 00:00:00 to the instant in the proleptic Gregorian calendar,
86400 * (days from 1904-01-01 to Y-M-D) + 3600*h + 60*m + s. -/
theorem C38_TimeSecond_civil (Y M D h m s : Nat) (hv : validCivil Y M D h m s)
    (hY1 : 1905 ≤ Y) (hY : Y ≤ 32767) :
    TDMS_TimeSecond Y M D h m s = some (civilSeconds Y M D h m s) := by
  have hD : D < 256 := by
    have h1 := hv.2.2.2.2.1
    have h2 : daysOfMonth Y M ≤ 31 := by
      unfold daysOfMonth; split_ifs <;> omega
    omega
  rw [TimeSecond_eq Y M D h m s hv hY hD, if_neg (by omega), add_zero]

set_option maxRecDepth 100000 in
/-- Witness of C38: the instant of the example, 2023-05-17 12:14:10, is second
3767170450. -/
theorem C38_TimeSecond_civil_witness :
    validCivil 2023 5 17 12 14 10 ∧ 1905 ≤ 2023 ∧ 2023 ≤ 32767 ∧
    civilSeconds 2023 5 17 12 14 10 = 3767170450 ∧
    TDMS_TimeSecond 2023 5 17 12 14 10 = some (civilSeconds 2023 5 17 12 14 10) :=
  ⟨by decide, by decide, by decide, by decide,
    C38_TimeSecond_civil 2023 5 17 12 14 10 (by decide) (by decide) (by decide)⟩

/-- C39 (the code on its domain): for two valid civil instants with years up to
32767, the first earlier than the second, `TDMS_TimeSecond` returns a smaller
value for the first unless the first lies in 1904 and the second in a later
year; but 1904-12-31 00:00:00, which is earlier than 1905-01-01 00:00:00, gets
the same second 31622400, and 1904-12-31 23:59:59 gets the larger 31708799. -/
theorem C39_increasing_off_base_year (Y1 M1 D1 h1 m1 s1 Y2 M2 D2 h2 m2 s2 : Nat)
    (ha : validCivil Y1 M1 D1 h1 m1 s1) (hb : validCivil Y2 M2 D2 h2 m2 s2)
    (hY1 : Y1 ≤ 32767) (hY2 : Y2 ≤ 32767)
    (hlt : civilEarlier Y1 M1 D1 h1 m1 s1 Y2 M2 D2 h2 m2 s2)
    (hbase : Y1 = 1904 → Y2 = 1904) :
    (∃ ta tb, TDMS_TimeSecond Y1 M1 D1 h1 m1 s1 = some ta ∧
      TDMS_TimeSecond Y2 M2 D2 h2 m2 s2 = some tb ∧ ta < tb) ∧
    validCivil 1904 12 31 0 0 0 ∧ validCivil 1905 1 1 0 0 0 ∧
    civilEarlier 1904 12 31 0 0 0 1905 1 1 0 0 0 ∧
    TDMS_TimeSecond 1904 12 31 0 0 0 = some 31622400 ∧
    TDMS_TimeSecond 1905 1 1 0 0 0 = some 31622400 ∧
    TDMS_TimeSecond 1904 12 31 23 59 59 = some 31708799 := by
  have hD : ∀ Y M D h m s, validCivil Y M D h m s → D < 256 := by
    intro Y M D h m s hv
    have h1 := hv.2.2.2.2.1
    have h2 : daysOfMonth Y M ≤ 31 := by
      unfold daysOfMonth; split_ifs <;> omega
    omega
  have hc := civilSeconds_lt Y1 M1 D1 h1 m1 s1 Y2 M2 D2 h2 m2 s2 ha hb hlt
  refine ⟨⟨_, _, TimeSecond_eq Y1 M1 D1 h1 m1 s1 ha hY1 (hD _ _ _ _ _ _ ha),
    TimeSecond_eq Y2 M2 D2 h2 m2 s2 hb hY2 (hD _ _ _ _ _ _ hb), ?_⟩,
    by decide, by decide, by decide, by decide, by decide, by decide⟩
  have hle : Y1 ≤ Y2 := by
    rcases hlt with h | ⟨h, _⟩ <;> omega
  have := ha.1
  split_ifs <;> omega

set_option maxRecDepth 100000 in
/-- Witness of C39: 2023-05-17 12:14:10 and the instant one second later. -/
theorem C39_increasing_off_base_year_witness :
    validCivil 2023 5 17 12 14 10 ∧ validCivil 2023 5 17 12 14 11 ∧
    civilEarlier 2023 5 17 12 14 10 2023 5 17 12 14 11 ∧
    ∃ ta tb, TDMS_TimeSecond 2023 5 17 12 14 10 = some ta ∧
      TDMS_TimeSecond 2023 5 17 12 14 11 = some tb ∧ ta < tb :=
  ⟨by decide, by decide, by decide,
    (C39_increasing_off_base_year 2023 5 17 12 14 10 2023 5 17 12 14 11 (by decide) (by decide)
      (by decide) (by decide) (by decide) (by decide)).1⟩

/-- C40 (as amended): bytes [8..12) of every segment emitted by any of the four
builders whose size fits in 32 bits are 69 12 00 00, which read as a
little-endian u32 is 4713. -/
theorem C40_version_number (c : EmitCall) (b0 : Mem) (Size : Nat) (hfit : c.Fits) :
    ∃ k b, c.run b0 Size = some ⟨TDMS_OK, k, some b⟩ ∧
      bytesAt b 8 12 = [0x69, 0x12, 0x00, 0x00] ∧ leValue (bytesAt b 8 12) = 4713 := by
  obtain ⟨k, Next, Raw, rest, e⟩ := EmitCall.run_fits c b0 Size hfit
  have h := (bytesAt_leadIn b0 c.tocOf Next Raw rest).2.2
  exact ⟨k, _, e, h, by rw [h]; rfl⟩

/-- Witness of C40: the group property `Author` = String `X` on group `G`. -/
theorem C40_version_number_witness :
    (EmitCall.property pathG nameAuthor TDMS_DataType_String valueX).Fits ∧
    ∃ k b, (EmitCall.property pathG nameAuthor TDMS_DataType_String valueX).run (fun _ => 0) 0
        = some ⟨TDMS_OK, k, some b⟩ ∧
      bytesAt b 8 12 = [0x69, 0x12, 0x00, 0x00] ∧ leValue (bytesAt b 8 12) = 4713 :=
  ⟨by decide,
    C40_version_number (EmitCall.property pathG nameAuthor TDMS_DataType_String valueX)
      (fun _ => 0) 0 (by decide)⟩

/-- Counterexample to C40 as stated: for the group `G` with two U8 channels and
the counts 2^32 - 96 and 4 the emit call returns `TDMS_OK`; the 32-bit write
position wraps to 8 after the first raw block, the second block is copied over
the version field, and bytes [8..12) read as a little-endian u32 are
4294967295. -/
theorem C40_counterexample :
    (TDMS_SetGroupDataValues twoChannelGroup (some (fun _ => 0)) 0 (wrapArgs 8)).ret = TDMS_OK ∧
    (TDMS_SetGroupDataValues twoChannelGroup (some (fun _ => 0)) 0 (wrapArgs 8)).Buffer.map
      (fun b => leValue (bytesAt b 8 12)) = some 4294967295 := by
  obtain ⟨h1, h2⟩ := group_wrap_overwrites 8 (by decide) (fun _ => 0)
  refine ⟨h1, ?_⟩
  cases hB : (TDMS_SetGroupDataValues twoChannelGroup (some (fun _ => 0)) 0 (wrapArgs 8)).Buffer with
  | none => rw [hB] at h2; exact Option.noConfusion h2
  | some b =>
    rw [hB] at h2
    simp only [Option.map_some', Option.some.injEq] at h2 ⊢
    have h3 : bytesAt b 8 12 = [0xFF, 0xFF, 0xFF, 0xFF] := h2
    rw [h3]; rfl

end TDMS
